import Mathlib

/-! # Rode server: pagination engine and collector registration

A shallow embedding of `server/server.go` (package `server` of `rode/rode`):
`genericList`, `handlePagination`, `RegisterCollector`, `initialize`,
`createError`, `createErrorWithCode`, `buildNoteIdFromCollectorId`,
`getNoteIdFromNoteName`.

Conventions of the embedding.

* Go `string` is `String`; `strings.HasPrefix` and `strings.TrimPrefix` are
  defined on the character lists.
* Go `int32` and `int` are `Int`; the one arithmetic operation of the file,
  `from+int(pageSize)`, is computed in 64-bit two's complement (`addInt`).
* Go `error` is `GoError`; a nil error is `none`.
* Go maps are association lists in insertion order (`GoMap`).
* Every call to a collaborator (filter compiler, Elasticsearch client, note
  store) and every log entry is recorded, in program order, in the list of
  `Event`s carried by `Run`.
* The collaborators themselves are parameters (`EsEnv`, `GrafeasClient`,
  `ProjectsClient`, `IndexManager`); the
  page-token codec of `esutil` is one of them (`ParsePageToken`,
  `CreatePageToken`).
* `genericList` is embedded in two parts: `genericList` up to the call of
  `esClient.Search`, and `finishSearch` from that call to the return.
* The loops of `RegisterCollector` are `collectNotes`, `adoptListedNote` and
  `adoptCreatedNote`.

The definitions come first, the properties after them. The model note store,
the model index and the model codec serve to state the properties that are
about a sequence of calls and to instantiate the general ones.
-/

namespace Rode

/-! ## Strings -/

/-- Go `strings.HasPrefix(s, p)`. -/
def HasPrefix (s p : String) : Bool := p.data.isPrefixOf s.data

/-- Go `strings.TrimPrefix(s, p)`: `s` without the leading `p`, or `s` itself
when `s` does not start with `p`. -/
def TrimPrefix (s p : String) : String :=
  if HasPrefix s p then String.mk (s.data.drop p.data.length) else s

/-! ## Constants of `server.go` -/

def rodeProjectSlug : String := "projects/rode"
def policiesDocumentKind : String := "policies"
def genericResourcesDocumentKind : String := "generic-resources"
def rodeElasticsearchOccurrencesAlias : String := "grafeas-rode-occurrences"
def maxPageSize : Int := 1000
def pitKeepAlive : String := "5m"

/-! ## Machine integers -/

/-- Largest value of Go `int` on a 64-bit platform. -/
def maxInt : Int := 9223372036854775807

/-- Smallest value of Go `int` on a 64-bit platform. -/
def minInt : Int := -9223372036854775808

/-- Largest value of Go `int32`. -/
def maxInt32 : Int := 2147483647

/-- Smallest value of Go `int32`. -/
def minInt32 : Int := -2147483648

/-- Reduction of an integer to the 64-bit two's complement range. -/
def wrapInt (x : Int) : Int := (x + 9223372036854775808) % 18446744073709551616 - 9223372036854775808

/-- Go `a + b` on `int` operands. -/
def addInt (a b : Int) : Int := wrapInt (a + b)

/-- The value is representable as a Go `int`. -/
def IsInt (x : Int) : Prop := minInt ≤ x ∧ x ≤ maxInt

/-- The value is representable as a Go `int32`. -/
def IsInt32 (x : Int) : Prop := minInt32 ≤ x ∧ x ≤ maxInt32

/-! ## gRPC status codes and Go errors -/

/-- The codes of `google.golang.org/grpc/codes`. -/
inductive Code where
  | OK | Canceled | Unknown | InvalidArgument | DeadlineExceeded | NotFound
  | AlreadyExists | PermissionDenied | ResourceExhausted | FailedPrecondition
  | Aborted | OutOfRange | Unimplemented | Internal | Unavailable | DataLoss
  | Unauthenticated
  deriving DecidableEq, Repr

/-- The method `codes.Code.String`. -/
def Code.String : Code → String
  | .OK => "OK"
  | .Canceled => "Canceled"
  | .Unknown => "Unknown"
  | .InvalidArgument => "InvalidArgument"
  | .DeadlineExceeded => "DeadlineExceeded"
  | .NotFound => "NotFound"
  | .AlreadyExists => "AlreadyExists"
  | .PermissionDenied => "PermissionDenied"
  | .ResourceExhausted => "ResourceExhausted"
  | .FailedPrecondition => "FailedPrecondition"
  | .Aborted => "Aborted"
  | .OutOfRange => "OutOfRange"
  | .Unimplemented => "Unimplemented"
  | .Internal => "Internal"
  | .Unavailable => "Unavailable"
  | .DataLoss => "DataLoss"
  | .Unauthenticated => "Unauthenticated"

/-- A non-nil Go `error`: either an error made by a collaborator or by
`errors.New` (only its text matters), or a gRPC status error made by
`status.Errorf`. -/
inductive GoError where
  | plain (text : String)
  | status (code : Code) (desc : String)
  deriving DecidableEq, Repr

/-- The method `Error()`; for a status error the text is the one the grpc
`status` package prints. -/
def GoError.Error : GoError → String
  | .plain text => text
  | .status code desc => "rpc error: code = " ++ code.String ++ " desc = " ++ desc

/-- Go `status.Code(err)` for a non-nil error. -/
def GoError.Code : GoError → Code
  | .plain _ => Code.Unknown
  | .status code _ => code

/-! ## Notes -/

/-- Modelled from the spec: the enumeration `common_go_proto.NoteKind`, whose
declaration is generated code outside the source file. The eight kinds that
`buildNoteIdFromCollectorId` switches on are named; every other value of the
open protobuf enumeration is `NOTE_KIND_UNSPECIFIED` or `unrecognized`. -/
inductive NoteKind where
  | NOTE_KIND_UNSPECIFIED
  | VULNERABILITY
  | BUILD
  | IMAGE
  | PACKAGE
  | DEPLOYMENT
  | DISCOVERY
  | ATTESTATION
  | INTOTO
  | unrecognized (value : Int)
  deriving DecidableEq, Repr

/-- The message `grafeas_proto.Note`, with the fields the server reads or
writes (`Name`, `Kind`) and two of the descriptive fields it passes through. -/
structure Note where
  Name : String
  Kind : NoteKind
  ShortDescription : String
  LongDescription : String
  deriving DecidableEq, Repr

/-- A Go `map[string]V`, as an association list in insertion order with at
most one entry per key. -/
abbrev GoMap (V : Type) := List (String × V)

/-- Go `v, ok := m[k]`. -/
def GoMap.get {V : Type} (m : GoMap V) (k : String) : Option V :=
  match m with
  | [] => none
  | (k1, v) :: rest => if k1 = k then some v else GoMap.get rest k

/-- Go `m[k] = v`. -/
def GoMap.set {V : Type} (m : GoMap V) (k : String) (v : V) : GoMap V :=
  match m with
  | [] => [(k, v)]
  | (k1, v1) :: rest => if k1 = k then (k1, v) :: rest else (k1, v1) :: GoMap.set rest k v

/-- Go `delete(m, k)`. -/
def GoMap.delete {V : Type} (m : GoMap V) (k : String) : GoMap V :=
  match m with
  | [] => []
  | (k1, v1) :: rest => if k1 = k then GoMap.delete rest k else (k1, v1) :: GoMap.delete rest k

/-- The keys of a map. -/
def GoMap.keys {V : Type} (m : GoMap V) : List String := m.map Prod.fst

/-! ## Logging -/

/-- A `zap.Field`. -/
inductive Field where
  | String (key value : String)
  | Int (key : String) (value : Int)
  | Int32 (key : String) (value : Int)
  | Error (err : GoError)
  | Notes (key : String) (value : GoMap Note)
  deriving DecidableEq, Repr

/-- A `*zap.Logger`: the names given by `Named` and the fields given by
`With`. -/
structure Logger where
  names : List String
  fields : List Field
  deriving DecidableEq, Repr

/-- The method `Logger.Named`. -/
def Logger.Named (log : Logger) (name : String) : Logger :=
  { log with names := log.names ++ [name] }

/-- The method `Logger.With`. -/
def Logger.With (log : Logger) (fields : List Field) : Logger :=
  { log with fields := log.fields ++ fields }

inductive Level where
  | Debug | Info | Error
  deriving DecidableEq, Repr

/-- One entry written to the log. -/
structure LogEntry where
  level : Level
  logger : Logger
  message : String
  fields : List Field
  deriving DecidableEq, Repr

/-! ## Messages of the note store and of the collector registration -/

/-- The message `grafeas_proto.ListNotesRequest`. -/
structure ListNotesRequest where
  Parent : String
  Filter : String
  PageSize : Int := 0
  PageToken : String := ""
  deriving DecidableEq, Repr

/-- The message `grafeas_proto.ListNotesResponse`. -/
structure ListNotesResponse where
  Notes : List Note
  NextPageToken : String := ""
  deriving DecidableEq, Repr

/-- The message `grafeas_proto.BatchCreateNotesRequest`. -/
structure BatchCreateNotesRequest where
  Parent : String
  Notes : GoMap Note
  deriving DecidableEq, Repr

/-- The message `grafeas_proto.BatchCreateNotesResponse`. -/
structure BatchCreateNotesResponse where
  Notes : List Note
  deriving DecidableEq, Repr

/-- The message `pb.RegisterCollectorRequest`. -/
structure RegisterCollectorRequest where
  Id : String
  Notes : List Note
  deriving DecidableEq, Repr

/-- The message `pb.RegisterCollectorResponse`. -/
structure RegisterCollectorResponse where
  Notes : GoMap Note := []
  deriving DecidableEq, Repr

/-- The two note-store methods of `grafeas_proto.GrafeasV1Beta1Client` that
`RegisterCollector` calls, over a store state `σ`. -/
structure GrafeasClient (σ : Type) where
  ListNotes : σ → ListNotesRequest → Except GoError ListNotesResponse
  BatchCreateNotes : σ → BatchCreateNotesRequest → Except GoError BatchCreateNotesResponse × σ

/-! ## Messages of the search index -/

/-- The compiled filter, `*filtering.Query`; only its identity matters. -/
structure Query where
  text : String
  deriving DecidableEq, Repr

/-- The type `esutil.EsSortOrder`, a string. -/
abbrev EsSortOrder := String

def EsSortOrderAscending : EsSortOrder := "asc"

/-- The struct `esutil.EsSearchCollapse`. -/
structure EsSearchCollapse where
  Field : String
  deriving DecidableEq, Repr

/-- The struct `esutil.EsSearchPit`. -/
structure EsSearchPit where
  Id : String
  KeepAlive : String
  deriving DecidableEq, Repr

/-- The struct `esutil.EsSearch`, the body of a search (`SortClause` is its
field `Sort`). -/
structure EsSearch where
  Collapse : Option EsSearchCollapse := none
  Pit : Option EsSearchPit := none
  Query : Option Query := none
  SortClause : GoMap EsSortOrder := []
  deriving DecidableEq, Repr

/-- One document of a search response. -/
structure EsSearchResponseHit where
  Source : String
  deriving DecidableEq, Repr

/-- The struct `esutil.EsSearchResponseTotal`. -/
structure EsSearchResponseTotal where
  Value : Int
  deriving DecidableEq, Repr

/-- The struct `esutil.EsSearchResponseHits`. -/
structure EsSearchResponseHits where
  Total : EsSearchResponseTotal
  Hits : List EsSearchResponseHit
  deriving DecidableEq, Repr

/-- The struct `esutil.EsSearchResponse`. -/
structure EsSearchResponse where
  Hits : EsSearchResponseHits
  deriving DecidableEq, Repr

/-- The struct `esutil.ESPitResponse`. -/
structure ESPitResponse where
  Id : String
  deriving DecidableEq, Repr

/-- An `*esapi.Response` together with what `esutil.DecodeResponse` makes of
its body. -/
structure Response (α : Type) where
  StatusCode : Int
  text : String
  decoded : Except GoError α

/-- The method `esapi.Response.IsError`. -/
def Response.IsError {α : Type} (res : Response α) : Bool := decide (res.StatusCode > 299)

/-- The fields of `esapi.SearchRequest` that the server sets. -/
structure SearchRequest where
  Index : List String := []
  Size : Option Int := none
  From : Option Int := none
  Body : Option EsSearch := none
  deriving DecidableEq, Repr

/-- The functional options of `esClient.Search`. -/
inductive SearchOption where
  | WithContext
  | WithIndex (index : String)
  | WithSize (size : Int)
  | WithFrom (offset : Int)
  | WithBody (body : EsSearch)
  deriving DecidableEq, Repr

/-- Applying one functional option to the request. -/
def SearchOption.apply (req : SearchRequest) : SearchOption → SearchRequest
  | .WithContext => req
  | .WithIndex index => { req with Index := [index] }
  | .WithSize size => { req with Size := some size }
  | .WithFrom offset => { req with From := some offset }
  | .WithBody body => { req with Body := some body }

/-- The request that `esClient.Search(options...)` sends. -/
def buildSearchRequest (options : List SearchOption) : SearchRequest :=
  options.foldl SearchOption.apply {}

/-- The collaborators of `genericList`: the filter compiler
(`filtering.Filterer`), the Elasticsearch client, and the page-token codec and
request encoder of `esutil`. -/
structure EsEnv where
  ParseExpression : String → Except GoError Query
  OpenPointInTime : String → String → Except GoError (Response ESPitResponse)
  Search : SearchRequest → Except GoError (Response EsSearchResponse)
  ParsePageToken : String → Except GoError (String × Int)
  CreatePageToken : String → Int → String
  EncodeRequest : EsSearch → String

/-! ## Effects -/

/-- One observable step of a handler: a log entry or a call to a
collaborator. -/
inductive Event where
  | Log (entry : LogEntry)
  | ParseExpression (filter : String)
  | OpenPointInTime (index keepAlive : String)
  | Search (request : SearchRequest)
  | ListNotes (request : ListNotesRequest)
  | BatchCreateNotes (request : BatchCreateNotesRequest)
  | InitializeIndexManager
  | GetProject (name : String)
  | CreateProject (name : String)
  | CreateIndex (indexName aliasName documentKind : String)
  deriving DecidableEq, Repr

/-- The outcome of a handler: the value or error it returns and the events it
produced, in order. -/
structure Run (α : Type) where
  result : Except GoError α
  events : List Event

/-- A step that returns a value and produces no event. -/
def Run.pure {α : Type} (a : α) : Run α := ⟨.ok a, []⟩

/-- Sequencing: the second step runs only when the first returned a value. -/
def Run.bind {α β : Type} (x : Run α) (f : α → Run β) : Run β :=
  match x.result with
  | .error err => ⟨.error err, x.events⟩
  | .ok a => ⟨(f a).result, x.events ++ (f a).events⟩

/-- Returning the error made by `createError`, after the events `before`. -/
def Run.fail {α : Type} (before : List Event) (made : GoError × List Event) : Run α :=
  ⟨.error made.1, before ++ made.2⟩

/-- The method `Logger.Error`. -/
def Logger.Error (log : Logger) (message : String) (fields : List Field) : List Event :=
  [Event.Log ⟨Level.Error, log, message, fields⟩]

/-- The method `Logger.Info`. -/
def Logger.Info (log : Logger) (message : String) (fields : List Field) : List Event :=
  [Event.Log ⟨Level.Info, log, message, fields⟩]

/-- The method `Logger.Debug`. -/
def Logger.Debug (log : Logger) (message : String) (fields : List Field) : List Event :=
  [Event.Log ⟨Level.Debug, log, message, fields⟩]

/-! ## `createError` and `createErrorWithCode` -/

/-- The function `createErrorWithCode`: logs at error level and returns a
status error with the given code. -/
def createErrorWithCode (log : Logger) (message : String) (err : Option GoError) (code : Code)
    (fields : List Field) : GoError × List Event :=
  match err with
  | none => (GoError.status code message, log.Error message fields)
  | some e => (GoError.status code (message ++ ": " ++ e.Error), log.Error message (fields ++ [Field.Error e]))

/-- The function `createError`: `createErrorWithCode` with `codes.Internal`. -/
def createError (log : Logger) (message : String) (err : Option GoError) (fields : List Field) :
    GoError × List Event :=
  createErrorWithCode log message err Code.Internal fields

/-! ## Note identifiers -/

/-- The function `buildNoteIdFromCollectorId`. -/
def buildNoteIdFromCollectorId (collectorId : String) (note : Note) : String :=
  match note.Kind with
  | .VULNERABILITY => collectorId ++ "-vulnerability"
  | .BUILD => collectorId ++ "-build"
  | .IMAGE => collectorId ++ "-image"
  | .PACKAGE => collectorId ++ "-package"
  | .DEPLOYMENT => collectorId ++ "-deployment"
  | .DISCOVERY => collectorId ++ "-discovery"
  | .ATTESTATION => collectorId ++ "-attestation"
  | .INTOTO => collectorId ++ "-intoto"
  | _ => collectorId ++ "-unspecified"

/-- The function `getNoteIdFromNoteName`. -/
def getNoteIdFromNoteName (noteName : String) : String :=
  TrimPrefix noteName (rodeProjectSlug ++ "/notes/")

/-! ## `RegisterCollector` -/

/-- The first loop of `RegisterCollector`: fills `notesWithIds` and
`notesToCreate`, and stops with `none` at the first note whose id is already
in `notesWithIds`. -/
def collectNotes (collectorId : String) :
    List Note → GoMap Note × GoMap Note → Option (GoMap Note × GoMap Note)
  | [], maps => some maps
  | note :: rest, (notesWithIds, notesToCreate) =>
    let noteId := buildNoteIdFromCollectorId collectorId note
    match notesWithIds.get noteId with
    | some _ => none
    | none => collectNotes collectorId rest (notesWithIds.set noteId note, notesToCreate.set noteId note)

/-- One iteration of the second loop of `RegisterCollector`, over the notes
that `ListNotes` returned. -/
def adoptListedNote (maps : GoMap Note × GoMap Note) (note : Note) : GoMap Note × GoMap Note :=
  let noteId := getNoteIdFromNoteName note.Name
  match maps.1.get noteId with
  | some requested => (maps.1.set noteId { requested with Name := note.Name }, maps.2.delete noteId)
  | none => maps

/-- One iteration of the third loop of `RegisterCollector`, over the notes
that `BatchCreateNotes` returned. -/
def adoptCreatedNote (notesWithIds : GoMap Note) (note : Note) : GoMap Note :=
  let noteId := getNoteIdFromNoteName note.Name
  match notesWithIds.get noteId with
  | some requested => notesWithIds.set noteId { requested with Name := note.Name }
  | none => notesWithIds

/-- The filter that `RegisterCollector` sends to `ListNotes`. -/
def registerCollectorFilter (collectorId : String) : String :=
  "name.startsWith(\"" ++ rodeProjectSlug ++ "/notes/" ++ collectorId ++ "-\")"

/-- The method `rodeServer.RegisterCollector`, run on the store state
`store`; returns the outcome and the store state afterwards. -/
def RegisterCollector {σ : Type} (grafeasCommon : GrafeasClient σ) (logger : Logger) (store : σ)
    (registerCollectorRequest : RegisterCollectorRequest) : Run RegisterCollectorResponse × σ :=
  let log := logger.Named "RegisterCollector"
  if registerCollectorRequest.Id = "" then
    (Run.fail [] (createErrorWithCode log "collector ID is required" none Code.InvalidArgument []), store)
  else if registerCollectorRequest.Notes.length = 0 then
    (Run.pure {}, store)
  else
    match collectNotes registerCollectorRequest.Id registerCollectorRequest.Notes ([], []) with
    | none =>
      (Run.fail [] (createErrorWithCode log
        "cannot use more than one note type when registering a collector" none Code.InvalidArgument []), store)
    | some collected =>
      let log := log.With [Field.Notes "notes" collected.1]
      let listRequest : ListNotesRequest :=
        { Parent := rodeProjectSlug, Filter := registerCollectorFilter registerCollectorRequest.Id }
      match grafeasCommon.ListNotes store listRequest with
      | .error err =>
        (Run.fail [Event.ListNotes listRequest] (createError log "error listing notes" (some err) []), store)
      | .ok listNotesResponse =>
        let maps := listNotesResponse.Notes.foldl adoptListedNote collected
        if maps.2.length ≠ 0 then
          let createRequest : BatchCreateNotesRequest := { Parent := rodeProjectSlug, Notes := maps.2 }
          match grafeasCommon.BatchCreateNotes store createRequest with
          | (.error err, store1) =>
            (Run.fail [Event.ListNotes listRequest, Event.BatchCreateNotes createRequest]
              (createError log "error creating notes" (some err) []), store1)
          | (.ok batchCreateNotesResponse, store1) =>
            (⟨.ok { Notes := batchCreateNotesResponse.Notes.foldl adoptCreatedNote maps.1 },
              [Event.ListNotes listRequest, Event.BatchCreateNotes createRequest]⟩, store1)
        else
          (⟨.ok { Notes := maps.1 }, [Event.ListNotes listRequest]⟩, store)

/-! ## `handlePagination` and `genericList` -/

/-- The struct `genericListOptions`. -/
structure genericListOptions where
  index : String
  filter : String := ""
  query : Option EsSearch := none
  pageSize : Int := 0
  pageToken : String := ""
  sortDirection : EsSortOrder := ""
  sortField : String := ""
  deriving DecidableEq, Repr

/-- The method `rodeServer.handlePagination`. Returns the token for the next
page, the extra search options, and the body with its `Pit` set (the source
sets it through the pointer it is given). -/
def handlePagination (env : EsEnv) (log : Logger) (body : EsSearch) (index pageToken : String)
    (pageSize : Int) : Run (String × List SearchOption × EsSearch) :=
  let log := log.With [Field.String "pageToken" pageToken, Field.Int32 "pageSize" pageSize]
  let acquired : Run (String × Int) :=
    if pageToken = "" then
      let opened := [Event.OpenPointInTime index pitKeepAlive]
      match env.OpenPointInTime index pitKeepAlive with
      | .error err =>
        Run.fail opened (createError log "error sending request to elasticsearch" (some err) [])
      | .ok res =>
        if res.IsError then
          Run.fail opened (createError log "unexpected response from elasticsearch" none
            [Field.String "response" res.text, Field.Int "status" res.StatusCode])
        else
          match res.decoded with
          | .error err =>
            Run.fail opened (createError log "error decoding elasticsearch response" (some err) [])
          | .ok pitResponse => ⟨.ok (pitResponse.Id, 0), opened⟩
    else
      match env.ParsePageToken pageToken with
      | .error err => Run.fail [] (createError log "error parsing page token" (some err) [])
      | .ok parsed => Run.pure parsed
  acquired.bind fun context =>
    Run.pure (env.CreatePageToken context.1 (addInt context.2 pageSize),
      [SearchOption.WithSize pageSize, SearchOption.WithFrom context.2],
      { body with Pit := some { Id := context.1, KeepAlive := pitKeepAlive } })

/-- The test `options.pageToken != "" || options.pageSize != 0` of
`genericList`. -/
def isPaginated (options : genericListOptions) : Bool :=
  decide (options.pageToken ≠ "") || decide (options.pageSize ≠ 0)

/-- The second part of the method `rodeServer.genericList`, from the call of
`esClient.Search` to the return: `before` are the events of the debug entry
and of the search itself, `log` is the logger at that point, `paginated` the
test on the options and `nextPageToken` the token that `handlePagination`
issued (empty for an unpaginated call). -/
def finishSearch (env : EsEnv) (log : Logger) (before : List Event) (request : SearchRequest)
    (paginated : Bool) (nextPageToken : String) : Run (EsSearchResponseHits × String) :=
  match env.Search request with
  | .error err =>
    Run.fail before (createError log "error sending request to elasticsearch" (some err) [])
  | .ok res =>
    if res.IsError then
      Run.fail before (createError log "unexpected response from elasticsearch" none
        [Field.String "response" res.text, Field.Int "status" res.StatusCode])
    else
      match res.decoded with
      | .error err =>
        Run.fail before (createError log "error decoding elasticsearch response" (some err) [])
      | .ok searchResults =>
        if paginated then
          match env.ParsePageToken nextPageToken with
          | .error err => Run.fail before (createError log "error parsing page token" (some err) [])
          | .ok parsed =>
            ⟨.ok (searchResults.Hits,
              if parsed.2 ≥ searchResults.Hits.Total.Value then "" else nextPageToken), before⟩
        else ⟨.ok (searchResults.Hits, nextPageToken), before⟩

/-- The method `rodeServer.genericList`, up to the call of `esClient.Search`;
`finishSearch` is the rest of it. Returns the hits and the next page token. -/
def genericList (env : EsEnv) (log : Logger) (options : genericListOptions) :
    Run (EsSearchResponseHits × String) :=
  let body : EsSearch := match options.query with
    | some query => query
    | none => {}
  let filtered : Run (Logger × EsSearch) :=
    if options.filter ≠ "" then
      let log := log.With [Field.String "filter" options.filter]
      match env.ParseExpression options.filter with
      | .error err =>
        Run.fail [Event.ParseExpression options.filter]
          (createError log "error while parsing filter expression" (some err) [])
      | .ok filterQuery =>
        ⟨.ok (log, { body with Query := some filterQuery }), [Event.ParseExpression options.filter]⟩
    else Run.pure (log, body)
  filtered.bind fun state =>
    let log := state.1
    let body : EsSearch :=
      if options.sortField ≠ "" then
        { state.2 with SortClause := [(options.sortField, options.sortDirection)] }
      else state.2
    let searchOptions := [SearchOption.WithContext]
    let prepared : Run (String × List SearchOption × EsSearch) :=
      if isPaginated options then
        let handled := handlePagination env log body options.index options.pageToken options.pageSize
        match handled.result with
        | .error err =>
          Run.fail handled.events (createError log "error while handling pagination" (some err) [])
        | .ok next => ⟨.ok (next.1, searchOptions ++ next.2.1, next.2.2), handled.events⟩
      else
        Run.pure ("", searchOptions ++
          [SearchOption.WithIndex options.index, SearchOption.WithSize maxPageSize], body)
    prepared.bind fun ready =>
      let nextPageToken := ready.1
      let body := ready.2.2
      let log := log.With [Field.String "request" (env.EncodeRequest body)]
      let request := buildSearchRequest (ready.2.1 ++ [SearchOption.WithBody body])
      finishSearch env log (log.Debug "performing search" [] ++ [Event.Search request]) request
        (isPaginated options) nextPageToken

/-! ## Observations on a run -/

/-- The search contexts opened during a run: the index of every
`OpenPointInTime` call. -/
def openedContexts : List Event → List String
  | [] => []
  | Event.OpenPointInTime index _ :: rest => index :: openedContexts rest
  | _ :: rest => openedContexts rest

/-- The searches executed during a run. -/
def searches : List Event → List SearchRequest
  | [] => []
  | Event.Search request :: rest => request :: searches rest
  | _ :: rest => searches rest

/-- The `ListNotes` calls of a run. -/
def listNotesCalls : List Event → List ListNotesRequest
  | [] => []
  | Event.ListNotes request :: rest => request :: listNotesCalls rest
  | _ :: rest => listNotesCalls rest

/-- The `BatchCreateNotes` calls of a run. -/
def batchCreateNotesCalls : List Event → List BatchCreateNotesRequest
  | [] => []
  | Event.BatchCreateNotes request :: rest => request :: batchCreateNotesCalls rest
  | _ :: rest => batchCreateNotesCalls rest

/-- The error-level log entries of a run. -/
def errorEntries : List Event → List LogEntry
  | [] => []
  | Event.Log entry :: rest =>
    if entry.level = Level.Error then entry :: errorEntries rest else errorEntries rest
  | _ :: rest => errorEntries rest

/-! ## A model note store -/

/-- The argument `p` of a filter of the form `name.startsWith("p")`. -/
def startsWithArgument (filter : String) : Option String :=
  let opening := "name.startsWith(\"".data
  let closing := "\")".data
  let rest := filter.data.drop opening.length
  if opening.isPrefixOf filter.data && closing.isSuffixOf rest then
    some (String.mk (rest.take (rest.length - closing.length)))
  else none

/-- A model note store: the stored notes, no two of them with the same
name. -/
structure NoteStore where
  notes : List Note
  distinct : (notes.map Note.Name).Nodup

/-- Storing a note under its name, in place of any note stored under that
name before. -/
def NoteStore.put (store : NoteStore) (note : Note) : NoteStore where
  notes := store.notes.filter (fun stored => decide (stored.Name ≠ note.Name)) ++ [note]
  distinct := by
    rw [List.map_append, List.nodup_append]
    refine ⟨?_, by simp, ?_⟩
    · exact store.distinct.sublist (List.Sublist.map _ (List.filter_sublist _))
    · intro name h1 h2
      simp only [List.map_cons, List.map_nil, List.mem_singleton] at h2
      simp only [List.mem_map, List.mem_filter, decide_eq_true_eq] at h1
      obtain ⟨stored, ⟨_, hne⟩, rfl⟩ := h1
      exact hne h2

/-- The note that the model store keeps for a submitted map entry: the
submitted note under the name `projects/rode/notes/<key>`. -/
def storedNote (entry : String × Note) : Note :=
  { entry.2 with Name := "projects/rode/notes/" ++ entry.1 }

/-- The model note store as a client: `ListNotes` returns every stored note
whose name starts with the prefix of the filter; `BatchCreateNotes` stores
each submitted note under `projects/rode/notes/<key>` and returns it. -/
def modelNoteStore : GrafeasClient NoteStore where
  ListNotes store request :=
    match startsWithArgument request.Filter with
    | some start => .ok { Notes := store.notes.filter fun note => HasPrefix note.Name start }
    | none => .error (GoError.status Code.InvalidArgument "unsupported filter")
  BatchCreateNotes store request :=
    (.ok { Notes := request.Notes.map storedNote },
      (request.Notes.map storedNote).foldl NoteStore.put store)

/-- The derived keys of a request, in request order. -/
def derivedKeys (request : RegisterCollectorRequest) : List String :=
  request.Notes.map (buildNoteIdFromCollectorId request.Id)

/-- The mapping from derived key to note name of a response. -/
def noteNames (response : RegisterCollectorResponse) : GoMap String :=
  response.Notes.map fun entry => (entry.1, entry.2.Name)

/-- The name of the last note of a list whose id is `key`, if any. -/
def lastNameWithId (notes : List Note) (key : String) : Option String :=
  notes.foldl (fun found note => if getNoteIdFromNoteName note.Name = key then some note.Name else found) none

/-- The kind token of a note id, as the source spells it. -/
def kindToken : NoteKind → String
  | .VULNERABILITY => "vulnerability"
  | .BUILD => "build"
  | .IMAGE => "image"
  | .PACKAGE => "package"
  | .DEPLOYMENT => "deployment"
  | .DISCOVERY => "discovery"
  | .ATTESTATION => "attestation"
  | .INTOTO => "intoto"
  | _ => "unspecified"

/-- The kind token of a note id as the specification lists it: the in-toto
kind is written with a hyphen. -/
def kindToken_spec : NoteKind → String
  | .VULNERABILITY => "vulnerability"
  | .BUILD => "build"
  | .IMAGE => "image"
  | .PACKAGE => "package"
  | .DEPLOYMENT => "deployment"
  | .DISCOVERY => "discovery"
  | .ATTESTATION => "attestation"
  | .INTOTO => "in-toto"
  | _ => "unspecified"

/-- The entries of `notesWithIds` after the first loop of `RegisterCollector`:
each requested note under its derived key. -/
def requestEntries (request : RegisterCollectorRequest) : GoMap Note :=
  request.Notes.map fun note => (buildNoteIdFromCollectorId request.Id note, note)

/-- The ids of a list of notes: their names with the note-name prefix
stripped. -/
def listedIds (notes : List Note) : List String :=
  notes.map fun note => getNoteIdFromNoteName note.Name

/-- The requested entries whose key is the id of no listed note. -/
def unmatchedEntries (request : RegisterCollectorRequest) (listed : List Note) : GoMap Note :=
  (requestEntries request).filter fun entry => decide (entry.1 ∉ listedIds listed)

/-- The request that `RegisterCollector` sends to `ListNotes`. -/
def listNotesRequest (request : RegisterCollectorRequest) : ListNotesRequest :=
  { Parent := rodeProjectSlug, Filter := registerCollectorFilter request.Id }

/-- The request that `RegisterCollector` sends to `BatchCreateNotes` after the
listing `listed`. -/
def batchCreateNotesRequest (request : RegisterCollectorRequest) (listed : List Note) :
    BatchCreateNotesRequest :=
  { Parent := rodeProjectSlug, Notes := unmatchedEntries request listed }

/-- A logger without names or fields, for the examples. -/
def sampleLogger : Logger := ⟨[], []⟩

/-- A request of the collector `scanner` with a build note and an image
note. -/
def sampleRequest : RegisterCollectorRequest :=
  ⟨"scanner", [⟨"", NoteKind.BUILD, "build note", ""⟩, ⟨"", NoteKind.IMAGE, "image note", ""⟩]⟩

/-- A model note store that holds the build note of the collector `scanner`
and a note of another collector. -/
def sampleStore : NoteStore :=
  ⟨[⟨"projects/rode/notes/scanner-build", NoteKind.BUILD, "stored", ""⟩,
    ⟨"projects/rode/notes/other-build", NoteKind.BUILD, "", ""⟩], by decide⟩

/-- The notes that the model store lists for the filter of a request. -/
def modelListing (store : NoteStore) (request : RegisterCollectorRequest) : List Note :=
  store.notes.filter fun note => HasPrefix note.Name ("projects/rode/notes/" ++ request.Id ++ "-")

/-- Every note of the list is named `projects/rode/notes/<id>`. -/
def CanonicalNames (notes : List Note) : Prop :=
  ∀ note ∈ notes, note.Name = "projects/rode/notes/" ++ getNoteIdFromNoteName note.Name

/-- The notes that the model store creates for a request: the stored form of
the requested entries that match no listed note. -/
def modelCreated (store : NoteStore) (request : RegisterCollectorRequest) : List Note :=
  (unmatchedEntries request (modelListing store request)).map storedNote

/-- The mapping from each derived key to `projects/rode/notes/<key>`. -/
def expectedNames (request : RegisterCollectorRequest) : GoMap String :=
  (derivedKeys request).map fun key => (key, "projects/rode/notes/" ++ key)

/-- The response of `RegisterCollector` against the model store: the requested
entries after the second loop over the listed notes and the third loop over
the created notes. -/
def modelResponse (store : NoteStore) (request : RegisterCollectorRequest) :
    RegisterCollectorResponse :=
  ⟨(modelCreated store request).foldl adoptCreatedNote
    ((modelListing store request).foldl adoptListedNote
      (requestEntries request, requestEntries request)).1⟩

/-! ## Assumptions on the collaborators of `genericList` -/

/-- The codec decodes what it encoded, for every offset that a Go `int` can
hold, and no encoded token is the empty string (the empty string stands for
"no token"). -/
def LawfulCodec (env : EsEnv) : Prop :=
  (∀ (context : String) (offset : Int), IsInt offset →
    env.ParsePageToken (env.CreatePageToken context offset) = .ok (context, offset)) ∧
  ∀ (context : String) (offset : Int), env.CreatePageToken context offset ≠ ""

/-- The filter of the options is empty or compiles. -/
def FilterCompiles (env : EsEnv) (options : genericListOptions) : Prop :=
  options.filter = "" ∨ ∃ query, env.ParseExpression options.filter = .ok query

/-- Opening a search context on `index` succeeds and gives the context
`context`. -/
def OpensContext (env : EsEnv) (index context : String) : Prop :=
  ∃ res, env.OpenPointInTime index pitKeepAlive = .ok res ∧ res.IsError = false ∧
    res.decoded = .ok ⟨context⟩

/-- Every search succeeds and reports the total match count `total`. -/
def ReportsTotal (env : EsEnv) (total : Int) : Prop :=
  ∀ request, ∃ res searchResults, env.Search request = .ok res ∧ res.IsError = false ∧
    res.decoded = .ok searchResults ∧ searchResults.Hits.Total.Value = total

/-- The documents that a search with the `From` and `Size` of the request
returns out of the ordered list of matching documents. -/
def window (documents : List EsSearchResponseHit) (request : SearchRequest) :
    List EsSearchResponseHit :=
  (documents.drop (request.From.getD 0).toNat).take (request.Size.getD 10).toNat

/-- The index is a fixed ordered list of matching documents: every search
succeeds, returns the window of the list and reports its length as total. -/
def ServesList (env : EsEnv) (documents : List EsSearchResponseHit) : Prop :=
  ∀ request, ∃ res, env.Search request = .ok res ∧ res.IsError = false ∧
    res.decoded = .ok ⟨⟨⟨documents.length⟩, window documents request⟩⟩

/-! ## A model codec and a model index -/

/-- The `width` low bits of a number, lowest first, as characters. -/
def toBits : Nat → Nat → List Char
  | 0, _ => []
  | width + 1, n => (if n % 2 = 1 then '1' else '0') :: toBits width (n / 2)

/-- The number written by a list of bit characters, lowest first. -/
def ofBits : List Char → Nat
  | [] => 0
  | c :: rest => (if c = '1' then 1 else 0) + 2 * ofBits rest

/-- A model `esutil.CreatePageToken`: the 64 bits of the offset followed by
the context id. -/
def binaryCreatePageToken (context : String) (offset : Int) : String :=
  String.mk (toBits 64 (offset % 18446744073709551616).toNat ++ context.data)

/-- A model `esutil.ParsePageToken`, the inverse of `binaryCreatePageToken`;
fails on a token that does not start with 64 bit characters. -/
def binaryParsePageToken (token : String) : Except GoError (String × Int) :=
  if token.data.length < 64 ∨ ¬ (token.data.take 64).all (fun c => c = '0' ∨ c = '1') then
    .error (GoError.plain "malformed page token")
  else
    .ok (String.mk (token.data.drop 64), wrapInt (ofBits (token.data.take 64)))

/-- A model index: every search returns the window of `documents` and reports
`total`; opening a search context gives the context `pit-1`; the filter
compiler rejects the filter `(` and accepts every other filter. -/
def modelIndex (total : Int) (documents : List EsSearchResponseHit) : EsEnv where
  ParseExpression filter :=
    if filter = "(" then .error (GoError.plain "unexpected end of expression") else .ok ⟨filter⟩
  OpenPointInTime _ _ := .ok ⟨200, "", .ok ⟨"pit-1"⟩⟩
  Search request := .ok ⟨200, "", .ok ⟨⟨⟨total⟩, window documents request⟩⟩⟩
  ParsePageToken := binaryParsePageToken
  CreatePageToken := binaryCreatePageToken
  EncodeRequest _ := ""

/-- Five documents. -/
def fiveDocuments : List EsSearchResponseHit := [⟨"a"⟩, ⟨"b"⟩, ⟨"c"⟩, ⟨"d"⟩, ⟨"e"⟩]

/-! ## Token chains -/

/-- The next page token of a successful call. -/
def nextPageTokenOf (run : Run (EsSearchResponseHits × String)) : Option String :=
  match run.result with
  | .ok result => some result.2
  | .error _ => none

/-- The items of a successful call. -/
def itemsOf (run : Run (EsSearchResponseHits × String)) : List EsSearchResponseHit :=
  match run.result with
  | .ok result => result.1.Hits
  | .error _ => []

/-- The status code of the error of a failed call. -/
def errorCodeOf {α : Type} (run : Run α) : Option Code :=
  match run.result with
  | .ok _ => none
  | .error err => some err.Code

/-- The token with which page `n` of a token chain is requested (page 0 is
the first, token-less call; each later page passes the token returned by the
previous page), or `none` when the chain ended before page `n`: the previous
page failed or returned the empty token. -/
def chainToken (env : EsEnv) (log : Logger) (options : genericListOptions) : Nat → Option String
  | 0 => some ""
  | n + 1 =>
    match chainToken env log options n with
    | none => none
    | some token =>
      match nextPageTokenOf (genericList env log { options with pageToken := token }) with
      | none => none
      | some next => if next = "" then none else some next

/-- Page `n` of a token chain, when the chain reaches it. -/
def chainPage (env : EsEnv) (log : Logger) (options : genericListOptions) (n : Nat) :
    Option (Run (EsSearchResponseHits × String)) :=
  match chainToken env log options n with
  | none => none
  | some token => some (genericList env log { options with pageToken := token })

/-- The items of the first `n` pages of a token chain, concatenated. -/
def chainItems (env : EsEnv) (log : Logger) (options : genericListOptions) :
    Nat → List EsSearchResponseHit
  | 0 => []
  | n + 1 =>
    chainItems env log options n ++
      match chainPage env log options n with
      | none => []
      | some run => itemsOf run

/-- The number `ceil(total / pageSize)` of pages. -/
def pageCount (total pageSize : Int) : Nat := ((total + pageSize - 1) / pageSize).toNat

/-- The body of the search of `genericList` after its filter and sort steps,
when the filter is empty or compiles. -/
def searchBody (env : EsEnv) (options : genericListOptions) : EsSearch :=
  let body : EsSearch := match options.query with
    | some query => query
    | none => {}
  let body : EsSearch :=
    if options.filter ≠ "" then
      match env.ParseExpression options.filter with
      | .ok filterQuery => { body with Query := some filterQuery }
      | .error _ => body
    else body
  if options.sortField ≠ "" then
    { body with SortClause := [(options.sortField, options.sortDirection)] }
  else body

/-- The logger of `genericList` after its filter step. -/
def searchLogger (log : Logger) (options : genericListOptions) : Logger :=
  if options.filter ≠ "" then log.With [Field.String "filter" options.filter] else log

/-- The events of the filter step of `genericList`. -/
def filterEvents (options : genericListOptions) : List Event :=
  if options.filter ≠ "" then [Event.ParseExpression options.filter] else []

/-- The body that a paginated `genericList` sends: bound to the search
context. -/
def pageBody (env : EsEnv) (options : genericListOptions) (context : String) : EsSearch :=
  { searchBody env options with Pit := some { Id := context, KeepAlive := pitKeepAlive } }

/-- The request that a paginated `genericList` sends for the search context
`context` and the offset `offset`. -/
def pageRequest (env : EsEnv) (options : genericListOptions) (context : String) (offset : Int) :
    SearchRequest :=
  { Index := [], Size := some options.pageSize, From := some offset,
    Body := some (pageBody env options context) }

/-- The logger of a paginated `genericList` when it searches. -/
def pageLogger (env : EsEnv) (log : Logger) (options : genericListOptions) (context : String) :
    Logger :=
  (searchLogger log options).With
    [Field.String "request" (env.EncodeRequest (pageBody env options context))]

/-- The events of a paginated `genericList` up to and including the search. -/
def pageEvents (env : EsEnv) (log : Logger) (options : genericListOptions) (context : String)
    (offset : Int) : List Event :=
  filterEvents options ++
    (if options.pageToken = "" then [Event.OpenPointInTime options.index pitKeepAlive] else []) ++
    (pageLogger env log options context).Debug "performing search" [] ++
    [Event.Search (pageRequest env options context offset)]

/-- The request that an unpaginated `genericList` sends. -/
def fullRequest (env : EsEnv) (options : genericListOptions) : SearchRequest :=
  { Index := [options.index], Size := some maxPageSize, From := none,
    Body := some (searchBody env options) }

/-- The logger of an unpaginated `genericList` when it searches. -/
def fullLogger (env : EsEnv) (log : Logger) (options : genericListOptions) : Logger :=
  (searchLogger log options).With
    [Field.String "request" (env.EncodeRequest (searchBody env options))]

/-- The events of an unpaginated `genericList` up to and including the
search. -/
def fullEvents (env : EsEnv) (log : Logger) (options : genericListOptions) : List Event :=
  filterEvents options ++ (fullLogger env log options).Debug "performing search" [] ++
    [Event.Search (fullRequest env options)]

/-- A thousand and one documents. -/
def manyDocuments : List EsSearchResponseHit := List.replicate 1001 ⟨"doc"⟩

/-- The token that a successful `handlePagination` issued. -/
def issuedToken (run : Run (String × List SearchOption × EsSearch)) : Option String :=
  match run.result with
  | .ok next => some next.1
  | .error _ => none

/-- The options of a first page of `ListResources` with the given page
size. -/
def firstPage (pageSize : Int) : genericListOptions :=
  { index := rodeElasticsearchOccurrencesAlias, pageSize := pageSize,
    query := some { Collapse := some ⟨"resource.uri"⟩ },
    sortDirection := EsSortOrderAscending, sortField := "resource.uri" }

/-- The token with which page `n` of a chain with page size `pageSize` over
the search context `context` is requested: none for the first page, the
encoding of `(context, n * pageSize)` for a later page. -/
def tokenAt (env : EsEnv) (context : String) (pageSize : Int) (n : Nat) : String :=
  if n = 0 then "" else env.CreatePageToken context (n * pageSize)

/-- The setting of a token chain: the codec is lawful, the filter compiles,
opening a search context on the index gives `context`, the options of the
first call have no page token, and the page size is an `int32` that is at
least 1. -/
def ChainSetting (env : EsEnv) (options : genericListOptions) (context : String) : Prop :=
  LawfulCodec env ∧ FilterCompiles env options ∧ OpensContext env options.index context ∧
    options.pageToken = "" ∧ 1 ≤ options.pageSize ∧ options.pageSize ≤ maxInt32

/-! ## `initialize` -/

/-- The two methods of `grafeas_project_proto.ProjectsClient` that `initialize`
calls, over a project store state `σ`; a request is the name of the
project. -/
structure ProjectsClient (σ : Type) where
  GetProject : σ → String → Except GoError String
  CreateProject : σ → String → Except GoError String × σ

/-- The methods of `indexmanager.IndexManager` that `initialize` calls, over a
state `τ` of the index manager; a nil error is `none`. -/
structure IndexManager (τ : Type) where
  Initialize : τ → Option GoError × τ
  IndexName : String → String → String
  AliasName : String → String → String
  CreateIndex : τ → String → String → String → Option GoError × τ

/-- The outcome of `initialize`: the error it returns (`none` for nil), its
events, and the states of the project store and of the index manager
afterwards. -/
structure Startup (σ τ : Type) where
  error : Option GoError
  events : List Event
  projects : σ
  indices : τ

/-- The loop of `initialize` over `indexSettings`: creates each index and
stops at the first failure, with the error
`error creating index: <cause>`. -/
def createIndices {τ : Type} (indexManager : IndexManager τ) :
    List (String × String × String) → τ → Option GoError × List Event × τ
  | [], indices => (none, [], indices)
  | settings :: rest, indices =>
    match indexManager.CreateIndex indices settings.1 settings.2.1 settings.2.2 with
    | (some err, indices1) =>
      (some (GoError.plain ("error creating index: " ++ err.Error)),
        [Event.CreateIndex settings.1 settings.2.1 settings.2.2], indices1)
    | (none, indices1) =>
      let later := createIndices indexManager rest indices1
      (later.1, Event.CreateIndex settings.1 settings.2.1 settings.2.2 :: later.2.1, later.2.2)

/-- The slice `indexSettings` of `initialize`. -/
def indexSettings {τ : Type} (indexManager : IndexManager τ) : List (String × String × String) :=
  [(indexManager.IndexName policiesDocumentKind "", indexManager.AliasName policiesDocumentKind "",
      policiesDocumentKind),
    (indexManager.IndexName genericResourcesDocumentKind "",
      indexManager.AliasName genericResourcesDocumentKind "", genericResourcesDocumentKind)]

/-- The method `rodeServer.initialize` (the name is a keyword of Lean). -/
def initializeServer {σ τ : Type} (grafeasProjects : ProjectsClient σ) (indexManager : IndexManager τ)
    (logger : Logger) (projects : σ) (indices : τ) : Startup σ τ :=
  let log := logger.Named "initialize"
  match indexManager.Initialize indices with
  | (some err, indices1) =>
    ⟨some (GoError.plain ("error initializing index manager: " ++ err.Error)),
      [Event.InitializeIndexManager], projects, indices1⟩
  | (none, indices1) =>
    let finish (before : List Event) (projects1 : σ) : Startup σ τ :=
      let created := createIndices indexManager (indexSettings indexManager) indices1
      ⟨created.1, before ++ created.2.1, projects1, created.2.2⟩
    match grafeasProjects.GetProject projects rodeProjectSlug with
    | .error err =>
      if err.Code = Code.NotFound then
        match grafeasProjects.CreateProject projects rodeProjectSlug with
        | (.error err1, projects1) =>
          ⟨some err1, [Event.InitializeIndexManager, Event.GetProject rodeProjectSlug,
              Event.CreateProject rodeProjectSlug] ++
            log.Error "failed to create rode project" [Field.Error err1], projects1, indices1⟩
        | (.ok _, projects1) =>
          finish ([Event.InitializeIndexManager, Event.GetProject rodeProjectSlug,
              Event.CreateProject rodeProjectSlug] ++ log.Info "created rode project" []) projects1
      else
        ⟨some err, [Event.InitializeIndexManager, Event.GetProject rodeProjectSlug] ++
          log.Error "error checking if rode project exists" [Field.Error err], projects, indices1⟩
    | .ok _ => finish [Event.InitializeIndexManager, Event.GetProject rodeProjectSlug] projects

/-- The `CreateProject` calls of a run: the names of the projects. -/
def createProjectCalls : List Event → List String
  | [] => []
  | Event.CreateProject name :: rest => name :: createProjectCalls rest
  | _ :: rest => createProjectCalls rest

/-- A model project store: the names of the projects it holds. `GetProject`
fails with `NotFound` exactly when the project is absent; `CreateProject` adds
the project. -/
def modelProjectStore : ProjectsClient (List String) where
  GetProject projects name :=
    if name ∈ projects then .ok name
    else .error (GoError.status Code.NotFound ("project " ++ name ++ " not found"))
  CreateProject projects name := (.ok name, if name ∈ projects then projects else name :: projects)

/-- A model index manager whose `Initialize` and `CreateIndex` succeed; its
state is the list of the indices created. -/
def modelIndexManager : IndexManager (List String) where
  Initialize indices := (none, indices)
  IndexName documentKind _ := "rode-v1alpha1-" ++ documentKind
  AliasName documentKind _ := "rode-" ++ documentKind
  CreateIndex indices indexName _ _ :=
    (none, if indexName ∈ indices then indices else indexName :: indices)

/-- A project store whose `GetProject` fails with `Unavailable`. -/
def unavailableProjectStore : ProjectsClient Unit where
  GetProject _ _ := .error (GoError.status Code.Unavailable "connection refused")
  CreateProject projects name := (.ok name, projects)

/-- The token with which call `n` of a continuation chain is made: call 0
passes the token `start`, each later call passes the token returned by the
previous call; `none` when the chain ended before call `n` (the previous call
failed or returned the empty token). -/
def chainFrom (env : EsEnv) (log : Logger) (options : genericListOptions) (start : String) :
    Nat → Option String
  | 0 => some start
  | n + 1 =>
    match chainFrom env log options start n with
    | none => none
    | some token =>
      match nextPageTokenOf (genericList env log { options with pageToken := token }) with
      | none => none
      | some next => if next = "" then none else some next

/-! ## Failures of `genericList` -/

/-- The messages of the error-level log entries of a run, in order. -/
def errorMessages (events : List Event) : List String :=
  (errorEntries events).map fun entry => entry.message

/-- The error that `createError` returns for a message and a cause; it depends
neither on the logger nor on the fields. -/
def internalError (message : String) (cause : Option GoError) : GoError :=
  (createError ⟨[], []⟩ message cause []).1

/-- The failures that `handlePagination` detects, each with the message it logs
and the cause it wraps: a page token that does not parse, or a search context
that cannot be opened (the request fails, the response is an error response,
or the response does not decode). -/
def PaginationFailure (env : EsEnv) (index pageToken message : String)
    (cause : Option GoError) : Prop :=
  (pageToken ≠ "" ∧ ∃ err, env.ParsePageToken pageToken = .error err ∧
    message = "error parsing page token" ∧ cause = some err) ∨
  (pageToken = "" ∧ ∃ err, env.OpenPointInTime index pitKeepAlive = .error err ∧
    message = "error sending request to elasticsearch" ∧ cause = some err) ∨
  (pageToken = "" ∧ ∃ res, env.OpenPointInTime index pitKeepAlive = .ok res ∧
    res.IsError = true ∧ message = "unexpected response from elasticsearch" ∧ cause = none) ∨
  (pageToken = "" ∧ ∃ res err, env.OpenPointInTime index pitKeepAlive = .ok res ∧
    res.IsError = false ∧ res.decoded = .error err ∧
    message = "error decoding elasticsearch response" ∧ cause = some err)

/-- The failures that `genericList` detects from its search on, each with the
message it logs and the cause it wraps: the search request fails, the response
is an error response, the response does not decode, or (paginated call) the
token issued by `handlePagination` does not parse. -/
def SearchFailure (env : EsEnv) (request : SearchRequest) (paginated : Bool)
    (nextPageToken message : String) (cause : Option GoError) : Prop :=
  (∃ err, env.Search request = .error err ∧
    message = "error sending request to elasticsearch" ∧ cause = some err) ∨
  (∃ res, env.Search request = .ok res ∧ res.IsError = true ∧
    message = "unexpected response from elasticsearch" ∧ cause = none) ∨
  (∃ res err, env.Search request = .ok res ∧ res.IsError = false ∧
    res.decoded = .error err ∧
    message = "error decoding elasticsearch response" ∧ cause = some err) ∨
  (paginated = true ∧ ∃ res searchResults err, env.Search request = .ok res ∧
    res.IsError = false ∧ res.decoded = .ok searchResults ∧
    env.ParsePageToken nextPageToken = .error err ∧
    message = "error parsing page token" ∧ cause = some err)

/-- An index that cannot be reached for a search: the model index over no
document, but every search request fails. -/
def unreachableIndex : EsEnv :=
  { modelIndex 0 [] with Search := fun _ => .error (GoError.plain "connection refused") }

/-! # Properties -/

/-! ## Strings and maps -/

theorem append_data (a b : String) : (a ++ b).data = a.data ++ b.data := by
  simp

theorem HasPrefix_append (p s : String) : HasPrefix (p ++ s) p = true := by
  simp [HasPrefix]

theorem TrimPrefix_append (p s : String) : TrimPrefix (p ++ s) p = s := by
  simp [TrimPrefix, HasPrefix]

/-- Stripping the note-name prefix from `projects/rode/notes/<key>` gives
`<key>`. -/
theorem getNoteIdFromNoteName_name (key : String) :
    getNoteIdFromNoteName ("projects/rode/notes/" ++ key) = key := by
  have h : rodeProjectSlug ++ "/notes/" = "projects/rode/notes/" := by decide
  rw [getNoteIdFromNoteName, h, TrimPrefix_append]

theorem GoMap.get_eq_none_iff {V : Type} (m : GoMap V) (k : String) :
    m.get k = none ↔ k ∉ m.keys := by
  induction m with
  | nil => simp [GoMap.get, GoMap.keys]
  | cons head rest ih =>
    obtain ⟨k1, v1⟩ := head
    by_cases h : k1 = k
    · simp [GoMap.get, GoMap.keys, h]
    · have h2 : ¬ k = k1 := fun e => h e.symm
      simpa [GoMap.get, GoMap.keys, h, h2] using ih

theorem GoMap.get_isSome_iff {V : Type} (m : GoMap V) (k : String) :
    (m.get k).isSome = true ↔ k ∈ m.keys := by
  cases h : m.get k with
  | none => simpa using (GoMap.get_eq_none_iff m k).1 h
  | some v =>
    have : ¬ m.get k = none := by simp [h]
    simpa using fun hn => this ((GoMap.get_eq_none_iff m k).2 hn)

theorem GoMap.set_of_not_mem {V : Type} (m : GoMap V) (k : String) (v : V) (h : k ∉ m.keys) :
    m.set k v = m ++ [(k, v)] := by
  induction m with
  | nil => simp [GoMap.set]
  | cons head rest ih =>
    obtain ⟨k1, v1⟩ := head
    simp only [GoMap.keys, List.map_cons, List.mem_cons, not_or] at h
    have h1 : ¬ k1 = k := fun e => h.1 e.symm
    simp [GoMap.set, h1, ih h.2]

theorem GoMap.keys_set_of_mem {V : Type} (m : GoMap V) (k : String) (v : V) (h : k ∈ m.keys) :
    (m.set k v).keys = m.keys := by
  induction m with
  | nil => simp [GoMap.keys] at h
  | cons head rest ih =>
    obtain ⟨k1, v1⟩ := head
    by_cases h1 : k1 = k
    · simp [GoMap.set, GoMap.keys, h1]
    · have h2 : k ∈ GoMap.keys rest := by
        simp only [GoMap.keys, List.map_cons, List.mem_cons] at h
        rcases h with h | h
        · exact absurd h.symm h1
        · exact h
      have := ih h2
      simp only [GoMap.keys] at this
      simp [GoMap.set, GoMap.keys, h1, this]

/-- When the first loop of `RegisterCollector` completes, the derived keys of
the notes are pairwise distinct and none was in `notesWithIds` before. -/
theorem collectNotes_some (collectorId : String) (notes : List Note) :
    ∀ (w c : GoMap Note) (r : GoMap Note × GoMap Note),
      collectNotes collectorId notes (w, c) = some r →
      (notes.map (buildNoteIdFromCollectorId collectorId)).Nodup ∧
        ∀ n ∈ notes, buildNoteIdFromCollectorId collectorId n ∉ w.keys := by
  induction notes with
  | nil => intro w c r _; simp
  | cons note rest ih =>
    intro w c r h
    rw [collectNotes] at h
    cases hg : w.get (buildNoteIdFromCollectorId collectorId note) with
    | some found => simp [hg] at h
    | none =>
      simp only [hg] at h
      have hk := (GoMap.get_eq_none_iff _ _).1 hg
      obtain ⟨hnd, hout⟩ := ih _ _ r h
      rw [GoMap.set_of_not_mem _ _ _ hk] at hout
      simp only [GoMap.keys, List.map_append, List.map_cons, List.map_nil, List.mem_append,
        List.mem_singleton, not_or] at hout
      refine ⟨?_, ?_⟩
      · rw [List.map_cons, List.nodup_cons]
        refine ⟨?_, hnd⟩
        intro hmem
        obtain ⟨n, hn, he⟩ := List.mem_map.1 hmem
        exact (hout n hn).2 he
      · intro n hn
        rcases List.mem_cons.1 hn with rfl | hn
        · exact hk
        · exact (hout n hn).1

/-- The entries that the first loop of `RegisterCollector` adds: each note
under its derived key. -/
theorem collectNotes_eq (collectorId : String) (notes : List Note) :
    ∀ (w c : GoMap Note),
      (notes.map (buildNoteIdFromCollectorId collectorId)).Nodup →
      (∀ n ∈ notes, buildNoteIdFromCollectorId collectorId n ∉ w.keys) →
      (∀ n ∈ notes, buildNoteIdFromCollectorId collectorId n ∉ c.keys) →
      collectNotes collectorId notes (w, c) =
        some (w ++ notes.map (fun n => (buildNoteIdFromCollectorId collectorId n, n)),
          c ++ notes.map (fun n => (buildNoteIdFromCollectorId collectorId n, n))) := by
  induction notes with
  | nil => intro w c _ _ _; simp [collectNotes]
  | cons note rest ih =>
    intro w c hnd hw hc
    rw [List.map_cons, List.nodup_cons] at hnd
    have hkw := hw note (List.mem_cons_self _ _)
    have hkc := hc note (List.mem_cons_self _ _)
    have hg := (GoMap.get_eq_none_iff _ _).2 hkw
    rw [collectNotes]
    simp only [hg]
    rw [GoMap.set_of_not_mem _ _ _ hkw, GoMap.set_of_not_mem _ _ _ hkc, ih _ _ hnd.2]
    · simp
    · intro n hn
      simp only [GoMap.keys, List.map_append, List.map_cons, List.map_nil, List.mem_append,
        List.mem_singleton, not_or]
      refine ⟨hw n (List.mem_cons_of_mem _ hn), ?_⟩
      intro he
      exact hnd.1 (he ▸ List.mem_map_of_mem _ hn)
    · intro n hn
      simp only [GoMap.keys, List.map_append, List.map_cons, List.map_nil, List.mem_append,
        List.mem_singleton, not_or]
      refine ⟨hc n (List.mem_cons_of_mem _ hn), ?_⟩
      intro he
      exact hnd.1 (he ▸ List.mem_map_of_mem _ hn)

/-! ## Key derivation -/

theorem buildNoteIdFromCollectorId_eq (c : String) (note : Note) :
    buildNoteIdFromCollectorId c note = c ++ "-" ++ kindToken note.Kind := by
  have hassoc : ∀ t : String, c ++ "-" ++ t = c ++ ("-" ++ t) := fun t => String.append_assoc _ _ _
  cases hk : note.Kind <;> simp only [buildNoteIdFromCollectorId, hk, kindToken, hassoc] <;> rfl

/-- C3 (as stated, refuted): for a note of the in-toto kind the derived id is
the collector id followed by `-intoto`; it is not the collector id followed by
`-` and the token `in-toto` that the specification lists. -/
theorem C3_intoto_token_counterexample :
    buildNoteIdFromCollectorId "collector" ⟨"", NoteKind.INTOTO, "", ""⟩ = "collector-intoto" ∧
      buildNoteIdFromCollectorId "collector" ⟨"", NoteKind.INTOTO, "", ""⟩ ≠
        "collector" ++ "-" ++ kindToken_spec NoteKind.INTOTO := by
  decide

/-- C3 (amended): for every collector id `c` and every note,
`buildNoteIdFromCollectorId` returns `c` followed by `-` followed by the kind
token, where the token is the one of vulnerability, build, image, package,
deployment, discovery, attestation, intoto that names the kind, and
`unspecified` for every other kind value; the tokens agree with the ones the
specification lists for every kind but in-toto; two notes of the same kind get
the same id. -/
theorem C3_buildNoteIdFromCollectorId_token (c : String) (note : Note) :
    buildNoteIdFromCollectorId c note = c ++ "-" ++ kindToken note.Kind ∧
      (note.Kind ≠ NoteKind.INTOTO → kindToken note.Kind = kindToken_spec note.Kind) ∧
      (note.Kind ∉ [NoteKind.VULNERABILITY, NoteKind.BUILD, NoteKind.IMAGE, NoteKind.PACKAGE,
          NoteKind.DEPLOYMENT, NoteKind.DISCOVERY, NoteKind.ATTESTATION, NoteKind.INTOTO] →
        buildNoteIdFromCollectorId c note = c ++ "-" ++ "unspecified") ∧
      ∀ other : Note, other.Kind = note.Kind →
        buildNoteIdFromCollectorId c other = buildNoteIdFromCollectorId c note := by
  have hassoc : ∀ t : String, c ++ "-" ++ t = c ++ ("-" ++ t) := fun t => String.append_assoc _ _ _
  refine ⟨buildNoteIdFromCollectorId_eq c note, ?_, ?_, ?_⟩
  · cases hk : note.Kind <;> simp [kindToken, kindToken_spec]
  · cases hk : note.Kind <;> simp [buildNoteIdFromCollectorId, hk, hassoc]
  · intro other ho
    simp only [buildNoteIdFromCollectorId, ho]

/-- C3 (amended), at the collector `scanner` and an in-toto note and an
unrecognized kind. -/
theorem C3_buildNoteIdFromCollectorId_token_witness :
    buildNoteIdFromCollectorId "scanner" ⟨"", NoteKind.INTOTO, "", ""⟩ = "scanner-intoto" ∧
      buildNoteIdFromCollectorId "scanner" ⟨"", NoteKind.unrecognized 42, "", ""⟩ =
        "scanner-unspecified" ∧
      buildNoteIdFromCollectorId "scanner" ⟨"n", NoteKind.INTOTO, "s", "l"⟩ =
        buildNoteIdFromCollectorId "scanner" ⟨"", NoteKind.INTOTO, "", ""⟩ :=
  ⟨(C3_buildNoteIdFromCollectorId_token "scanner" ⟨"", NoteKind.INTOTO, "", ""⟩).1,
    (C3_buildNoteIdFromCollectorId_token "scanner" ⟨"", NoteKind.unrecognized 42, "", ""⟩).2.2.1
      (by decide),
    (C3_buildNoteIdFromCollectorId_token "scanner" ⟨"", NoteKind.INTOTO, "", ""⟩).2.2.2
      ⟨"n", NoteKind.INTOTO, "s", "l"⟩ rfl⟩

/-! ## Registration -/

/-- Two notes of a request with the same derived key make the first loop of
`RegisterCollector` stop. -/
theorem collectNotes_conflict (collectorId : String) (notes : List Note)
    (h : ∃ a b, [a, b].Sublist notes ∧
      buildNoteIdFromCollectorId collectorId a = buildNoteIdFromCollectorId collectorId b) :
    collectNotes collectorId notes ([], []) = none := by
  cases hc : collectNotes collectorId notes ([], []) with
  | none => rfl
  | some r =>
    obtain ⟨hnd, _⟩ := collectNotes_some collectorId notes [] [] r hc
    obtain ⟨a, b, hsub, hab⟩ := h
    have hp : notes.Pairwise
        (fun x y => buildNoteIdFromCollectorId collectorId x ≠ buildNoteIdFromCollectorId collectorId y) := by
      have := hnd
      rw [List.Nodup, List.pairwise_map] at this
      exact this
    exact absurd hab (List.pairwise_iff_forall_sublist.1 hp hsub)

/-- C1: a `RegisterCollector` request with a non-empty collector id whose
notes list contains two notes with the same derived key fails with status
code `InvalidArgument`, calls neither `ListNotes` nor `BatchCreateNotes`, and
leaves the store as it was. -/
theorem C1_conflicting_notes_rejected {σ : Type} (grafeasCommon : GrafeasClient σ)
    (logger : Logger) (store : σ) (request : RegisterCollectorRequest)
    (hid : request.Id ≠ "")
    (hdup : ∃ a b, [a, b].Sublist request.Notes ∧
      buildNoteIdFromCollectorId request.Id a = buildNoteIdFromCollectorId request.Id b) :
    (∃ err, (RegisterCollector grafeasCommon logger store request).1.result = .error err ∧
        err.Code = Code.InvalidArgument) ∧
      listNotesCalls (RegisterCollector grafeasCommon logger store request).1.events = [] ∧
      batchCreateNotesCalls (RegisterCollector grafeasCommon logger store request).1.events = [] ∧
      (RegisterCollector grafeasCommon logger store request).2 = store := by
  have hnone := collectNotes_conflict request.Id request.Notes hdup
  have hlen : request.Notes.length ≠ 0 := by
    obtain ⟨a, b, hsub, _⟩ := hdup
    have := hsub.length_le
    simp at this
    omega
  simp [RegisterCollector, hid, hlen, hnone, Run.fail, createErrorWithCode, Logger.Error,
    GoError.Code, listNotesCalls, batchCreateNotesCalls]

/-- C1 at a request with two build notes, against the model note store. -/
theorem C1_conflicting_notes_rejected_witness :
    (∃ err, (RegisterCollector modelNoteStore ⟨[], []⟩ ⟨[], List.nodup_nil⟩
        ⟨"scanner", [⟨"", NoteKind.BUILD, "a", ""⟩, ⟨"", NoteKind.BUILD, "b", ""⟩]⟩).1.result = .error err ∧
        err.Code = Code.InvalidArgument) ∧
      listNotesCalls (RegisterCollector modelNoteStore ⟨[], []⟩ ⟨[], List.nodup_nil⟩
        ⟨"scanner", [⟨"", NoteKind.BUILD, "a", ""⟩, ⟨"", NoteKind.BUILD, "b", ""⟩]⟩).1.events = [] ∧
      batchCreateNotesCalls (RegisterCollector modelNoteStore ⟨[], []⟩ ⟨[], List.nodup_nil⟩
        ⟨"scanner", [⟨"", NoteKind.BUILD, "a", ""⟩, ⟨"", NoteKind.BUILD, "b", ""⟩]⟩).1.events = [] ∧
      (RegisterCollector modelNoteStore ⟨[], []⟩ ⟨[], List.nodup_nil⟩
        ⟨"scanner", [⟨"", NoteKind.BUILD, "a", ""⟩, ⟨"", NoteKind.BUILD, "b", ""⟩]⟩).2 =
        ⟨[], List.nodup_nil⟩ :=
  C1_conflicting_notes_rejected modelNoteStore ⟨[], []⟩ ⟨[], List.nodup_nil⟩
    ⟨"scanner", [⟨"", NoteKind.BUILD, "a", ""⟩, ⟨"", NoteKind.BUILD, "b", ""⟩]⟩ (by decide)
    ⟨⟨"", NoteKind.BUILD, "a", ""⟩, ⟨"", NoteKind.BUILD, "b", ""⟩, List.Sublist.refl _, by decide⟩

theorem GoMap.get_set {V : Type} (m : GoMap V) (k k1 : String) (v : V) :
    (m.set k v).get k1 = if k = k1 then some v else m.get k1 := by
  induction m with
  | nil => simp [GoMap.set, GoMap.get]
  | cons head rest ih =>
    obtain ⟨k0, v0⟩ := head
    by_cases h0 : k0 = k
    · subst h0
      by_cases h1 : k0 = k1 <;> simp [GoMap.set, GoMap.get, h1]
    · by_cases h1 : k0 = k1
      · subst h1
        have h2 : ¬ k = k0 := fun e => h0 e.symm
        simp [GoMap.set, GoMap.get, h0, h2]
      · simp [GoMap.set, GoMap.get, h0, h1, ih]

theorem GoMap.delete_eq_filter {V : Type} (m : GoMap V) (k : String) :
    m.delete k = m.filter (fun entry => decide (entry.1 ≠ k)) := by
  induction m with
  | nil => simp [GoMap.delete]
  | cons head rest ih =>
    obtain ⟨k0, v0⟩ := head
    by_cases h0 : k0 = k <;> simp [GoMap.delete, h0, ih]

theorem GoMap.get_map_values {V W : Type} (f : V → W) (m : GoMap V) (k : String) :
    GoMap.get (m.map fun entry => (entry.1, f entry.2)) k = (m.get k).map f := by
  induction m with
  | nil => simp [GoMap.get]
  | cons head rest ih =>
    obtain ⟨k0, v0⟩ := head
    by_cases h0 : k0 = k <;> simp [GoMap.get, h0, ih]

theorem GoMap.ext_of_nodup {V : Type} :
    ∀ (m1 m2 : GoMap V), m1.keys = m2.keys → m1.keys.Nodup →
      (∀ k ∈ m1.keys, m1.get k = m2.get k) → m1 = m2 := by
  intro m1
  induction m1 with
  | nil =>
    intro m2 hk _ _
    cases m2 with
    | nil => rfl
    | cons head rest => simp [GoMap.keys] at hk
  | cons head rest ih =>
    intro m2 hk hnd hget
    obtain ⟨k0, v0⟩ := head
    cases m2 with
    | nil => simp [GoMap.keys] at hk
    | cons head2 rest2 =>
      obtain ⟨k2, v2⟩ := head2
      simp only [GoMap.keys, List.map_cons, List.cons.injEq] at hk
      obtain ⟨hk0, hkr⟩ := hk
      subst hk0
      have hnd2 : k0 ∉ GoMap.keys rest ∧ (GoMap.keys rest).Nodup := by
        simpa [GoMap.keys] using hnd
      have hv : v0 = v2 := by
        have := hget k0 (by simp [GoMap.keys])
        simpa [GoMap.get] using this
      have hrest : rest = rest2 := by
        apply ih rest2 hkr hnd2.2
        intro k hkmem
        have hne : ¬ k0 = k := fun e => hnd2.1 (e ▸ hkmem)
        have := hget k (by
          simp only [GoMap.keys, List.map_cons, List.mem_cons]
          exact Or.inr hkmem)
        simpa [GoMap.get, hne] using this
      rw [hv, hrest]

/-- One step of the second loop keeps the keys of `notesWithIds`. -/
theorem adoptListedNote_keys (maps : GoMap Note × GoMap Note) (note : Note) :
    (adoptListedNote maps note).1.keys = maps.1.keys := by
  cases h : maps.1.get (getNoteIdFromNoteName note.Name) with
  | none => simp [adoptListedNote, h]
  | some requested =>
    simp only [adoptListedNote, h]
    apply GoMap.keys_set_of_mem
    apply (GoMap.get_isSome_iff _ _).1
    simp [h]

/-- One step of the second loop: the name kept under `key` becomes the name of
the listed note when the ids agree, and stays otherwise. -/
theorem adoptListedNote_name (maps : GoMap Note × GoMap Note) (note : Note) (key : String) :
    ((adoptListedNote maps note).1.get key).map Note.Name =
      if getNoteIdFromNoteName note.Name = key then (maps.1.get key).map (fun _ => note.Name)
      else (maps.1.get key).map Note.Name := by
  cases h : maps.1.get (getNoteIdFromNoteName note.Name) with
  | none =>
    by_cases hk : getNoteIdFromNoteName note.Name = key
    · subst hk; simp [adoptListedNote, h]
    · simp [adoptListedNote, h, hk]
  | some requested =>
    by_cases hk : getNoteIdFromNoteName note.Name = key
    · subst hk; simp [adoptListedNote, h, GoMap.get_set]
    · simp [adoptListedNote, h, hk, GoMap.get_set]

/-- One step of the second loop removes the id of the listed note from
`notesToCreate` when it is a key of `notesWithIds`. -/
theorem adoptListedNote_snd (maps : GoMap Note × GoMap Note) (note : Note) :
    (adoptListedNote maps note).2 =
      if getNoteIdFromNoteName note.Name ∈ maps.1.keys then
        maps.2.filter (fun entry => decide (entry.1 ≠ getNoteIdFromNoteName note.Name))
      else maps.2 := by
  cases h : maps.1.get (getNoteIdFromNoteName note.Name) with
  | none =>
    have := (GoMap.get_eq_none_iff _ _).1 h
    simp [adoptListedNote, h, this]
  | some requested =>
    have : getNoteIdFromNoteName note.Name ∈ maps.1.keys := by
      apply (GoMap.get_isSome_iff _ _).1
      simp [h]
    simp [adoptListedNote, h, this, GoMap.delete_eq_filter]

theorem lastNameWithId_append (notes : List Note) (note : Note) (key : String) :
    lastNameWithId (notes ++ [note]) key =
      if getNoteIdFromNoteName note.Name = key then some note.Name else lastNameWithId notes key := by
  simp [lastNameWithId, List.foldl_append]

/-- The second loop keeps the keys of `notesWithIds`. -/
theorem foldl_adoptListedNote_keys (listed : List Note) (maps : GoMap Note × GoMap Note) :
    (listed.foldl adoptListedNote maps).1.keys = maps.1.keys := by
  induction listed using List.reverseRecOn with
  | nil => rfl
  | append_singleton front note ih =>
    rw [List.foldl_append, List.foldl_cons, List.foldl_nil, adoptListedNote_keys, ih]

/-- After the second loop, the name kept under `key` is the name of the last
listed note with that id, or the requested name when no listed note has it. -/
theorem foldl_adoptListedNote_name (listed : List Note) (maps : GoMap Note × GoMap Note)
    (key : String) :
    ((listed.foldl adoptListedNote maps).1.get key).map Note.Name =
      match lastNameWithId listed key with
      | some name => (maps.1.get key).map (fun _ => name)
      | none => (maps.1.get key).map Note.Name := by
  induction listed using List.reverseRecOn with
  | nil => simp [lastNameWithId]
  | append_singleton front note ih =>
    rw [List.foldl_append, List.foldl_cons, List.foldl_nil, adoptListedNote_name,
      lastNameWithId_append]
    by_cases hk : getNoteIdFromNoteName note.Name = key
    · simp only [hk, if_true]
      have := congrArg (Option.map (fun _ : String => note.Name)) ih
      rw [Option.map_map] at this
      cases hl : lastNameWithId front key <;> cases hg : maps.1.get key <;>
        simp [hl, hg, Function.comp_def] at this ⊢ <;> exact this
    · simp only [hk, if_false]
      exact ih

/-- After the second loop, `notesToCreate` holds the entries whose key is the
id of no listed note (among the keys of `notesWithIds`). -/
theorem foldl_adoptListedNote_snd (listed : List Note) (maps : GoMap Note × GoMap Note) :
    (listed.foldl adoptListedNote maps).2 =
      maps.2.filter (fun entry =>
        !(decide (entry.1 ∈ listed.map (fun note => getNoteIdFromNoteName note.Name)) &&
          decide (entry.1 ∈ maps.1.keys))) := by
  induction listed using List.reverseRecOn with
  | nil => simp
  | append_singleton front note ih =>
    rw [List.foldl_append, List.foldl_cons, List.foldl_nil, adoptListedNote_snd,
      foldl_adoptListedNote_keys, ih]
    by_cases hm : getNoteIdFromNoteName note.Name ∈ maps.1.keys
    · simp only [hm, if_true, List.filter_filter]
      apply List.filter_congr
      intro entry _
      by_cases he : entry.1 = getNoteIdFromNoteName note.Name
      · simp [he, hm]
      · simp [he]
    · simp only [hm, if_false]
      apply List.filter_congr
      intro entry _
      by_cases he : entry.1 = getNoteIdFromNoteName note.Name
      · simp [he, hm]
      · simp [he]

theorem adoptCreatedNote_eq (notesWithIds other : GoMap Note) (note : Note) :
    adoptCreatedNote notesWithIds note = (adoptListedNote (notesWithIds, other) note).1 := by
  cases h : notesWithIds.get (getNoteIdFromNoteName note.Name) <;>
    simp [adoptCreatedNote, adoptListedNote, h]

/-- The third loop of `RegisterCollector` treats `notesWithIds` as the second
loop does. -/
theorem foldl_adoptCreatedNote_eq (created : List Note) :
    ∀ notesWithIds other : GoMap Note,
      created.foldl adoptCreatedNote notesWithIds =
        (created.foldl adoptListedNote (notesWithIds, other)).1 := by
  induction created with
  | nil => intro _ _; rfl
  | cons note rest ih =>
    intro notesWithIds other
    rw [List.foldl_cons, List.foldl_cons, adoptCreatedNote_eq notesWithIds other note]
    exact ih _ _

theorem lastNameWithId_of_mem (notes : List Note) (key : String) (h : key ∈ listedIds notes) :
    ∃ note ∈ notes, getNoteIdFromNoteName note.Name = key ∧
      lastNameWithId notes key = some note.Name := by
  induction notes using List.reverseRecOn with
  | nil => simp [listedIds] at h
  | append_singleton front note ih =>
    rw [lastNameWithId_append]
    by_cases hk : getNoteIdFromNoteName note.Name = key
    · exact ⟨note, by simp, hk, by simp [hk]⟩
    · have hfront : key ∈ listedIds front := by
        simp only [listedIds, List.map_append, List.map_cons, List.map_nil, List.mem_append,
          List.mem_singleton] at h
        rcases h with h | h
        · exact h
        · exact absurd h.symm hk
      obtain ⟨found, hmem, hid, hlast⟩ := ih hfront
      exact ⟨found, by simp [hmem], hid, by simp [hk, hlast]⟩

theorem lastNameWithId_of_not_mem (notes : List Note) (key : String) (h : key ∉ listedIds notes) :
    lastNameWithId notes key = none := by
  induction notes using List.reverseRecOn with
  | nil => rfl
  | append_singleton front note ih =>
    simp only [listedIds, List.map_append, List.map_cons, List.map_nil, List.mem_append,
      List.mem_singleton, not_or] at h
    rw [lastNameWithId_append, if_neg (fun e => h.2 e.symm)]
    exact ih h.1

theorem requestEntries_keys (request : RegisterCollectorRequest) :
    (requestEntries request).keys = derivedKeys request := by
  simp [requestEntries, derivedKeys, GoMap.keys, Function.comp_def]

/-- After the second loop, started from the requested entries, the create-set
is the unmatched entries. -/
theorem foldl_adoptListedNote_unmatched (request : RegisterCollectorRequest) (listed : List Note) :
    (listed.foldl adoptListedNote (requestEntries request, requestEntries request)).2 =
      unmatchedEntries request listed := by
  rw [foldl_adoptListedNote_snd, unmatchedEntries]
  apply List.filter_congr
  intro entry hentry
  have hmem : entry.1 ∈ (requestEntries request).keys := List.mem_map_of_mem _ hentry
  have hids : listed.map (fun note => getNoteIdFromNoteName note.Name) = listedIds listed := rfl
  rw [hids]
  by_cases hm2 : entry.1 ∈ listedIds listed <;> simp [hmem, hm2]

/-- The value of `RegisterCollector` on a request with a collector id, at
least one note and pairwise distinct derived keys, when `ListNotes`
succeeds. -/
theorem RegisterCollector_listed {σ : Type} (grafeasCommon : GrafeasClient σ) (logger : Logger)
    (store : σ) (request : RegisterCollectorRequest) (listed : ListNotesResponse)
    (hid : request.Id ≠ "") (hlen : request.Notes ≠ []) (hkeys : (derivedKeys request).Nodup)
    (hlist : grafeasCommon.ListNotes store (listNotesRequest request) = .ok listed) :
    RegisterCollector grafeasCommon logger store request =
      if unmatchedEntries request listed.Notes = [] then
        (⟨.ok { Notes := (listed.Notes.foldl adoptListedNote
            (requestEntries request, requestEntries request)).1 },
          [Event.ListNotes (listNotesRequest request)]⟩, store)
      else
        match grafeasCommon.BatchCreateNotes store (batchCreateNotesRequest request listed.Notes) with
        | (.error err, store1) =>
          (Run.fail [Event.ListNotes (listNotesRequest request),
              Event.BatchCreateNotes (batchCreateNotesRequest request listed.Notes)]
            (createError ((logger.Named "RegisterCollector").With
              [Field.Notes "notes" (requestEntries request)]) "error creating notes" (some err) []),
            store1)
        | (.ok created, store1) =>
          (⟨.ok { Notes := created.Notes.foldl adoptCreatedNote (listed.Notes.foldl adoptListedNote
              (requestEntries request, requestEntries request)).1 },
            [Event.ListNotes (listNotesRequest request),
              Event.BatchCreateNotes (batchCreateNotesRequest request listed.Notes)]⟩, store1) := by
  have hcollect : collectNotes request.Id request.Notes ([], []) =
      some (requestEntries request, requestEntries request) := by
    have := collectNotes_eq request.Id request.Notes [] [] hkeys
      (by simp [GoMap.keys]) (by simp [GoMap.keys])
    simpa [requestEntries] using this
  have hlen2 : ¬ request.Notes.length = 0 := by
    intro h
    exact hlen (List.length_eq_zero.1 h)
  have hlist2 : grafeasCommon.ListNotes store
      { Parent := rodeProjectSlug, Filter := registerCollectorFilter request.Id } = .ok listed := hlist
  unfold RegisterCollector
  simp only [hid, if_false, hlen2, hcollect, hlist2, foldl_adoptListedNote_unmatched]
  by_cases hu : unmatchedEntries request listed.Notes = []
  · simp [hu, listNotesRequest]
  · have hu2 : ¬ (unmatchedEntries request listed.Notes).length = 0 := by
      intro h
      exact hu (List.length_eq_zero.1 h)
    simp only [hu, if_false, ne_eq, hu2, not_false_eq_true, if_true, batchCreateNotesRequest]
    rfl

theorem RegisterCollector_no_notes {σ : Type} (grafeasCommon : GrafeasClient σ) (logger : Logger)
    (store : σ) (request : RegisterCollectorRequest) (hid : request.Id ≠ "")
    (hlen : request.Notes = []) :
    RegisterCollector grafeasCommon logger store request = (Run.pure {}, store) := by
  simp [RegisterCollector, hid, hlen]

theorem unmatchedEntries_keys (request : RegisterCollectorRequest) (listed : List Note)
    (key : String) :
    key ∈ (unmatchedEntries request listed).keys ↔
      key ∈ derivedKeys request ∧ key ∉ listedIds listed := by
  simp only [unmatchedEntries, GoMap.keys, requestEntries, derivedKeys, List.mem_map,
    List.mem_filter, decide_eq_true_eq]
  constructor
  · rintro ⟨entry, ⟨⟨note, hnote, rfl⟩, hnot⟩, rfl⟩
    exact ⟨⟨note, hnote, rfl⟩, hnot⟩
  · rintro ⟨⟨note, hnote, rfl⟩, hnot⟩
    exact ⟨_, ⟨⟨note, hnote, rfl⟩, hnot⟩, rfl⟩

/-- The names in the map that `RegisterCollector` returns, after the second
and third loops: under a key that no created note has as its id, the name of
the last listed note with that id. -/
theorem adopted_name (request : RegisterCollectorRequest) (listed created : List Note)
    (key name : String) (hkey : key ∈ derivedKeys request)
    (hlast : lastNameWithId listed key = some name) (hcreated : key ∉ listedIds created) :
    ((created.foldl adoptCreatedNote
      (listed.foldl adoptListedNote (requestEntries request, requestEntries request)).1).get key).map
        Note.Name = some name := by
  rw [foldl_adoptCreatedNote_eq created _ [], foldl_adoptListedNote_name,
    lastNameWithId_of_not_mem created key hcreated]
  simp only
  rw [foldl_adoptListedNote_name, hlast]
  simp only
  have hmem : key ∈ (requestEntries request).keys := by rw [requestEntries_keys]; exact hkey
  have hsome := (GoMap.get_isSome_iff _ _).2 hmem
  cases hg : (requestEntries request).get key with
  | none => simp [hg] at hsome
  | some found => rfl

/-- The calls and the result of `RegisterCollector` for any note store: for a
request with a non-empty collector id and pairwise
distinct derived keys and a successful `ListNotes` response, `BatchCreateNotes`
is called if and only if some requested key is the id of no listed note, then
exactly once, with exactly the requested entries whose key is the id of no
listed note (so no key matching a listed note is sent); the call returns a
result exactly when `BatchCreateNotes` is not called or succeeds; the key set
of the result is the set of derived keys; and each requested key that is the
id of a listed note carries, in the result, the name of the last listed note
with that id, provided `BatchCreateNotes` is not called or returns no note
with that id. -/
theorem RegisterCollector_reconciliation {σ : Type} (grafeasCommon : GrafeasClient σ) (logger : Logger)
    (store : σ) (request : RegisterCollectorRequest) (listed : ListNotesResponse)
    (hid : request.Id ≠ "") (hkeys : (derivedKeys request).Nodup)
    (hlist : grafeasCommon.ListNotes store (listNotesRequest request) = .ok listed) :
    batchCreateNotesCalls (RegisterCollector grafeasCommon logger store request).1.events =
        (if unmatchedEntries request listed.Notes = [] then []
          else [batchCreateNotesRequest request listed.Notes]) ∧
      (∀ key, key ∈ (unmatchedEntries request listed.Notes).keys ↔
        key ∈ derivedKeys request ∧ key ∉ listedIds listed.Notes) ∧
      ((∃ response, (RegisterCollector grafeasCommon logger store request).1.result = .ok response) ↔
        (unmatchedEntries request listed.Notes = [] ∨
          ∃ created, (grafeasCommon.BatchCreateNotes store
            (batchCreateNotesRequest request listed.Notes)).1 = .ok created)) ∧
      ∀ response, (RegisterCollector grafeasCommon logger store request).1.result = .ok response →
        response.Notes.keys = derivedKeys request ∧
        ∀ key ∈ derivedKeys request, key ∈ listedIds listed.Notes →
          (unmatchedEntries request listed.Notes = [] ∨
            ∀ created, (grafeasCommon.BatchCreateNotes store
              (batchCreateNotesRequest request listed.Notes)).1 = .ok created →
              key ∉ listedIds created.Notes) →
          ∃ note ∈ listed.Notes, getNoteIdFromNoteName note.Name = key ∧
            lastNameWithId listed.Notes key = some note.Name ∧
            (response.Notes.get key).map Note.Name = some note.Name := by
  refine ⟨?_, unmatchedEntries_keys request listed.Notes, ?_⟩
  · by_cases hlen : request.Notes = []
    · rw [RegisterCollector_no_notes _ _ _ _ hid hlen]
      simp [unmatchedEntries, requestEntries, hlen, Run.pure, batchCreateNotesCalls]
    · rw [RegisterCollector_listed _ _ _ _ listed hid hlen hkeys hlist]
      by_cases hu : unmatchedEntries request listed.Notes = []
      · simp [hu, batchCreateNotesCalls]
      · simp only [hu, if_false]
        cases hb : grafeasCommon.BatchCreateNotes store
            (batchCreateNotesRequest request listed.Notes) with
        | mk outcome store1 =>
          cases outcome <;>
            simp [Run.fail, createError, createErrorWithCode, Logger.Error, batchCreateNotesCalls]
  · by_cases hlen : request.Notes = []
    · rw [RegisterCollector_no_notes _ _ _ _ hid hlen]
      have hu : unmatchedEntries request listed.Notes = [] := by
        simp [unmatchedEntries, requestEntries, hlen]
      refine ⟨by simp [hu, Run.pure], ?_⟩
      intro response hr
      simp only [Run.pure, Except.ok.injEq] at hr
      subst hr
      refine ⟨by simp [derivedKeys, hlen, GoMap.keys], ?_⟩
      intro key hkey
      simp [derivedKeys, hlen] at hkey
    · rw [RegisterCollector_listed _ _ _ _ listed hid hlen hkeys hlist]
      by_cases hu : unmatchedEntries request listed.Notes = []
      · simp only [hu, if_true, true_or, iff_true, Except.ok.injEq, exists_eq', true_and]
        intro response hr
        simp only [forall_const]
        subst hr
        refine ⟨by rw [foldl_adoptListedNote_keys, requestEntries_keys], ?_⟩
        intro key hkey hmatched
        obtain ⟨note, hmem, hnoteid, hlast⟩ := lastNameWithId_of_mem listed.Notes key hmatched
        refine ⟨note, hmem, hnoteid, hlast, ?_⟩
        have := adopted_name request listed.Notes [] key note.Name hkey hlast (by simp [listedIds])
        simpa using this
      · simp only [hu, if_false, false_or]
        cases hb : grafeasCommon.BatchCreateNotes store
            (batchCreateNotesRequest request listed.Notes) with
        | mk outcome store1 =>
          cases outcome with
          | error err => simp [Run.fail]
          | ok created =>
            simp only [Except.ok.injEq, exists_eq', true_and, forall_eq']
            refine ⟨?_, ?_⟩
            · rw [foldl_adoptCreatedNote_eq created.Notes _ [], foldl_adoptListedNote_keys,
                foldl_adoptListedNote_keys, requestEntries_keys]
            · intro key hkey hmatched hcreated
              obtain ⟨note, hmem, hnoteid, hlast⟩ := lastNameWithId_of_mem listed.Notes key hmatched
              exact ⟨note, hmem, hnoteid, hlast,
                adopted_name request listed.Notes created.Notes key note.Name hkey hlast hcreated⟩

/-! ## Registration against the model note store -/

theorem isPrefixOf_append_self (l r : List Char) : l.isPrefixOf (l ++ r) = true := by
  rw [List.isPrefixOf_iff_prefix]
  exact List.prefix_append _ _

/-- The model store reads the prefix out of the filter that
`RegisterCollector` builds. -/
theorem startsWithArgument_filter (collectorId : String) :
    startsWithArgument (registerCollectorFilter collectorId) =
      some ("projects/rode/notes/" ++ collectorId ++ "-") := by
  have hdata : (registerCollectorFilter collectorId).data =
      "name.startsWith(\"".data ++ (("projects/rode/notes/" ++ collectorId ++ "-").data ++ "\")".data) := by
    simp only [registerCollectorFilter, rodeProjectSlug, String.data_append]
    simp
  have hsuf : "\")".data.isSuffixOf (("projects/rode/notes/" ++ collectorId ++ "-").data ++ "\")".data) = true := by
    rw [List.isSuffixOf_iff_suffix]
    exact List.suffix_append _ _
  simp only [startsWithArgument, hdata, List.drop_left, List.isPrefixOf_iff_prefix]
  simp only [List.prefix_append, decide_True, Bool.true_and, hsuf, if_true, List.length_append,
    Nat.add_sub_cancel, List.take_left]
  simp only [isPrefixOf_append_self, Bool.and_self, if_true]

theorem HasPrefix_of_append_left (s p q : String) (h : HasPrefix s (p ++ q) = true) :
    HasPrefix s p = true := by
  simp only [HasPrefix, String.data_append, List.isPrefixOf_iff_prefix] at h ⊢
  exact (List.prefix_append _ _).trans h

theorem eq_append_TrimPrefix (s p : String) (h : HasPrefix s p = true) :
    s = p ++ TrimPrefix s p := by
  have hp : p.data <+: s.data := by simpa [HasPrefix] using h
  obtain ⟨t, ht⟩ := hp
  apply String.ext
  simp [TrimPrefix, h, ← ht]

/-- A note listed by the model store for a collector is named
`projects/rode/notes/<id>`. -/
theorem name_of_HasPrefix (name collectorId : String)
    (h : HasPrefix name ("projects/rode/notes/" ++ collectorId ++ "-") = true) :
    name = "projects/rode/notes/" ++ getNoteIdFromNoteName name := by
  have h1 : HasPrefix name "projects/rode/notes/" = true :=
    HasPrefix_of_append_left _ _ _ (HasPrefix_of_append_left _ _ _ h)
  have hslug : rodeProjectSlug ++ "/notes/" = "projects/rode/notes/" := by decide
  rw [getNoteIdFromNoteName, hslug]
  exact eq_append_TrimPrefix _ _ h1

/-- The name of the note of a derived key starts with the prefix that the
filter of the collector asks for. -/
theorem HasPrefix_of_derivedKey (request : RegisterCollectorRequest) (key : String)
    (hkey : key ∈ derivedKeys request) :
    HasPrefix ("projects/rode/notes/" ++ key) ("projects/rode/notes/" ++ request.Id ++ "-") = true := by
  obtain ⟨note, _, rfl⟩ := List.mem_map.1 hkey
  rw [buildNoteIdFromCollectorId_eq]
  have : "projects/rode/notes/" ++ (request.Id ++ "-" ++ kindToken note.Kind) =
      "projects/rode/notes/" ++ request.Id ++ "-" ++ kindToken note.Kind := by
    simp [String.append_assoc]
  rw [this]
  exact HasPrefix_append _ _

theorem modelNoteStore_ListNotes (store : NoteStore) (request : RegisterCollectorRequest) :
    modelNoteStore.ListNotes store (listNotesRequest request) =
      .ok { Notes := modelListing store request } := by
  simp [modelNoteStore, listNotesRequest, startsWithArgument_filter, modelListing]

theorem modelListing_canonical (store : NoteStore) (request : RegisterCollectorRequest) :
    CanonicalNames (modelListing store request) := by
  intro note hnote
  have := (List.mem_filter.1 hnote).2
  exact name_of_HasPrefix _ _ this

theorem storedNote_canonical (entries : GoMap Note) : CanonicalNames (entries.map storedNote) := by
  intro note hnote
  obtain ⟨entry, _, rfl⟩ := List.mem_map.1 hnote
  simp [storedNote, getNoteIdFromNoteName_name]

theorem listedIds_storedNote (entries : GoMap Note) :
    listedIds (entries.map storedNote) = entries.keys := by
  simp [listedIds, GoMap.keys, storedNote, getNoteIdFromNoteName_name, Function.comp_def]

/-- A derived key is the id of a note listed by the model store exactly when
the store holds a note named `projects/rode/notes/<key>`. -/
theorem mem_listedIds_modelListing (store : NoteStore) (request : RegisterCollectorRequest)
    (key : String) (hkey : key ∈ derivedKeys request) :
    key ∈ listedIds (modelListing store request) ↔
      "projects/rode/notes/" ++ key ∈ store.notes.map Note.Name := by
  constructor
  · intro h
    obtain ⟨note, hnote, hid⟩ := List.mem_map.1 h
    have hname := modelListing_canonical store request note hnote
    rw [hid] at hname
    exact List.mem_map.2 ⟨note, (List.mem_filter.1 hnote).1, hname⟩
  · intro h
    obtain ⟨note, hnote, hname⟩ := List.mem_map.1 h
    refine List.mem_map.2 ⟨note, List.mem_filter.2 ⟨hnote, ?_⟩, ?_⟩
    · rw [hname]
      exact HasPrefix_of_derivedKey request key hkey
    · rw [hname, getNoteIdFromNoteName_name]

theorem lastNameWithId_canonical (notes : List Note) (key : String) (hc : CanonicalNames notes)
    (hmem : key ∈ listedIds notes) :
    lastNameWithId notes key = some ("projects/rode/notes/" ++ key) := by
  obtain ⟨note, hnote, hid, hlast⟩ := lastNameWithId_of_mem notes key hmem
  rw [hlast, hc note hnote, hid]

/-- Against canonical listings and creations, the name returned under a
derived key that was listed or created is `projects/rode/notes/<key>`. -/
theorem final_name (request : RegisterCollectorRequest) (listed created : List Note)
    (key : String) (hkey : key ∈ derivedKeys request)
    (hl : CanonicalNames listed) (hc : CanonicalNames created)
    (hmem : key ∈ listedIds listed ∨ key ∈ listedIds created) :
    ((created.foldl adoptCreatedNote
      (listed.foldl adoptListedNote (requestEntries request, requestEntries request)).1).get key).map
        Note.Name = some ("projects/rode/notes/" ++ key) := by
  have hin : key ∈ (requestEntries request).keys := by rw [requestEntries_keys]; exact hkey
  have hsome := (GoMap.get_isSome_iff _ _).2 hin
  rw [foldl_adoptCreatedNote_eq created _ [], foldl_adoptListedNote_name]
  by_cases h2 : key ∈ listedIds created
  · rw [lastNameWithId_canonical created key hc h2]
    simp only
    have hin2 : key ∈ (listed.foldl adoptListedNote
        (requestEntries request, requestEntries request)).1.keys := by
      rw [foldl_adoptListedNote_keys]; exact hin
    have hsome2 := (GoMap.get_isSome_iff _ _).2 hin2
    cases hg : (listed.foldl adoptListedNote
        (requestEntries request, requestEntries request)).1.get key with
    | none => simp [hg] at hsome2
    | some found => rfl
  · have h1 : key ∈ listedIds listed := hmem.resolve_right h2
    rw [lastNameWithId_of_not_mem created key h2]
    simp only
    rw [foldl_adoptListedNote_name, lastNameWithId_canonical listed key hl h1]
    cases hg : (requestEntries request).get key with
    | none => simp [hg] at hsome
    | some found => rfl

theorem GoMap.get_of_keys (f : String → String) (keys : List String) (key : String)
    (h : key ∈ keys) : GoMap.get (keys.map fun k => (k, f k)) key = some (f key) := by
  induction keys with
  | nil => simp at h
  | cons head rest ih =>
    by_cases hk : head = key
    · simp [GoMap.get, hk]
    · have : key ∈ rest := by
        rcases List.mem_cons.1 h with h | h
        · exact absurd h.symm hk
        · exact h
      simp [GoMap.get, hk, ih this]

/-- One call of `RegisterCollector` against the model store: its result, the
store afterwards and its `BatchCreateNotes` calls. -/
theorem model_run (logger : Logger) (store : NoteStore) (request : RegisterCollectorRequest)
    (hid : request.Id ≠ "") (hlen : request.Notes ≠ []) (hkeys : (derivedKeys request).Nodup) :
    (RegisterCollector modelNoteStore logger store request).1.result =
        .ok (modelResponse store request) ∧
      (RegisterCollector modelNoteStore logger store request).2 =
        (modelCreated store request).foldl NoteStore.put store ∧
      batchCreateNotesCalls (RegisterCollector modelNoteStore logger store request).1.events =
        if unmatchedEntries request (modelListing store request) = [] then []
        else [batchCreateNotesRequest request (modelListing store request)] := by
  rw [RegisterCollector_listed modelNoteStore logger store request
    { Notes := modelListing store request } hid hlen hkeys (modelNoteStore_ListNotes store request)]
  by_cases hu : unmatchedEntries request (modelListing store request) = []
  · simp [hu, modelCreated, modelResponse, batchCreateNotesCalls]
  · simp [hu, modelCreated, modelResponse, batchCreateNotesCalls, modelNoteStore,
      batchCreateNotesRequest]

/-- The names that a call against the model store returns: every derived key
is mapped to `projects/rode/notes/<key>`. -/
theorem model_names (store : NoteStore) (request : RegisterCollectorRequest)
    (hkeys : (derivedKeys request).Nodup) :
    noteNames (modelResponse store request) = expectedNames request := by
  have hk1 : (modelResponse store request).Notes.keys = derivedKeys request := by
    rw [modelResponse, foldl_adoptCreatedNote_eq _ _ [], foldl_adoptListedNote_keys,
      foldl_adoptListedNote_keys, requestEntries_keys]
  apply GoMap.ext_of_nodup
  · simp only [noteNames, expectedNames, GoMap.keys, List.map_map] at hk1 ⊢
    rw [← hk1]
    simp [Function.comp_def]
  · have : (noteNames (modelResponse store request)).keys = derivedKeys request := by
      rw [← hk1]
      simp [noteNames, GoMap.keys, Function.comp_def]
    rw [this]
    exact hkeys
  · intro key hkey
    have hkey2 : key ∈ derivedKeys request := by
      rw [← hk1]
      simpa [noteNames, GoMap.keys, Function.comp_def] using hkey
    rw [noteNames, GoMap.get_map_values, expectedNames, GoMap.get_of_keys _ _ _ hkey2]
    have hor : key ∈ listedIds (modelListing store request) ∨
        key ∈ listedIds (modelCreated store request) := by
      by_cases hm : key ∈ listedIds (modelListing store request)
      · exact Or.inl hm
      · right
        show key ∈ listedIds ((unmatchedEntries request (modelListing store request)).map storedNote)
        rw [listedIds_storedNote]
        exact (unmatchedEntries_keys request _ key).2 ⟨hkey2, hm⟩
    exact final_name request (modelListing store request) (modelCreated store request) key hkey2
      (modelListing_canonical store request) (storedNote_canonical _) hor

theorem NoteStore.names_put (store : NoteStore) (note : Note) (name : String) :
    name ∈ (store.put note).notes.map Note.Name ↔
      name ∈ store.notes.map Note.Name ∨ name = note.Name := by
  simp only [NoteStore.put, List.map_append, List.mem_append, List.mem_map, List.mem_filter,
    decide_eq_true_eq, List.map_cons, List.map_nil, List.mem_singleton]
  constructor
  · rintro (⟨stored, ⟨hmem, _⟩, rfl⟩ | h)
    · exact Or.inl ⟨stored, hmem, rfl⟩
    · exact Or.inr h
  · rintro (⟨stored, hmem, rfl⟩ | h)
    · by_cases he : stored.Name = note.Name
      · exact Or.inr he
      · exact Or.inl ⟨stored, ⟨hmem, he⟩, rfl⟩
    · exact Or.inr h

theorem NoteStore.names_foldl_put (notes : List Note) :
    ∀ (store : NoteStore) (name : String),
      name ∈ (notes.foldl NoteStore.put store).notes.map Note.Name ↔
        name ∈ store.notes.map Note.Name ∨ name ∈ notes.map Note.Name := by
  induction notes with
  | nil => intro store name; simp
  | cons note rest ih =>
    intro store name
    rw [List.foldl_cons, ih, NoteStore.names_put]
    simp only [List.map_cons, List.mem_cons]
    tauto

/-- After a call against the model store, the store holds a note named
`projects/rode/notes/<key>` for every derived key. -/
theorem model_store_holds (store : NoteStore) (request : RegisterCollectorRequest) (key : String)
    (hkey : key ∈ derivedKeys request) :
    "projects/rode/notes/" ++ key ∈
      ((modelCreated store request).foldl NoteStore.put store).notes.map Note.Name := by
  rw [NoteStore.names_foldl_put]
  by_cases hm : key ∈ listedIds (modelListing store request)
  · exact Or.inl ((mem_listedIds_modelListing store request key hkey).1 hm)
  · right
    have hin : key ∈ (unmatchedEntries request (modelListing store request)).keys :=
      (unmatchedEntries_keys request _ key).2 ⟨hkey, hm⟩
    obtain ⟨entry, hentry, hfst⟩ := List.mem_map.1 hin
    refine List.mem_map.2 ⟨storedNote entry, List.mem_map_of_mem _ hentry, ?_⟩
    simp [storedNote, hfst]

/-- Once the store holds a note for every derived key, nothing is left to
create. -/
theorem unmatchedEntries_eq_nil (store : NoteStore) (request : RegisterCollectorRequest)
    (h : ∀ key ∈ derivedKeys request,
      "projects/rode/notes/" ++ key ∈ store.notes.map Note.Name) :
    unmatchedEntries request (modelListing store request) = [] := by
  rw [unmatchedEntries, List.filter_eq_nil_iff]
  intro entry hentry
  have hkey : entry.1 ∈ derivedKeys request := by
    rw [← requestEntries_keys]
    exact List.mem_map_of_mem _ hentry
  have := (mem_listedIds_modelListing store request entry.1 hkey).2 (h entry.1 hkey)
  simp [this]

/-- C2: against the model note store, for a non-empty collector id and notes
with pairwise distinct derived keys, two calls of `RegisterCollector` in a row
with the same input both succeed and return the same mapping from derived key
to note name (every key mapped to `projects/rode/notes/<key>`), the second
call issues no `BatchCreateNotes`, and afterwards the store holds exactly one
note per derived key. -/
theorem C2_registration_idempotent (logger : Logger) (store : NoteStore)
    (request : RegisterCollectorRequest) (hid : request.Id ≠ "")
    (hkeys : (derivedKeys request).Nodup) :
    ∃ first second : RegisterCollectorResponse,
      (RegisterCollector modelNoteStore logger store request).1.result = .ok first ∧
      (RegisterCollector modelNoteStore logger
        (RegisterCollector modelNoteStore logger store request).2 request).1.result = .ok second ∧
      noteNames first = noteNames second ∧
      noteNames first = expectedNames request ∧
      batchCreateNotesCalls (RegisterCollector modelNoteStore logger
        (RegisterCollector modelNoteStore logger store request).2 request).1.events = [] ∧
      ∀ key ∈ derivedKeys request,
        ((RegisterCollector modelNoteStore logger
          (RegisterCollector modelNoteStore logger store request).2 request).2.notes.map
            Note.Name).count ("projects/rode/notes/" ++ key) = 1 := by
  by_cases hlen : request.Notes = []
  · have h0 : ∀ st : NoteStore,
        RegisterCollector modelNoteStore logger st request = (Run.pure {}, st) :=
      fun st => RegisterCollector_no_notes _ _ _ _ hid hlen
    refine ⟨{}, {}, ?_⟩
    simp only [h0]
    simp [Run.pure, noteNames, expectedNames, derivedKeys, hlen, batchCreateNotesCalls]
  · obtain ⟨hr1, hs1, _⟩ := model_run logger store request hid hlen hkeys
    rw [hs1]
    obtain ⟨hr2, hs2, hc2⟩ := model_run logger
      ((modelCreated store request).foldl NoteStore.put store) request hid hlen hkeys
    have hnil : unmatchedEntries request
        (modelListing ((modelCreated store request).foldl NoteStore.put store) request) = [] :=
      unmatchedEntries_eq_nil _ request (fun key hkey => model_store_holds store request key hkey)
    have hcreated : modelCreated ((modelCreated store request).foldl NoteStore.put store) request = [] := by
      rw [modelCreated, hnil]
      rfl
    refine ⟨_, _, hr1, hr2, ?_, model_names store request hkeys, ?_, ?_⟩
    · rw [model_names store request hkeys, model_names _ request hkeys]
    · rw [hc2, if_pos hnil]
    · intro key hkey
      rw [hs2, hcreated, List.foldl_nil]
      exact List.count_eq_one_of_mem
        ((modelCreated store request).foldl NoteStore.put store).distinct
        (model_store_holds store request key hkey)

/-- C2 at the request `sampleRequest` against the model store `sampleStore`,
which already holds the build note. -/
theorem C2_registration_idempotent_witness :
    ∃ first second : RegisterCollectorResponse,
      (RegisterCollector modelNoteStore sampleLogger sampleStore sampleRequest).1.result = .ok first ∧
      (RegisterCollector modelNoteStore sampleLogger
        (RegisterCollector modelNoteStore sampleLogger sampleStore sampleRequest).2
          sampleRequest).1.result = .ok second ∧
      noteNames first = noteNames second ∧
      noteNames first = expectedNames sampleRequest ∧
      batchCreateNotesCalls (RegisterCollector modelNoteStore sampleLogger
        (RegisterCollector modelNoteStore sampleLogger sampleStore sampleRequest).2
          sampleRequest).1.events = [] ∧
      ∀ key ∈ derivedKeys sampleRequest,
        ((RegisterCollector modelNoteStore sampleLogger
          (RegisterCollector modelNoteStore sampleLogger sampleStore sampleRequest).2
            sampleRequest).2.notes.map Note.Name).count ("projects/rode/notes/" ++ key) = 1 :=
  C2_registration_idempotent sampleLogger sampleStore sampleRequest (by decide) (by decide)

/-! ## Pagination -/

theorem finishSearch_prepend (env : EsEnv) (log : Logger) (events before : List Event)
    (request : SearchRequest) (paginated : Bool) (token : String) :
    (⟨(finishSearch env log before request paginated token).result,
      events ++ (finishSearch env log before request paginated token).events⟩ :
        Run (EsSearchResponseHits × String)) =
      finishSearch env log (events ++ before) request paginated token := by
  unfold finishSearch
  repeat' split
  all_goals simp_all [Run.fail]

theorem handlePagination_ok (env : EsEnv) (log : Logger) (body : EsSearch)
    (index pageToken : String) (pageSize : Int) (context : String) (offset : Int)
    (hctx : (pageToken = "" ∧ OpensContext env index context ∧ offset = 0) ∨
      (pageToken ≠ "" ∧ env.ParsePageToken pageToken = .ok (context, offset))) :
    handlePagination env log body index pageToken pageSize =
      ⟨.ok (env.CreatePageToken context (addInt offset pageSize),
        [SearchOption.WithSize pageSize, SearchOption.WithFrom offset],
        { body with Pit := some { Id := context, KeepAlive := pitKeepAlive } }),
        if pageToken = "" then [Event.OpenPointInTime index pitKeepAlive] else []⟩ := by
  rcases hctx with ⟨ht, ⟨res, hres, herr, hdec⟩, ho⟩ | ⟨ht, hparse⟩
  · simp [handlePagination, ht, hres, herr, hdec, Run.bind, Run.pure, ho]
  · simp [handlePagination, ht, hparse, Run.bind, Run.pure]

theorem genericList_paginated (env : EsEnv) (log : Logger) (options : genericListOptions)
    (context : String) (offset : Int)
    (hp : isPaginated options = true) (hf : FilterCompiles env options)
    (hctx : (options.pageToken = "" ∧ OpensContext env options.index context ∧ offset = 0) ∨
      (options.pageToken ≠ "" ∧ env.ParsePageToken options.pageToken = .ok (context, offset))) :
    genericList env log options =
      finishSearch env (pageLogger env log options context)
        (pageEvents env log options context offset) (pageRequest env options context offset) true
        (env.CreatePageToken context (addInt offset options.pageSize)) := by
  unfold genericList
  simp only [hp, handlePagination_ok env _ _ _ _ _ context offset hctx, if_true]
  rcases hf with hf | ⟨query, hq⟩
  · by_cases hs : options.sortField = "" <;> by_cases ht : options.pageToken = "" <;>
      (simp only [hf, hs, ht, Run.bind, Run.pure, ne_eq, not_true_eq_false, not_false_eq_true,
        if_true, if_false, finishSearch_prepend]
       simp only [hf, hs, ht, Logger.Debug, pageLogger, pageEvents,
        pageRequest, pageBody, searchBody, searchLogger, filterEvents, buildSearchRequest,
        SearchOption.apply, ne_eq, not_true_eq_false, not_false_eq_true, if_true, if_false,
        List.nil_append, List.append_nil, List.foldl_cons, List.foldl_nil, List.cons_append,
        List.append_assoc])
  · by_cases hfe : options.filter = "" <;> by_cases hs : options.sortField = "" <;>
      by_cases ht : options.pageToken = "" <;>
      (simp only [hfe, hq, hs, ht, Run.bind, Run.pure, ne_eq, not_true_eq_false,
        not_false_eq_true, if_true, if_false, finishSearch_prepend]
       simp only [hfe, hq, hs, ht, Logger.Debug, pageLogger, pageEvents,
        pageRequest, pageBody, searchBody, searchLogger, filterEvents, buildSearchRequest,
        SearchOption.apply, ne_eq, not_true_eq_false, not_false_eq_true, if_true, if_false,
        List.nil_append, List.append_nil, List.foldl_cons, List.foldl_nil, List.cons_append,
        List.append_assoc])

theorem genericList_unpaginated (env : EsEnv) (log : Logger) (options : genericListOptions)
    (hp : isPaginated options = false) (hf : FilterCompiles env options) :
    genericList env log options =
      finishSearch env (fullLogger env log options) (fullEvents env log options)
        (fullRequest env options) false "" := by
  unfold genericList
  simp only [hp]
  rcases hf with hf | ⟨query, hq⟩
  · by_cases hs : options.sortField = "" <;>
      (simp only [hf, hs, Run.bind, Run.pure, ne_eq, not_true_eq_false, not_false_eq_true,
        if_true, if_false, finishSearch_prepend, Bool.false_eq_true]
       simp only [hf, hs, Logger.Debug, fullLogger, fullEvents,
        fullRequest, searchBody, searchLogger, filterEvents, buildSearchRequest,
        SearchOption.apply, ne_eq, not_true_eq_false, not_false_eq_true, if_true, if_false,
        List.nil_append, List.append_nil, List.foldl_cons, List.foldl_nil, List.cons_append,
        List.append_assoc])
  · by_cases hfe : options.filter = "" <;> by_cases hs : options.sortField = "" <;>
      (simp only [hfe, hq, hs, Run.bind, Run.pure, ne_eq, not_true_eq_false,
        not_false_eq_true, if_true, if_false, finishSearch_prepend, Bool.false_eq_true]
       simp only [hfe, hq, hs, Logger.Debug, fullLogger, fullEvents,
        fullRequest, searchBody, searchLogger, filterEvents, buildSearchRequest,
        SearchOption.apply, ne_eq, not_true_eq_false, not_false_eq_true, if_true, if_false,
        List.nil_append, List.append_nil, List.foldl_cons, List.foldl_nil, List.cons_append,
        List.append_assoc])

theorem finishSearch_paginated_ok (env : EsEnv) (log : Logger) (before : List Event)
    (request : SearchRequest) (token : String) (res : Response EsSearchResponse)
    (searchResults : EsSearchResponse) (parsed : String × Int)
    (hsearch : env.Search request = .ok res) (herr : res.IsError = false)
    (hdec : res.decoded = .ok searchResults) (hparse : env.ParsePageToken token = .ok parsed) :
    finishSearch env log before request true token =
      ⟨.ok (searchResults.Hits,
        if parsed.2 ≥ searchResults.Hits.Total.Value then "" else token), before⟩ := by
  simp [finishSearch, hsearch, herr, hdec, hparse]

theorem finishSearch_unpaginated_ok (env : EsEnv) (log : Logger) (before : List Event)
    (request : SearchRequest) (token : String) (res : Response EsSearchResponse)
    (searchResults : EsSearchResponse)
    (hsearch : env.Search request = .ok res) (herr : res.IsError = false)
    (hdec : res.decoded = .ok searchResults) :
    finishSearch env log before request false token = ⟨.ok (searchResults.Hits, token), before⟩ := by
  simp [finishSearch, hsearch, herr, hdec]

theorem searches_append (a b : List Event) : searches (a ++ b) = searches a ++ searches b := by
  induction a with
  | nil => rfl
  | cons head rest ih => cases head <;> simp [searches, ih]

theorem openedContexts_append (a b : List Event) :
    openedContexts (a ++ b) = openedContexts a ++ openedContexts b := by
  induction a with
  | nil => rfl
  | cons head rest ih => cases head <;> simp [openedContexts, ih]

theorem errorEntries_append (a b : List Event) :
    errorEntries (a ++ b) = errorEntries a ++ errorEntries b := by
  induction a with
  | nil => rfl
  | cons head rest ih =>
    cases head with
    | Log entry => by_cases h : entry.level = Level.Error <;> simp [errorEntries, ih, h]
    | _ => simp [errorEntries, ih]

/-- Whatever the search does, `finishSearch` adds no search and opens no
search context beyond the events before it. -/
theorem finishSearch_events (env : EsEnv) (log : Logger) (before : List Event)
    (request : SearchRequest) (paginated : Bool) (token : String) :
    searches (finishSearch env log before request paginated token).events = searches before ∧
      openedContexts (finishSearch env log before request paginated token).events =
        openedContexts before := by
  unfold finishSearch
  repeat' split
  all_goals simp [Run.fail, createError, createErrorWithCode, Logger.Error, searches_append,
    openedContexts_append, searches, openedContexts]

theorem searches_pageEvents (env : EsEnv) (log : Logger) (options : genericListOptions)
    (context : String) (offset : Int) :
    searches (pageEvents env log options context offset) =
      [pageRequest env options context offset] := by
  by_cases hf : options.filter = "" <;> by_cases ht : options.pageToken = "" <;>
    simp [pageEvents, filterEvents, Logger.Debug, searches, hf, ht]

theorem openedContexts_pageEvents (env : EsEnv) (log : Logger) (options : genericListOptions)
    (context : String) (offset : Int) :
    openedContexts (pageEvents env log options context offset) =
      if options.pageToken = "" then [options.index] else [] := by
  by_cases hf : options.filter = "" <;> by_cases ht : options.pageToken = "" <;>
    simp [pageEvents, filterEvents, Logger.Debug, openedContexts, hf, ht]

theorem searches_fullEvents (env : EsEnv) (log : Logger) (options : genericListOptions) :
    searches (fullEvents env log options) = [fullRequest env options] := by
  by_cases hf : options.filter = "" <;>
    simp [fullEvents, filterEvents, Logger.Debug, searches, hf]

theorem openedContexts_fullEvents (env : EsEnv) (log : Logger) (options : genericListOptions) :
    openedContexts (fullEvents env log options) = [] := by
  by_cases hf : options.filter = "" <;>
    simp [fullEvents, filterEvents, Logger.Debug, openedContexts, hf]

/-! ## Machine integers -/

theorem wrapInt_isInt (x : Int) : IsInt (wrapInt x) := by
  unfold IsInt wrapInt minInt maxInt
  omega

theorem wrapInt_of_isInt (x : Int) (h : IsInt x) : wrapInt x = x := by
  unfold IsInt minInt maxInt at h
  unfold wrapInt
  omega

theorem addInt_isInt (a b : Int) : IsInt (addInt a b) := wrapInt_isInt _

theorem addInt_of_isInt (a b : Int) (h : IsInt (a + b)) : addInt a b = a + b :=
  wrapInt_of_isInt _ h

/-! ## The model codec -/

theorem toBits_length (width n : Nat) : (toBits width n).length = width := by
  induction width generalizing n with
  | zero => rfl
  | succ w ih => simp [toBits, ih]

theorem toBits_all (width n : Nat) :
    (toBits width n).all (fun c => decide (c = '0' ∨ c = '1')) = true := by
  induction width generalizing n with
  | zero => rfl
  | succ w ih =>
    rw [toBits, List.all_cons, ih]
    by_cases h : n % 2 = 1 <;> simp [h]

theorem ofBits_toBits (width n : Nat) : ofBits (toBits width n) = n % 2 ^ width := by
  induction width generalizing n with
  | zero => simp [toBits, ofBits, Nat.mod_one]
  | succ w ih =>
    rw [toBits, ofBits, ih, Nat.pow_succ, Nat.mul_comm (2 ^ w) 2, Nat.mod_mul]
    by_cases h : n % 2 = 1
    · simp [h]
    · have h0 : n % 2 = 0 := by omega
      simp [h0]

/-- The model codec decodes what it encoded. -/
theorem binary_roundtrip (context : String) (offset : Int) (h : IsInt offset) :
    binaryParsePageToken (binaryCreatePageToken context offset) = .ok (context, offset) := by
  have hlen := toBits_length 64 (offset % 18446744073709551616).toNat
  have htake : ((toBits 64 (offset % 18446744073709551616).toNat) ++ context.data).take 64 =
      toBits 64 (offset % 18446744073709551616).toNat := by
    exact List.take_left' hlen
  have hdrop : ((toBits 64 (offset % 18446744073709551616).toNat) ++ context.data).drop 64 =
      context.data := by
    exact List.drop_left' hlen
  have hval : wrapInt (ofBits (toBits 64 (offset % 18446744073709551616).toNat)) = offset := by
    rw [ofBits_toBits]
    unfold IsInt minInt maxInt at h
    unfold wrapInt
    have h1 : ((offset % 18446744073709551616).toNat : Int) = offset % 18446744073709551616 :=
      Int.toNat_of_nonneg (by omega)
    have h2 : ((offset % 18446744073709551616).toNat % 2 ^ 64 : Nat) =
        (offset % 18446744073709551616).toNat := by
      apply Nat.mod_eq_of_lt
      omega
    rw [h2, h1]
    omega
  have hall := toBits_all 64 (offset % 18446744073709551616).toNat
  unfold binaryParsePageToken binaryCreatePageToken
  simp only [htake, hdrop, hval, List.length_append, hlen]
  have hall2 : ∀ x ∈ toBits 64 (offset % 18446744073709551616).toNat, x = '0' ∨ x = '1' := by
    simpa using hall
  simp only [hall, not_true_eq_false, or_false]
  rw [if_neg (by omega)]

theorem binary_nonempty (context : String) (offset : Int) :
    binaryCreatePageToken context offset ≠ "" := by
  intro h
  have := congrArg (fun s => s.data.length) h
  simp [binaryCreatePageToken, toBits_length] at this

theorem modelIndex_lawful (total : Int) (documents : List EsSearchResponseHit) :
    LawfulCodec (modelIndex total documents) :=
  ⟨fun context offset h => binary_roundtrip context offset h, fun context offset =>
    binary_nonempty context offset⟩

/-! ## Failures before the search -/

/-- When the filter does not compile, `genericList` stops after the filter
step with an `Internal` error. -/
theorem genericList_filter_error (env : EsEnv) (log : Logger) (options : genericListOptions)
    (err : GoError) (hfilter : options.filter ≠ "")
    (hparse : env.ParseExpression options.filter = .error err) :
    genericList env log options =
      Run.fail [Event.ParseExpression options.filter]
        (createError (log.With [Field.String "filter" options.filter])
          "error while parsing filter expression" (some err) []) := by
  unfold genericList
  simp only [hfilter, hparse, ne_eq, not_false_eq_true, if_true]
  rfl

/-- When the filter compiles and `handlePagination` fails, `genericList` stops
with an `Internal` error that wraps the error of `handlePagination`. -/
theorem genericList_pagination_error (env : EsEnv) (log : Logger) (options : genericListOptions)
    (err : GoError) (hp : isPaginated options = true) (hf : FilterCompiles env options)
    (hfail : (handlePagination env (searchLogger log options) (searchBody env options)
      options.index options.pageToken options.pageSize).result = .error err) :
    genericList env log options =
      Run.fail (filterEvents options ++
          (handlePagination env (searchLogger log options) (searchBody env options)
            options.index options.pageToken options.pageSize).events)
        (createError (searchLogger log options) "error while handling pagination" (some err) []) := by
  unfold genericList
  simp only [hp, if_true]
  rcases hf with hf | ⟨query, hq⟩
  · by_cases hs : options.sortField = "" <;>
    · simp only [hf, hs, searchLogger, searchBody, filterEvents, ne_eq, not_true_eq_false,
        not_false_eq_true, if_true, if_false] at hfail ⊢
      simp only [Run.bind, Run.pure, hfail, Run.fail, List.nil_append]
  · by_cases hfe : options.filter = "" <;> by_cases hs : options.sortField = "" <;>
    · simp only [hfe, hq, hs, searchLogger, searchBody, filterEvents, ne_eq, not_true_eq_false,
        not_false_eq_true, if_true, if_false] at hfail ⊢
      simp only [Run.bind, Run.pure, hfail, Run.fail, List.nil_append, List.append_assoc]

/-- Either `handlePagination` gets a search context and an offset, or it fails
without a search. -/
theorem handlePagination_cases (env : EsEnv) (log : Logger) (body : EsSearch)
    (index pageToken : String) (pageSize : Int) :
    (∃ context offset, (pageToken = "" ∧ OpensContext env index context ∧ offset = 0) ∨
      (pageToken ≠ "" ∧ env.ParsePageToken pageToken = .ok (context, offset))) ∨
    (∃ err, (handlePagination env log body index pageToken pageSize).result = .error err ∧
      searches (handlePagination env log body index pageToken pageSize).events = []) := by
  by_cases ht : pageToken = ""
  · cases hopen : env.OpenPointInTime index pitKeepAlive with
    | error err =>
      right
      simp [handlePagination, ht, hopen, Run.bind, Run.fail, createError, createErrorWithCode,
        Logger.Error, searches]
    | ok res =>
      by_cases herr : res.IsError = true
      · right
        simp [handlePagination, ht, hopen, herr, Run.bind, Run.fail, createError,
          createErrorWithCode, Logger.Error, searches]
      · cases hdec : res.decoded with
        | error err =>
          right
          simp [handlePagination, ht, hopen, herr, hdec, Run.bind, Run.fail, createError,
            createErrorWithCode, Logger.Error, searches]
        | ok pitResponse =>
          left
          exact ⟨pitResponse.Id, 0, Or.inl ⟨ht, ⟨res, hopen, by simpa using herr, hdec⟩, rfl⟩⟩
  · cases hparse : env.ParsePageToken pageToken with
    | error err =>
      right
      simp [handlePagination, ht, hparse, Run.bind, Run.fail, createError, createErrorWithCode,
        Logger.Error, searches]
    | ok parsed =>
      left
      exact ⟨parsed.1, parsed.2, Or.inr ⟨ht, rfl⟩⟩

theorem searches_filterEvents (options : genericListOptions) :
    searches (filterEvents options) = [] := by
  by_cases hf : options.filter = "" <;> simp [filterEvents, searches, hf]

/-- A call of `genericList` that executes a search or returns a result has
compiled its filter and, when paginated, has a search context and an
offset. -/
theorem genericList_reaches_search (env : EsEnv) (log : Logger) (options : genericListOptions)
    (h : searches (genericList env log options).events ≠ [] ∨
      ∃ result, (genericList env log options).result = .ok result) :
    FilterCompiles env options ∧
      (isPaginated options = true →
        ∃ context offset, (options.pageToken = "" ∧ OpensContext env options.index context ∧
          offset = 0) ∨
          (options.pageToken ≠ "" ∧ env.ParsePageToken options.pageToken = .ok (context, offset))) := by
  have hf : FilterCompiles env options := by
    by_cases hfe : options.filter = ""
    · exact Or.inl hfe
    · cases hparse : env.ParseExpression options.filter with
      | ok query => exact Or.inr ⟨query, hparse⟩
      | error err =>
        exfalso
        rw [genericList_filter_error env log options err hfe hparse] at h
        simp [Run.fail, createError, createErrorWithCode, Logger.Error, searches] at h
  refine ⟨hf, ?_⟩
  intro hp
  rcases handlePagination_cases env (searchLogger log options) (searchBody env options)
    options.index options.pageToken options.pageSize with hctx | ⟨err, hfail, hnone⟩
  · exact hctx
  · exfalso
    rw [genericList_pagination_error env log options err hp hf hfail] at h
    simp [Run.fail, createError, createErrorWithCode, Logger.Error, searches_append,
      searches_filterEvents, hnone, searches] at h


/-! ## Filter failures -/

/-- C10 (as stated, refuted): the model filter compiler rejects the filter
`(`, and `genericList` then fails with status code `Internal`, which is not
`InvalidArgument`. -/
theorem C10_filter_error_counterexample :
    (modelIndex 5 fiveDocuments).ParseExpression "(" =
        .error (GoError.plain "unexpected end of expression") ∧
      errorCodeOf (genericList (modelIndex 5 fiveDocuments) sampleLogger
        { index := rodeElasticsearchOccurrencesAlias, filter := "(" }) = some Code.Internal ∧
      Code.Internal ≠ Code.InvalidArgument :=
  ⟨rfl, rfl, by decide⟩

/-- C10 (amended): when the filter is not empty and the filter compiler
returns an error, `genericList` returns an error with status code `Internal`
whose description is `error while parsing filter expression: ` followed by the
text of the compiler's error, and no search context is opened and no search
is executed. -/
theorem C10_filter_error_internal (env : EsEnv) (log : Logger) (options : genericListOptions)
    (err : GoError) (hfilter : options.filter ≠ "")
    (hparse : env.ParseExpression options.filter = .error err) :
    (genericList env log options).result =
        .error (GoError.status Code.Internal
          ("error while parsing filter expression" ++ ": " ++ err.Error)) ∧
      openedContexts (genericList env log options).events = [] ∧
      searches (genericList env log options).events = [] := by
  rw [genericList_filter_error env log options err hfilter hparse]
  simp [Run.fail, createError, createErrorWithCode, Logger.Error, openedContexts, searches]

/-- C10 (amended) at the model index and the filter `(`. -/
theorem C10_filter_error_internal_witness :
    (genericList (modelIndex 5 fiveDocuments) sampleLogger
        { index := rodeElasticsearchOccurrencesAlias, filter := "(" }).result =
        .error (GoError.status Code.Internal
          "error while parsing filter expression: unexpected end of expression") ∧
      openedContexts (genericList (modelIndex 5 fiveDocuments) sampleLogger
        { index := rodeElasticsearchOccurrencesAlias, filter := "(" }).events = [] ∧
      searches (genericList (modelIndex 5 fiveDocuments) sampleLogger
        { index := rodeElasticsearchOccurrencesAlias, filter := "(" }).events = [] :=
  C10_filter_error_internal (modelIndex 5 fiveDocuments) sampleLogger
    { index := rodeElasticsearchOccurrencesAlias, filter := "(" }
    (GoError.plain "unexpected end of expression") (by decide) rfl

/-! ## The next page token -/

theorem finishSearch_unpaginated_inv (env : EsEnv) (log : Logger) (before : List Event)
    (request : SearchRequest) (given : String) (hits : EsSearchResponseHits) (token : String)
    (h : (finishSearch env log before request false given).result = .ok (hits, token)) :
    token = given := by
  unfold finishSearch at h
  cases hsearch : env.Search request with
  | error err => simp [hsearch, Run.fail] at h
  | ok res =>
    by_cases herr : res.IsError = true
    · simp [hsearch, herr, Run.fail] at h
    · cases hdec : res.decoded with
      | error err => simp [hsearch, herr, hdec, Run.fail] at h
      | ok searchResults =>
        simp [hsearch, herr, hdec] at h
        exact h.2.symm

theorem finishSearch_paginated_inv (env : EsEnv) (log : Logger) (before : List Event)
    (request : SearchRequest) (given : String) (hits : EsSearchResponseHits) (token : String)
    (h : (finishSearch env log before request true given).result = .ok (hits, token)) :
    ∃ parsed, env.ParsePageToken given = .ok parsed ∧
      token = if parsed.2 ≥ hits.Total.Value then "" else given := by
  unfold finishSearch at h
  cases hsearch : env.Search request with
  | error err => simp [hsearch, Run.fail] at h
  | ok res =>
    by_cases herr : res.IsError = true
    · simp [hsearch, herr, Run.fail] at h
    · cases hdec : res.decoded with
      | error err => simp [hsearch, herr, hdec, Run.fail] at h
      | ok searchResults =>
        cases hparse : env.ParsePageToken given with
        | error err => simp [hsearch, herr, hdec, hparse, Run.fail] at h
        | ok parsed =>
          simp only [hsearch, herr, hdec, hparse, if_true, Bool.false_eq_true, if_false,
            Except.ok.injEq, Prod.mk.injEq] at h
          refine ⟨parsed, rfl, ?_⟩
          rw [← h.1, ← h.2]

theorem window_fullRequest (env : EsEnv) (options : genericListOptions)
    (documents : List EsSearchResponseHit) :
    window documents (fullRequest env options) = documents.take 1000 := by
  simp [window, fullRequest, maxPageSize]

theorem window_pageRequest (env : EsEnv) (options : genericListOptions) (context : String)
    (offset : Int) (documents : List EsSearchResponseHit) :
    window documents (pageRequest env options context offset) =
      (documents.drop offset.toNat).take options.pageSize.toNat := by
  simp [window, pageRequest]

/-- An unpaginated call against the model index returns the first thousand
documents and the empty token. -/
theorem modelIndex_unpaginated (total : Int) (documents : List EsSearchResponseHit)
    (log : Logger) (options : genericListOptions) (hp : isPaginated options = false)
    (hf : options.filter ≠ "(") :
    (genericList (modelIndex total documents) log options).result =
      .ok (⟨⟨total⟩, documents.take 1000⟩, "") := by
  have hfc : FilterCompiles (modelIndex total documents) options := by
    right
    exact ⟨⟨options.filter⟩, by simp [modelIndex, hf]⟩
  rw [genericList_unpaginated _ log options hp hfc,
    finishSearch_unpaginated_ok _ _ _ _ _
      ⟨200, "", .ok ⟨⟨⟨total⟩, window documents (fullRequest (modelIndex total documents) options)⟩⟩⟩
      ⟨⟨⟨total⟩, window documents (fullRequest (modelIndex total documents) options)⟩⟩ rfl
      rfl rfl, window_fullRequest]

/-- C6 (as stated, refuted): an unpaginated call against an index of 1001
documents returns the empty token, although offset 0 plus the maximum size
1000 is below the total of 1001. -/
theorem C6_unpaginated_counterexample :
    isPaginated { index := rodeElasticsearchOccurrencesAlias } = false ∧
      (genericList (modelIndex 1001 manyDocuments) sampleLogger
        { index := rodeElasticsearchOccurrencesAlias }).result =
          .ok (⟨⟨1001⟩, manyDocuments.take 1000⟩, "") ∧
      ¬ ((0 : Int) + maxPageSize ≥ 1001) :=
  ⟨rfl, modelIndex_unpaginated 1001 manyDocuments sampleLogger
    { index := rodeElasticsearchOccurrencesAlias } rfl (by decide), by decide⟩

/-- The token that a successful paginated call returns. -/
theorem genericList_paginated_token (env : EsEnv) (log : Logger) (options : genericListOptions)
    (context : String) (offset : Int) (hits : EsSearchResponseHits) (token : String)
    (hcodec : LawfulCodec env) (hp : isPaginated options = true) (hf : FilterCompiles env options)
    (hctx : (options.pageToken = "" ∧ OpensContext env options.index context ∧ offset = 0) ∨
      (options.pageToken ≠ "" ∧ env.ParsePageToken options.pageToken = .ok (context, offset)))
    (hok : (genericList env log options).result = .ok (hits, token)) :
    token = if addInt offset options.pageSize ≥ hits.Total.Value then ""
      else env.CreatePageToken context (addInt offset options.pageSize) := by
  rw [genericList_paginated env log options context offset hp hf hctx] at hok
  obtain ⟨parsed, hparse, htoken⟩ := finishSearch_paginated_inv _ _ _ _ _ _ _ hok
  rw [hcodec.1 context _ (addInt_isInt _ _)] at hparse
  simp only [Except.ok.injEq] at hparse
  rw [htoken, ← hparse]

/-- C6 (amended): for a successful `genericList` call with a codec that decodes
what it encoded and never encodes to the empty string: an unpaginated call
always returns the empty token; a paginated call returns the empty token if
and only if `offset + pageSize >= total`, where the sum is the Go `int` sum
(the exact sum whenever that fits in 64 bits), offset is the offset recovered
from the request token (0 when there is none) and total is the total match
count of the response; when the token is not empty it is the encoding of
`(contextId, offset + pageSize)`. -/
theorem C6_nextPageToken (env : EsEnv) (log : Logger) (options : genericListOptions)
    (hits : EsSearchResponseHits) (token : String) (hcodec : LawfulCodec env)
    (hok : (genericList env log options).result = .ok (hits, token)) :
    (isPaginated options = false → token = "") ∧
      (isPaginated options = true →
        ∃ context offset,
          ((options.pageToken = "" ∧ OpensContext env options.index context ∧ offset = 0) ∨
            (options.pageToken ≠ "" ∧
              env.ParsePageToken options.pageToken = .ok (context, offset))) ∧
          (token = "" ↔ addInt offset options.pageSize ≥ hits.Total.Value) ∧
          (token ≠ "" →
            token = env.CreatePageToken context (addInt offset options.pageSize)) ∧
          (IsInt (offset + options.pageSize) →
            addInt offset options.pageSize = offset + options.pageSize)) := by
  obtain ⟨hf, hctx⟩ := genericList_reaches_search env log options (Or.inr ⟨_, hok⟩)
  refine ⟨?_, ?_⟩
  · intro hp
    rw [genericList_unpaginated env log options hp hf] at hok
    exact finishSearch_unpaginated_inv _ _ _ _ _ _ _ hok
  · intro hp
    obtain ⟨context, offset, hc⟩ := hctx hp
    have htoken := genericList_paginated_token env log options context offset hits token hcodec
      hp hf hc hok
    refine ⟨context, offset, hc, ?_, ?_, addInt_of_isInt _ _⟩
    · by_cases hge : addInt offset options.pageSize ≥ hits.Total.Value
      · simp [htoken, hge]
      · simp only [htoken, hge, if_false, iff_false]
        exact hcodec.2 _ _
    · intro hne
      by_cases hge : addInt offset options.pageSize ≥ hits.Total.Value
      · simp [htoken, hge] at hne
      · simp [htoken, hge]


/-- C6 (amended) at the first page of size 2 over five documents: the call
returns the first two documents and the encoding of `(pit-1, 2)`. -/
theorem C6_nextPageToken_witness :
    (genericList (modelIndex 5 fiveDocuments) sampleLogger (firstPage 2)).result =
        .ok (⟨⟨5⟩, [⟨"a"⟩, ⟨"b"⟩]⟩, binaryCreatePageToken "pit-1" 2) ∧
      (isPaginated (firstPage 2) = false → binaryCreatePageToken "pit-1" 2 = "") ∧
      (isPaginated (firstPage 2) = true →
        ∃ context offset,
          (((firstPage 2).pageToken = "" ∧
              OpensContext (modelIndex 5 fiveDocuments) (firstPage 2).index context ∧ offset = 0) ∨
            ((firstPage 2).pageToken ≠ "" ∧
              (modelIndex 5 fiveDocuments).ParsePageToken (firstPage 2).pageToken =
                .ok (context, offset))) ∧
          (binaryCreatePageToken "pit-1" 2 = "" ↔
            addInt offset (firstPage 2).pageSize ≥ (5 : Int)) ∧
          (binaryCreatePageToken "pit-1" 2 ≠ "" →
            binaryCreatePageToken "pit-1" 2 =
              (modelIndex 5 fiveDocuments).CreatePageToken context
                (addInt offset (firstPage 2).pageSize)) ∧
          (IsInt (offset + (firstPage 2).pageSize) →
            addInt offset (firstPage 2).pageSize = offset + (firstPage 2).pageSize)) :=
  ⟨rfl, C6_nextPageToken (modelIndex 5 fiveDocuments) sampleLogger (firstPage 2)
    ⟨⟨5⟩, [⟨"a"⟩, ⟨"b"⟩]⟩ (binaryCreatePageToken "pit-1" 2)
    (modelIndex_lawful 5 fiveDocuments) rfl⟩

/-! ## The paginated search -/

/-- The search and the opened contexts of a paginated call that has a search
context and an offset. -/
theorem genericList_paginated_events (env : EsEnv) (log : Logger) (options : genericListOptions)
    (context : String) (offset : Int)
    (hp : isPaginated options = true) (hf : FilterCompiles env options)
    (hctx : (options.pageToken = "" ∧ OpensContext env options.index context ∧ offset = 0) ∨
      (options.pageToken ≠ "" ∧ env.ParsePageToken options.pageToken = .ok (context, offset))) :
    searches (genericList env log options).events = [pageRequest env options context offset] ∧
      openedContexts (genericList env log options).events =
        if options.pageToken = "" then [options.index] else [] := by
  have hrun := genericList_paginated env log options context offset hp hf hctx
  have hev := finishSearch_events env (pageLogger env log options context)
    (pageEvents env log options context offset) (pageRequest env options context offset) true
    (env.CreatePageToken context (addInt offset options.pageSize))
  rw [← hrun, searches_pageEvents, openedContexts_pageEvents] at hev
  exact hev

/-- C7 (amended): a paginated `genericList` call that reaches the search
executes exactly one search, with `size = pageSize`, with `from` the offset
and bound to the search context, where: if the page token is empty, exactly
one search context is opened, on the target index, the search is bound to that
new context and the offset is 0; if the page token is not empty and decodes to
`(c, o)`, no search context is opened, the search is bound to `c` and the
offset is `o`. In both cases `handlePagination` issues the encoding of the
context and of the Go `int` sum of the offset and the page size, which is
`offset + pageSize` whenever that fits in an `int` (so always for an empty
page token) and wraps around otherwise. -/
theorem C7_paginated_search (env : EsEnv) (log : Logger) (options : genericListOptions)
    (hp : isPaginated options = true) (hsize : IsInt32 options.pageSize)
    (hreach : searches (genericList env log options).events ≠ []) :
    ∃ context offset request body,
      searches (genericList env log options).events = [request] ∧
      request.From = some offset ∧ request.Size = some options.pageSize ∧
      request.Body = some body ∧ body.Pit = some ⟨context, pitKeepAlive⟩ ∧
      (options.pageToken = "" →
        OpensContext env options.index context ∧ offset = 0 ∧
        openedContexts (genericList env log options).events = [options.index] ∧
        addInt offset options.pageSize = options.pageSize) ∧
      (options.pageToken ≠ "" →
        env.ParsePageToken options.pageToken = .ok (context, offset) ∧
        openedContexts (genericList env log options).events = []) ∧
      (∀ (logger : Logger) (given : EsSearch),
        issuedToken (handlePagination env logger given options.index options.pageToken
          options.pageSize) =
            some (env.CreatePageToken context (addInt offset options.pageSize))) ∧
      (IsInt (offset + options.pageSize) →
        addInt offset options.pageSize = offset + options.pageSize) := by
  obtain ⟨hf, hctx⟩ := genericList_reaches_search env log options (Or.inl hreach)
  obtain ⟨context, offset, hc⟩ := hctx hp
  have hev := genericList_paginated_events env log options context offset hp hf hc
  refine ⟨context, offset, pageRequest env options context offset,
    pageBody env options context, hev.1, rfl, rfl, rfl, rfl, ?_, ?_, ?_, addInt_of_isInt _ _⟩
  · intro ht
    rcases hc with ⟨_, hopen, ho⟩ | ⟨hne, _⟩
    · refine ⟨hopen, ho, by rw [hev.2, if_pos ht], ?_⟩
      rw [ho]
      unfold IsInt32 minInt32 maxInt32 at hsize
      unfold addInt wrapInt
      omega
    · exact absurd ht hne
  · intro ht
    rcases hc with ⟨he, _, _⟩ | ⟨_, hparse⟩
    · exact absurd he ht
    · exact ⟨hparse, by rw [hev.2, if_neg ht]⟩
  · intro logger given
    rw [handlePagination_ok env logger given _ _ _ context offset hc]
    rfl

/-- C7 (amended) at the second page of size 2 over five documents: no search context is
opened, and the search runs bound to `pit-1` with `from = 2` and `size = 2`. -/
theorem C7_paginated_search_witness :
    ∃ context offset request body,
      searches (genericList (modelIndex 5 fiveDocuments) sampleLogger
        { firstPage 2 with pageToken := binaryCreatePageToken "pit-1" 2 }).events = [request] ∧
      request.From = some offset ∧ request.Size = some 2 ∧
      request.Body = some body ∧ body.Pit = some ⟨context, pitKeepAlive⟩ ∧
      (binaryCreatePageToken "pit-1" 2 = "" →
        OpensContext (modelIndex 5 fiveDocuments) rodeElasticsearchOccurrencesAlias context ∧
        offset = 0 ∧
        openedContexts (genericList (modelIndex 5 fiveDocuments) sampleLogger
          { firstPage 2 with pageToken := binaryCreatePageToken "pit-1" 2 }).events =
            [rodeElasticsearchOccurrencesAlias] ∧
        addInt offset 2 = 2) ∧
      (binaryCreatePageToken "pit-1" 2 ≠ "" →
        binaryParsePageToken (binaryCreatePageToken "pit-1" 2) = .ok (context, offset) ∧
        openedContexts (genericList (modelIndex 5 fiveDocuments) sampleLogger
          { firstPage 2 with pageToken := binaryCreatePageToken "pit-1" 2 }).events = []) ∧
      (∀ (logger : Logger) (given : EsSearch),
        issuedToken (handlePagination (modelIndex 5 fiveDocuments) logger given
          rodeElasticsearchOccurrencesAlias (binaryCreatePageToken "pit-1" 2) 2) =
            some (binaryCreatePageToken context (addInt offset 2))) ∧
      (IsInt (offset + 2) → addInt offset 2 = offset + 2) :=
  C7_paginated_search (modelIndex 5 fiveDocuments) sampleLogger
    { firstPage 2 with pageToken := binaryCreatePageToken "pit-1" 2 } rfl
    ⟨by decide, by decide⟩
    (by
      rw [(genericList_paginated_events (modelIndex 5 fiveDocuments) sampleLogger
        { firstPage 2 with pageToken := binaryCreatePageToken "pit-1" 2 } "pit-1" 2 rfl
        (Or.inl rfl)
        (Or.inr ⟨binary_nonempty "pit-1" 2, binary_roundtrip "pit-1" 2 ⟨by decide, by decide⟩⟩)).1]
      exact List.cons_ne_nil _ _)


/-! ## The sign of the encoded offset -/

theorem modelIndex_opens (total : Int) (documents : List EsSearchResponseHit) (index : String) :
    OpensContext (modelIndex total documents) index "pit-1" :=
  ⟨⟨200, "", .ok ⟨"pit-1"⟩⟩, rfl, rfl, rfl⟩

theorem modelIndex_decodes (total : Int) (documents : List EsSearchResponseHit)
    (context : String) (offset : Int) (h : IsInt offset) :
    (modelIndex total documents).ParsePageToken (binaryCreatePageToken context offset) =
      .ok (context, offset) :=
  binary_roundtrip context offset h

/-- A paginated call against the model index returns the window of the
documents and the token for the next offset, or the empty token when the next
offset reaches the total. -/
theorem modelIndex_page (total : Int) (documents : List EsSearchResponseHit) (log : Logger)
    (options : genericListOptions) (context : String) (offset : Int)
    (hp : isPaginated options = true) (hf : options.filter ≠ "(")
    (hctx : (options.pageToken = "" ∧ context = "pit-1" ∧ offset = 0) ∨
      (options.pageToken ≠ "" ∧ binaryParsePageToken options.pageToken = .ok (context, offset))) :
    (genericList (modelIndex total documents) log options).result =
      .ok (⟨⟨total⟩, (documents.drop offset.toNat).take options.pageSize.toNat⟩,
        if addInt offset options.pageSize ≥ total then ""
        else binaryCreatePageToken context (addInt offset options.pageSize)) := by
  have hfc : FilterCompiles (modelIndex total documents) options := by
    right
    exact ⟨⟨options.filter⟩, by simp [modelIndex, hf]⟩
  have hc : (options.pageToken = "" ∧
      OpensContext (modelIndex total documents) options.index context ∧ offset = 0) ∨
      (options.pageToken ≠ "" ∧
        (modelIndex total documents).ParsePageToken options.pageToken = .ok (context, offset)) := by
    rcases hctx with ⟨ht, hcx, ho⟩ | ⟨ht, hparse⟩
    · left
      rw [hcx]
      exact ⟨ht, modelIndex_opens total documents _, ho⟩
    · exact Or.inr ⟨ht, hparse⟩
  have hfin := finishSearch_paginated_ok (modelIndex total documents)
    (pageLogger (modelIndex total documents) log options context)
    (pageEvents (modelIndex total documents) log options context offset)
    (pageRequest (modelIndex total documents) options context offset)
    ((modelIndex total documents).CreatePageToken context (addInt offset options.pageSize))
    ⟨200, "", .ok ⟨⟨⟨total⟩, window documents
      (pageRequest (modelIndex total documents) options context offset)⟩⟩⟩
    ⟨⟨⟨total⟩, window documents
      (pageRequest (modelIndex total documents) options context offset)⟩⟩
    (context, addInt offset options.pageSize) rfl rfl rfl
    (modelIndex_decodes total documents context _ (addInt_isInt _ _))
  rw [genericList_paginated _ log options context offset hp hfc hc, hfin, window_pageRequest]
  rfl

/-- C9 (as stated, refuted): the offset of an issued token can be negative.
With an empty page token and `pageSize = -1` the paginated path is taken and
`handlePagination` issues, and `genericList` returns, the encoding of
`(pit-1, -1)`; with a page token that decodes to the largest `int` and
`pageSize = 1` the sum wraps around and `handlePagination` issues the
encoding of the smallest `int`. -/
theorem C9_negative_offset_counterexample :
    (isPaginated (firstPage (-1)) = true ∧
      issuedToken (handlePagination (modelIndex 5 fiveDocuments) sampleLogger {}
        rodeElasticsearchOccurrencesAlias "" (-1)) = some (binaryCreatePageToken "pit-1" (-1)) ∧
      nextPageTokenOf (genericList (modelIndex 5 fiveDocuments) sampleLogger (firstPage (-1))) =
        some (binaryCreatePageToken "pit-1" (-1)) ∧
      binaryCreatePageToken "pit-1" (-1) ≠ "" ∧
      binaryParsePageToken (binaryCreatePageToken "pit-1" (-1)) = .ok ("pit-1", -1)) ∧
    (binaryParsePageToken (binaryCreatePageToken "pit-1" maxInt) = .ok ("pit-1", maxInt) ∧
      (0 : Int) ≤ maxInt ∧
      issuedToken (handlePagination (modelIndex 5 fiveDocuments) sampleLogger {}
        rodeElasticsearchOccurrencesAlias (binaryCreatePageToken "pit-1" maxInt) 1) =
          some (binaryCreatePageToken "pit-1" minInt) ∧
      binaryParsePageToken (binaryCreatePageToken "pit-1" minInt) = .ok ("pit-1", minInt) ∧
      minInt < 0) := by
  refine ⟨⟨by decide, ?_, ?_, binary_nonempty _ _,
      binary_roundtrip "pit-1" (-1) ⟨by decide, by decide⟩⟩,
    ⟨binary_roundtrip "pit-1" maxInt ⟨by decide, by decide⟩, by decide, ?_,
      binary_roundtrip "pit-1" minInt ⟨by decide, by decide⟩, by decide⟩⟩
  · rw [handlePagination_ok (modelIndex 5 fiveDocuments) sampleLogger {} _ "" (-1) "pit-1" 0
      (Or.inl ⟨rfl, modelIndex_opens 5 fiveDocuments _, rfl⟩)]
    rfl
  · rw [nextPageTokenOf, modelIndex_page 5 fiveDocuments sampleLogger (firstPage (-1)) "pit-1" 0
      (by decide) (by decide) (Or.inl ⟨rfl, rfl, rfl⟩)]
    rfl
  · rw [handlePagination_ok (modelIndex 5 fiveDocuments) sampleLogger {} _
      (binaryCreatePageToken "pit-1" maxInt) 1 "pit-1" maxInt
      (Or.inr ⟨binary_nonempty "pit-1" maxInt,
        modelIndex_decodes 5 fiveDocuments "pit-1" maxInt ⟨by decide, by decide⟩⟩)]
    rfl

/-- C9 (amended): with a codec that decodes what it encoded, for a paginated
call with `0 <= pageSize` (an `int32`) whose page token is empty or decodes to
an offset `o >= 0` with `o + pageSize` not above the largest `int`, the offset
encoded in the token issued by `handlePagination`, and in any non-empty
`nextPageToken` returned by `genericList`, is `>= 0`. -/
theorem C9_offset_nonneg (env : EsEnv) (log : Logger) (options : genericListOptions)
    (hcodec : LawfulCodec env) (hp : isPaginated options = true)
    (hsize : 0 ≤ options.pageSize) (hsize32 : options.pageSize ≤ maxInt32)
    (htoken : options.pageToken = "" ∨
      ∃ context offset, env.ParsePageToken options.pageToken = .ok (context, offset) ∧
        0 ≤ offset ∧ offset + options.pageSize ≤ maxInt) :
    (∀ (logger : Logger) (given : EsSearch) (token : String),
      issuedToken (handlePagination env logger given options.index options.pageToken
        options.pageSize) = some token →
      ∃ context offset, env.ParsePageToken token = .ok (context, offset) ∧ 0 ≤ offset) ∧
    (∀ (hits : EsSearchResponseHits) (token : String),
      (genericList env log options).result = .ok (hits, token) → token ≠ "" →
      ∃ context offset, env.ParsePageToken token = .ok (context, offset) ∧ 0 ≤ offset) := by
  have hsum : ∀ context offset,
      ((options.pageToken = "" ∧ OpensContext env options.index context ∧ offset = 0) ∨
        (options.pageToken ≠ "" ∧ env.ParsePageToken options.pageToken = .ok (context, offset))) →
      0 ≤ addInt offset options.pageSize := by
    intro context offset hc
    have hrange : 0 ≤ offset ∧ offset + options.pageSize ≤ maxInt := by
      rcases hc with ⟨_, _, ho⟩ | ⟨hne, hparse⟩
      · subst ho
        unfold maxInt32 at hsize32
        unfold maxInt
        omega
      · rcases htoken with he | ⟨c, o, hparse2, ho, hsum⟩
        · exact absurd he hne
        · rw [hparse] at hparse2
          simp only [Except.ok.injEq, Prod.mk.injEq] at hparse2
          rw [hparse2.2]
          exact ⟨ho, hsum⟩
    rw [addInt_of_isInt]
    · omega
    · unfold IsInt minInt
      unfold maxInt at hrange ⊢
      omega
  refine ⟨?_, ?_⟩
  · intro logger given token hissued
    rcases handlePagination_cases env logger given options.index options.pageToken
      options.pageSize with ⟨context, offset, hc⟩ | ⟨err, hfail, _⟩
    · rw [handlePagination_ok env logger given _ _ _ context offset hc] at hissued
      simp only [issuedToken, Option.some.injEq] at hissued
      exact ⟨context, addInt offset options.pageSize,
        by rw [← hissued]; exact hcodec.1 _ _ (addInt_isInt _ _), hsum context offset hc⟩
    · simp [issuedToken, hfail] at hissued
  · intro hits token hok hne
    obtain ⟨hf, hctx⟩ := genericList_reaches_search env log options (Or.inr ⟨_, hok⟩)
    obtain ⟨context, offset, hc⟩ := hctx hp
    have htok := genericList_paginated_token env log options context offset hits token hcodec
      hp hf hc hok
    by_cases hge : addInt offset options.pageSize ≥ hits.Total.Value
    · rw [if_pos hge] at htok
      exact absurd htok hne
    · rw [if_neg hge] at htok
      exact ⟨context, addInt offset options.pageSize,
        by rw [htok]; exact hcodec.1 _ _ (addInt_isInt _ _), hsum context offset hc⟩

/-- C9 (amended) at the first page of size 2 over five documents: the issued
and the returned token are the encoding of `(pit-1, 2)`. -/
theorem C9_offset_nonneg_witness :
    issuedToken (handlePagination (modelIndex 5 fiveDocuments) sampleLogger {}
        (firstPage 2).index (firstPage 2).pageToken (firstPage 2).pageSize) =
        some (binaryCreatePageToken "pit-1" 2) ∧
      (genericList (modelIndex 5 fiveDocuments) sampleLogger (firstPage 2)).result =
        .ok (⟨⟨5⟩, [⟨"a"⟩, ⟨"b"⟩]⟩, binaryCreatePageToken "pit-1" 2) ∧
      (∃ context offset, (modelIndex 5 fiveDocuments).ParsePageToken
        (binaryCreatePageToken "pit-1" 2) = .ok (context, offset) ∧ 0 ≤ offset) ∧
      ∃ context offset, (modelIndex 5 fiveDocuments).ParsePageToken
        (binaryCreatePageToken "pit-1" 2) = .ok (context, offset) ∧ 0 ≤ offset :=
  ⟨rfl, rfl,
    (C9_offset_nonneg (modelIndex 5 fiveDocuments) sampleLogger (firstPage 2)
      (modelIndex_lawful 5 fiveDocuments) rfl (by decide) (by decide) (Or.inl rfl)).1
      sampleLogger {} (binaryCreatePageToken "pit-1" 2) rfl,
    (C9_offset_nonneg (modelIndex 5 fiveDocuments) sampleLogger (firstPage 2)
      (modelIndex_lawful 5 fiveDocuments) rfl (by decide) (by decide) (Or.inl rfl)).2
      ⟨⟨5⟩, [⟨"a"⟩, ⟨"b"⟩]⟩ (binaryCreatePageToken "pit-1" 2) rfl (binary_nonempty _ _)⟩


/-! ## Token chains -/

theorem isPaginated_of_pageSize (options : genericListOptions) (token : String)
    (h : 1 ≤ options.pageSize) : isPaginated { options with pageToken := token } = true := by
  have : options.pageSize ≠ 0 := by omega
  simp [isPaginated, this]

/-- The search context and offset of page `n` of a chain. -/
theorem chain_context (env : EsEnv) (options : genericListOptions) (context : String) (n : Nat)
    (hset : ChainSetting env options context) (hfit : (n : Int) * options.pageSize ≤ maxInt) :
    (({ options with pageToken := tokenAt env context options.pageSize n } :
        genericListOptions).pageToken = "" ∧
      OpensContext env ({ options with pageToken := tokenAt env context options.pageSize n } :
        genericListOptions).index context ∧ (n : Int) * options.pageSize = 0) ∨
    (({ options with pageToken := tokenAt env context options.pageSize n } :
        genericListOptions).pageToken ≠ "" ∧
      env.ParsePageToken ({ options with pageToken := tokenAt env context options.pageSize n } :
        genericListOptions).pageToken = .ok (context, (n : Int) * options.pageSize)) := by
  obtain ⟨hcodec, _, hopen, _, hP, _⟩ := hset
  by_cases hn : n = 0
  · left
    subst hn
    exact ⟨by simp [tokenAt], hopen, by simp⟩
  · right
    have hnonneg : (0 : Int) ≤ (n : Int) * options.pageSize :=
      Int.mul_nonneg (Int.ofNat_nonneg n) (by omega)
    refine ⟨?_, ?_⟩
    · simp only [tokenAt, hn, if_false]
      exact hcodec.2 _ _
    · simp only [tokenAt, hn, if_false]
      apply hcodec.1
      unfold IsInt minInt
      unfold maxInt at hfit ⊢
      omega

/-- Page `n` of a chain, given the response of the index to its search: the
page returns the hits of the response and the token for the Go `int` sum of
its offset and the page size, or the empty token when that sum reaches the
total of the response. -/
theorem chain_page_raw (env : EsEnv) (log : Logger) (options : genericListOptions)
    (context : String) (n : Nat) (res : Response EsSearchResponse)
    (searchResults : EsSearchResponse)
    (hset : ChainSetting env options context)
    (hfit : (n : Int) * options.pageSize ≤ maxInt)
    (hsearch : env.Search (pageRequest env
      { options with pageToken := tokenAt env context options.pageSize n } context
        ((n : Int) * options.pageSize)) = .ok res)
    (herr : res.IsError = false) (hdec : res.decoded = .ok searchResults) :
    genericList env log { options with pageToken := tokenAt env context options.pageSize n } =
      ⟨.ok (searchResults.Hits,
        if addInt ((n : Int) * options.pageSize) options.pageSize ≥
            searchResults.Hits.Total.Value then ""
        else env.CreatePageToken context
          (addInt ((n : Int) * options.pageSize) options.pageSize)),
        pageEvents env log { options with pageToken := tokenAt env context options.pageSize n }
          context ((n : Int) * options.pageSize)⟩ := by
  have hP := hset.2.2.2.2.1
  have hctx := chain_context env options context n hset hfit
  have hrun := genericList_paginated env log
    { options with pageToken := tokenAt env context options.pageSize n } context
    ((n : Int) * options.pageSize) (isPaginated_of_pageSize options _ hP) hset.2.1 hctx
  have hparse : env.ParsePageToken (env.CreatePageToken context
      (addInt ((n : Int) * options.pageSize) options.pageSize)) =
      .ok (context, addInt ((n : Int) * options.pageSize) options.pageSize) :=
    hset.1.1 _ _ (addInt_isInt _ _)
  rw [hrun]
  exact finishSearch_paginated_ok env _ _ _ _ res searchResults _ hsearch herr hdec hparse

theorem addInt_next (n : Nat) (pageSize : Int) (hP : 1 ≤ pageSize)
    (hfit : ((n : Int) + 1) * pageSize ≤ maxInt) :
    addInt ((n : Int) * pageSize) pageSize = ((n : Int) + 1) * pageSize := by
  have hnonneg : (0 : Int) ≤ (n : Int) * pageSize :=
    Int.mul_nonneg (Int.ofNat_nonneg n) (by omega)
  have hring : ((n : Int) + 1) * pageSize = (n : Int) * pageSize + pageSize := by ring
  rw [hring]
  apply addInt_of_isInt
  unfold IsInt minInt
  unfold maxInt at hfit ⊢
  omega

/-- Page `n` of a chain whose next offset fits in `int`: the page returns the
token for offset `(n + 1) * pageSize`, or the empty token when that offset
reaches the total of the response. -/
theorem chain_page_result (env : EsEnv) (log : Logger) (options : genericListOptions)
    (context : String) (n : Nat) (res : Response EsSearchResponse)
    (searchResults : EsSearchResponse)
    (hset : ChainSetting env options context)
    (hfit : ((n : Int) + 1) * options.pageSize ≤ maxInt)
    (hsearch : env.Search (pageRequest env
      { options with pageToken := tokenAt env context options.pageSize n } context
        ((n : Int) * options.pageSize)) = .ok res)
    (herr : res.IsError = false) (hdec : res.decoded = .ok searchResults) :
    genericList env log { options with pageToken := tokenAt env context options.pageSize n } =
      ⟨.ok (searchResults.Hits,
        if ((n : Int) + 1) * options.pageSize ≥ searchResults.Hits.Total.Value then ""
        else env.CreatePageToken context (((n : Int) + 1) * options.pageSize)),
        pageEvents env log { options with pageToken := tokenAt env context options.pageSize n }
          context ((n : Int) * options.pageSize)⟩ := by
  have hP := hset.2.2.2.2.1
  have hfit0 : (n : Int) * options.pageSize ≤ maxInt := by
    have : ((n : Int) + 1) * options.pageSize = (n : Int) * options.pageSize + options.pageSize := by
      ring
    omega
  rw [chain_page_raw env log options context n res searchResults hset hfit0 hsearch herr hdec,
    addInt_next n options.pageSize hP hfit]

theorem tokenAt_succ (env : EsEnv) (context : String) (pageSize : Int) (n : Nat) :
    tokenAt env context pageSize (n + 1) =
      env.CreatePageToken context (((n : Int) + 1) * pageSize) := by
  simp [tokenAt]

theorem chainToken_succ (env : EsEnv) (log : Logger) (options : genericListOptions) (n : Nat) :
    chainToken env log options (n + 1) =
      match chainToken env log options n with
      | none => none
      | some token =>
        match nextPageTokenOf (genericList env log { options with pageToken := token }) with
        | none => none
        | some next => if next = "" then none else some next := rfl

/-- While the offset of a page is below the total, the chain reaches the page
and requests it with the token for its offset. -/
theorem chainToken_reached (env : EsEnv) (log : Logger) (options : genericListOptions)
    (context : String) (total : Int) (hset : ChainSetting env options context)
    (htot : ReportsTotal env total) (hT : total ≤ maxInt) :
    ∀ n : Nat, (n = 0 ∨ (n : Int) * options.pageSize < total) →
      chainToken env log options n = some (tokenAt env context options.pageSize n) := by
  have hP := hset.2.2.2.2.1
  intro n
  induction n with
  | zero => intro _; rfl
  | succ n ih =>
    intro h
    have hlt : ((n : Int) + 1) * options.pageSize < total := by
      rcases h with h | h
      · omega
      · push_cast at h
        exact h
    have hprev : (n : Int) * options.pageSize < total := by
      have : ((n : Int) + 1) * options.pageSize = (n : Int) * options.pageSize + options.pageSize := by
        ring
      omega
    obtain ⟨res, searchResults, hsearch, herr, hdec, htotal⟩ := htot (pageRequest env
      { options with pageToken := tokenAt env context options.pageSize n } context
        ((n : Int) * options.pageSize))
    have hpage := chain_page_result env log options context n res searchResults hset (by omega)
      hsearch herr hdec
    rw [htotal, if_neg (not_le.mpr hlt)] at hpage
    rw [chainToken_succ, ih (Or.inr hprev)]
    simp only [nextPageTokenOf, hpage]
    rw [if_neg (hset.1.2 _ _), tokenAt_succ]

theorem chainToken_none_of_le (env : EsEnv) (log : Logger) (options : genericListOptions)
    (m : Nat) (h : chainToken env log options m = none) :
    ∀ n, m ≤ n → chainToken env log options n = none := by
  intro n hn
  induction n with
  | zero =>
    have : m = 0 := by omega
    subst this
    exact h
  | succ n ih =>
    by_cases hm : m = n + 1
    · subst hm
      exact h
    · rw [chainToken_succ, ih (by omega)]

theorem pageCount_spec (total pageSize : Int) (hT : 1 ≤ total) (hP : 1 ≤ pageSize) :
    1 ≤ pageCount total pageSize ∧ total ≤ (pageCount total pageSize : Int) * pageSize ∧
      ((pageCount total pageSize : Int) - 1) * pageSize < total := by
  have hdiv := Int.ediv_add_emod (total + pageSize - 1) pageSize
  have hnonneg := Int.emod_nonneg (total + pageSize - 1) (show pageSize ≠ 0 by omega)
  have hlt := Int.emod_lt_of_pos (total + pageSize - 1) (show 0 < pageSize by omega)
  have hq : 1 ≤ (total + pageSize - 1) / pageSize := by
    apply Int.le_ediv_of_mul_le (by omega)
    omega
  have hcast : ((pageCount total pageSize : Nat) : Int) = (total + pageSize - 1) / pageSize := by
    unfold pageCount
    exact Int.toNat_of_nonneg (by omega)
  refine ⟨?_, ?_, ?_⟩
  · have : (1 : Int) ≤ (pageCount total pageSize : Int) := by rw [hcast]; exact hq
    exact_mod_cast this
  · rw [hcast]
    have : (total + pageSize - 1) / pageSize * pageSize =
        pageSize * ((total + pageSize - 1) / pageSize) := by ring
    rw [this]
    omega
  · rw [hcast]
    have : ((total + pageSize - 1) / pageSize - 1) * pageSize =
        pageSize * ((total + pageSize - 1) / pageSize) - pageSize := by ring
    rw [this]
    omega


theorem modelIndex_setting (total : Int) (documents : List EsSearchResponseHit)
    (options : genericListOptions) (hf : options.filter ≠ "(") (ht : options.pageToken = "")
    (hP : 1 ≤ options.pageSize) (hP32 : options.pageSize ≤ maxInt32) :
    ChainSetting (modelIndex total documents) options "pit-1" :=
  ⟨modelIndex_lawful total documents, Or.inr ⟨⟨options.filter⟩, by simp [modelIndex, hf]⟩,
    modelIndex_opens total documents _, ht, hP, hP32⟩

theorem modelIndex_reports (total : Int) (documents : List EsSearchResponseHit) :
    ReportsTotal (modelIndex total documents) total :=
  fun request => ⟨⟨200, "", .ok ⟨⟨⟨total⟩, window documents request⟩⟩⟩,
    ⟨⟨⟨total⟩, window documents request⟩⟩, rfl, rfl, rfl, rfl⟩

/-- A page of a chain that the chain reaches: its search, and its token. -/
theorem chain_page_reached (env : EsEnv) (log : Logger) (options : genericListOptions)
    (context : String) (total : Int) (n : Nat) (hset : ChainSetting env options context)
    (htot : ReportsTotal env total) (hT : total ≤ maxInt)
    (hreach : n = 0 ∨ (n : Int) * options.pageSize < total)
    (hfit : ((n : Int) + 1) * options.pageSize ≤ maxInt) :
    ∃ run request, chainPage env log options n = some run ∧
      searches run.events = [request] ∧ request.From = some ((n : Int) * options.pageSize) ∧
      request.Size = some options.pageSize ∧
      nextPageTokenOf run = some (if ((n : Int) + 1) * options.pageSize ≥ total then ""
        else env.CreatePageToken context (((n : Int) + 1) * options.pageSize)) := by
  obtain ⟨res, searchResults, hsearch, herr, hdec, htotal⟩ := htot (pageRequest env
    { options with pageToken := tokenAt env context options.pageSize n } context
      ((n : Int) * options.pageSize))
  have hpage := chain_page_result env log options context n res searchResults hset hfit
    hsearch herr hdec
  rw [htotal] at hpage
  refine ⟨genericList env log { options with pageToken := tokenAt env context options.pageSize n },
    pageRequest env
    { options with pageToken := tokenAt env context options.pageSize n } context
      ((n : Int) * options.pageSize), ?_, ?_, rfl, rfl, ?_⟩
  · rw [chainPage, chainToken_reached env log options context total hset htot hT n hreach]
  · rw [hpage]
    exact searches_pageEvents _ _ _ _ _
  · rw [hpage]
    rfl

theorem chainPage_none (env : EsEnv) (log : Logger) (options : genericListOptions) (n : Nat)
    (h : chainToken env log options n = none) : chainPage env log options n = none := by
  rw [chainPage, h]

/-- After the page whose next offset reaches the total, the chain requests no
page. -/
theorem chainToken_ended (env : EsEnv) (log : Logger) (options : genericListOptions)
    (context : String) (total : Int) (n : Nat) (hset : ChainSetting env options context)
    (htot : ReportsTotal env total) (hT : total ≤ maxInt)
    (hreach : n = 0 ∨ (n : Int) * options.pageSize < total)
    (hfit : ((n : Int) + 1) * options.pageSize ≤ maxInt)
    (hlast : total ≤ ((n : Int) + 1) * options.pageSize) :
    ∀ m, n + 1 ≤ m → chainToken env log options m = none := by
  apply chainToken_none_of_le
  obtain ⟨res, searchResults, hsearch, herr, hdec, htotal⟩ := htot (pageRequest env
    { options with pageToken := tokenAt env context options.pageSize n } context
      ((n : Int) * options.pageSize))
  have hpage := chain_page_result env log options context n res searchResults hset hfit
    hsearch herr hdec
  rw [htotal, if_pos hlast] at hpage
  rw [chainToken_succ, chainToken_reached env log options context total hset htot hT n hreach]
  simp [nextPageTokenOf, hpage]

/-- C5 (as stated, refuted): with a total of 0 and page size 1, `ceil(T/P)` is
0, yet the first page is requested, with offset 0, which is not below the
total, and the token is empty after one page; with the largest `int` as total
and page size 2, the offset after page `ceil(T/P) = 2^62` does not fit in
`int`, the sum wraps around, and the chain goes on with a non-empty token. -/
theorem C5_last_page_counterexample :
    (pageCount 0 1 = 0 ∧
      ∃ run request, chainPage (modelIndex 0 []) sampleLogger (firstPage 1) 0 = some run ∧
        searches run.events = [request] ∧ request.From = some 0 ∧ ¬ ((0 : Int) < 0) ∧
        nextPageTokenOf run = some "") ∧
    (pageCount maxInt 2 = 4611686018427387904 ∧
      chainToken (modelIndex maxInt fiveDocuments) sampleLogger (firstPage 2)
        4611686018427387904 = some (binaryCreatePageToken "pit-1" minInt) ∧
      binaryCreatePageToken "pit-1" minInt ≠ "") := by
  refine ⟨⟨by decide, ?_⟩, ⟨by decide, ?_, binary_nonempty _ _⟩⟩
  · obtain ⟨run, request, hrun, hs, hfrom, _, htok⟩ :=
      chain_page_reached (modelIndex 0 []) sampleLogger (firstPage 1) "pit-1" 0 0
        (modelIndex_setting 0 [] (firstPage 1) (by decide) rfl (by decide) (by decide))
        (modelIndex_reports 0 []) (by decide) (Or.inl rfl) (by decide)
    exact ⟨run, request, hrun, hs, hfrom, by decide, htok⟩
  · have hset := modelIndex_setting maxInt fiveDocuments (firstPage 2) (by decide) rfl
      (by decide) (by decide)
    have hreached := chainToken_reached (modelIndex maxInt fiveDocuments) sampleLogger
      (firstPage 2) "pit-1" maxInt hset (modelIndex_reports maxInt fiveDocuments) (le_refl _)
      4611686018427387903 (Or.inr (by decide))
    have hpage := chain_page_raw (modelIndex maxInt fiveDocuments) sampleLogger (firstPage 2)
      "pit-1" 4611686018427387903 _ _ hset (by decide) rfl rfl rfl
    have hsum : addInt (((4611686018427387903 : Nat) : Int) * (firstPage 2).pageSize)
        (firstPage 2).pageSize = minInt := by decide
    rw [hsum] at hpage
    show chainToken (modelIndex maxInt fiveDocuments) sampleLogger (firstPage 2)
      (4611686018427387903 + 1) = _
    rw [chainToken_succ, hreached]
    simp only [nextPageTokenOf, hpage]
    have hlt : ¬ minInt ≥ maxInt := by decide
    rw [if_neg hlt, if_neg ((modelIndex_lawful maxInt fiveDocuments).2 "pit-1" minInt)]
    rfl


/-- C5 (amended): for a total match count `T >= 1` that the index reports on
every page and a page size `P >= 1` such that `ceil(T/P) * P` fits in `int`,
the token chain of `genericList` from the first token-less call has exactly
`ceil(T/P)` pages: page `n` (counted from 0) is requested with offset `n * P`,
which is below `T`; it returns a non-empty token, the encoding of
`(context, (n + 1) * P)`, when it is not the last of the `ceil(T/P)` pages, and
the empty token when it is the last; no further page is requested. -/
theorem C5_last_page (env : EsEnv) (log : Logger) (options : genericListOptions)
    (context : String) (total : Int) (hset : ChainSetting env options context)
    (htot : ReportsTotal env total) (hT : 1 ≤ total)
    (hfit : (pageCount total options.pageSize : Int) * options.pageSize ≤ maxInt) :
    1 ≤ pageCount total options.pageSize ∧
    (∀ n, n < pageCount total options.pageSize →
      ∃ run request, chainPage env log options n = some run ∧
        searches run.events = [request] ∧
        request.From = some ((n : Int) * options.pageSize) ∧
        request.Size = some options.pageSize ∧ (n : Int) * options.pageSize < total ∧
        (n + 1 < pageCount total options.pageSize →
          nextPageTokenOf run =
            some (env.CreatePageToken context (((n : Int) + 1) * options.pageSize)) ∧
          env.CreatePageToken context (((n : Int) + 1) * options.pageSize) ≠ "") ∧
        (n + 1 = pageCount total options.pageSize → nextPageTokenOf run = some "")) ∧
    (∀ n, pageCount total options.pageSize ≤ n → chainPage env log options n = none) := by
  have hP := hset.2.2.2.2.1
  obtain ⟨hk, hge, hlt⟩ := pageCount_spec total options.pageSize hT hP
  have hTmax : total ≤ maxInt := le_trans hge hfit
  have hmono : ∀ a b : Int, a ≤ b → a * options.pageSize ≤ b * options.pageSize :=
    fun a b hab => Int.mul_le_mul_of_nonneg_right hab (by omega)
  refine ⟨hk, ?_, ?_⟩
  · intro n hn
    have hn1 : (n : Int) + 1 ≤ (pageCount total options.pageSize : Int) := by omega
    have hreach : (n : Int) * options.pageSize < total :=
      lt_of_le_of_lt (hmono _ _ (by omega)) hlt
    have hfitn : ((n : Int) + 1) * options.pageSize ≤ maxInt := le_trans (hmono _ _ hn1) hfit
    obtain ⟨run, request, hrun, hs, hfrom, hsz, htok⟩ :=
      chain_page_reached env log options context total n hset htot hTmax (Or.inr hreach) hfitn
    refine ⟨run, request, hrun, hs, hfrom, hsz, hreach, ?_, ?_⟩
    · intro hnot
      have hbelow : ((n : Int) + 1) * options.pageSize < total :=
        lt_of_le_of_lt (hmono _ _ (by omega)) hlt
      rw [if_neg (not_le.mpr hbelow)] at htok
      exact ⟨htok, hset.1.2 _ _⟩
    · intro hlast
      have hreachT : total ≤ ((n : Int) + 1) * options.pageSize := by
        have : ((n : Int) + 1) = (pageCount total options.pageSize : Int) := by omega
        rw [this]
        exact hge
      rw [if_pos hreachT] at htok
      exact htok
  · intro n hn
    apply chainPage_none
    have hpred : ((pageCount total options.pageSize - 1 : Nat) : Int) + 1 =
        (pageCount total options.pageSize : Int) := by omega
    apply chainToken_ended env log options context total (pageCount total options.pageSize - 1)
      hset htot hTmax
    · right
      have : ((pageCount total options.pageSize - 1 : Nat) : Int) =
          (pageCount total options.pageSize : Int) - 1 := by omega
      rw [this]
      exact hlt
    · rw [hpred]
      exact hfit
    · rw [hpred]
      exact hge
    · omega

set_option maxRecDepth 8192 in
/-- C5 (amended) at five documents and page size 2: three pages, with offsets
0, 2 and 4; the tokens after pages one and two encode the offsets 2 and 4,
and the token after page three is empty. -/
theorem C5_last_page_witness :
    pageCount 5 2 = 3 ∧
    chainToken (modelIndex 5 fiveDocuments) sampleLogger (firstPage 2) 0 = some "" ∧
    chainToken (modelIndex 5 fiveDocuments) sampleLogger (firstPage 2) 1 =
      some (binaryCreatePageToken "pit-1" 2) ∧
    chainToken (modelIndex 5 fiveDocuments) sampleLogger (firstPage 2) 2 =
      some (binaryCreatePageToken "pit-1" 4) ∧
    chainToken (modelIndex 5 fiveDocuments) sampleLogger (firstPage 2) 3 = none ∧
    (∀ n, n < pageCount 5 (firstPage 2).pageSize →
      ∃ run request, chainPage (modelIndex 5 fiveDocuments) sampleLogger (firstPage 2) n =
          some run ∧
        searches run.events = [request] ∧
        request.From = some ((n : Int) * (firstPage 2).pageSize) ∧
        request.Size = some (firstPage 2).pageSize ∧ (n : Int) * (firstPage 2).pageSize < 5 ∧
        (n + 1 < pageCount 5 (firstPage 2).pageSize →
          nextPageTokenOf run =
            some ((modelIndex 5 fiveDocuments).CreatePageToken "pit-1"
              (((n : Int) + 1) * (firstPage 2).pageSize)) ∧
          (modelIndex 5 fiveDocuments).CreatePageToken "pit-1"
            (((n : Int) + 1) * (firstPage 2).pageSize) ≠ "") ∧
        (n + 1 = pageCount 5 (firstPage 2).pageSize → nextPageTokenOf run = some "")) ∧
    (∀ n, pageCount 5 (firstPage 2).pageSize ≤ n →
      chainPage (modelIndex 5 fiveDocuments) sampleLogger (firstPage 2) n = none) :=
  ⟨by decide, rfl, rfl, rfl, rfl,
    (C5_last_page (modelIndex 5 fiveDocuments) sampleLogger (firstPage 2) "pit-1" 5
      (modelIndex_setting 5 fiveDocuments (firstPage 2) (by decide) rfl (by decide) (by decide))
      (modelIndex_reports 5 fiveDocuments) (by decide) (by decide)).2⟩


/-! ## Pagination continuity -/

theorem ServesList.reports (env : EsEnv) (documents : List EsSearchResponseHit)
    (h : ServesList env documents) : ReportsTotal env documents.length := by
  intro request
  obtain ⟨res, hsearch, herr, hdec⟩ := h request
  exact ⟨res, _, hsearch, herr, hdec, rfl⟩

theorem chainItems_succ (env : EsEnv) (log : Logger) (options : genericListOptions) (n : Nat) :
    chainItems env log options (n + 1) =
      chainItems env log options n ++
        match chainPage env log options n with
        | none => []
        | some run => itemsOf run := rfl

/-- The items of a page that the chain reaches, over a list index: the window
of the list at the offset of the page. -/
theorem chain_page_items (env : EsEnv) (log : Logger) (options : genericListOptions)
    (context : String) (documents : List EsSearchResponseHit) (n : Nat)
    (hset : ChainSetting env options context) (hserve : ServesList env documents)
    (hT : (documents.length : Int) ≤ maxInt)
    (hreach : n = 0 ∨ (n : Int) * options.pageSize < documents.length)
    (hfit : ((n : Int) + 1) * options.pageSize ≤ maxInt) :
    ∃ run, chainPage env log options n = some run ∧
      itemsOf run = (documents.drop (n * options.pageSize.toNat)).take options.pageSize.toNat ∧
      nextPageTokenOf run = some (if ((n : Int) + 1) * options.pageSize ≥ documents.length then ""
        else env.CreatePageToken context (((n : Int) + 1) * options.pageSize)) := by
  have hP := hset.2.2.2.2.1
  obtain ⟨res, hsearch, herr, hdec⟩ := hserve (pageRequest env
    { options with pageToken := tokenAt env context options.pageSize n } context
      ((n : Int) * options.pageSize))
  have hpage := chain_page_result env log options context n res _ hset hfit hsearch herr hdec
  refine ⟨genericList env log { options with pageToken := tokenAt env context options.pageSize n },
    ?_, ?_, ?_⟩
  · rw [chainPage, chainToken_reached env log options context documents.length hset
      (ServesList.reports env documents hserve) hT n hreach]
  · rw [itemsOf, hpage]
    simp only [window_pageRequest]
    have : ((n : Int) * options.pageSize).toNat = n * options.pageSize.toNat := by
      have h1 : ((options.pageSize.toNat : Nat) : Int) = options.pageSize :=
        Int.toNat_of_nonneg (by omega)
      have h2 : (n : Int) * options.pageSize = ((n * options.pageSize.toNat : Nat) : Int) := by
        push_cast
        rw [h1]
      rw [h2, Int.toNat_ofNat]
    rw [this]
  · rw [nextPageTokenOf, hpage]

/-- Over a list index, the items of the first `n` pages of a chain are the
first `n * pageSize` documents. -/
theorem chainItems_eq_take (env : EsEnv) (log : Logger) (options : genericListOptions)
    (context : String) (documents : List EsSearchResponseHit)
    (hset : ChainSetting env options context) (hserve : ServesList env documents)
    (hfit : (pageCount documents.length options.pageSize : Int) * options.pageSize ≤ maxInt) :
    ∀ n, chainItems env log options n = documents.take (n * options.pageSize.toNat) := by
  have hP := hset.2.2.2.2.1
  have hP32 := hset.2.2.2.2.2
  have hp : ((options.pageSize.toNat : Nat) : Int) = options.pageSize :=
    Int.toNat_of_nonneg (by omega)
  have hmono : ∀ a b : Int, a ≤ b → a * options.pageSize ≤ b * options.pageSize :=
    fun a b hab => Int.mul_le_mul_of_nonneg_right hab (by omega)
  intro n
  induction n with
  | zero => simp [chainItems]
  | succ n ih =>
    rw [chainItems_succ, ih]
    by_cases hreach : n = 0 ∨ (n : Int) * options.pageSize < documents.length
    · -- the chain reaches page `n`
      have hTmax : (documents.length : Int) ≤ maxInt := by
        by_cases hempty : documents.length = 0
        · rw [hempty]; decide
        · have hT : (1 : Int) ≤ documents.length := by omega
          exact le_trans (pageCount_spec _ _ hT hP).2.1 hfit
      have hfitn : ((n : Int) + 1) * options.pageSize ≤ maxInt := by
        rcases hreach with h0 | hlt
        · subst h0
          unfold maxInt32 at hP32
          unfold maxInt
          simp only [Nat.cast_zero, zero_add, one_mul]
          omega
        · have hT : (1 : Int) ≤ documents.length := by
            have : (0 : Int) ≤ (n : Int) * options.pageSize :=
              Int.mul_nonneg (Int.ofNat_nonneg n) (by omega)
            omega
          obtain ⟨_, hge, hlast⟩ := pageCount_spec _ _ hT hP
          have hnk : (n : Int) + 1 ≤ (pageCount documents.length options.pageSize : Int) := by
            by_contra hcon
            have h1 : (pageCount documents.length options.pageSize : Int) ≤ (n : Int) := by omega
            have := hmono _ _ h1
            omega
          exact le_trans (hmono _ _ hnk) hfit
      obtain ⟨run, hrun, hitems, _⟩ := chain_page_items env log options context documents n hset
        hserve hTmax hreach hfitn
      rw [hrun]
      simp only [hitems]
      rw [Nat.add_mul, Nat.one_mul, List.take_add]
    · -- the chain ended before page `n`
      have hn0 : n ≠ 0 := fun h => hreach (Or.inl h)
      have hge : (documents.length : Int) ≤ (n : Int) * options.pageSize := by
        have := fun h => hreach (Or.inr h)
        omega
      have hlen : documents.length ≤ n * options.pageSize.toNat := by
        have : ((n * options.pageSize.toNat : Nat) : Int) = (n : Int) * options.pageSize := by
          push_cast
          rw [hp]
        omega
      have hnone : chainPage env log options n = none := by
        apply chainPage_none
        by_cases hempty : documents.length = 0
        · apply chainToken_ended env log options context documents.length 0 hset
            (ServesList.reports env documents hserve) (by rw [hempty]; decide) (Or.inl rfl)
          · unfold maxInt32 at hP32
            unfold maxInt
            simp only [Nat.cast_zero, zero_add, one_mul]
            omega
          · rw [hempty]
            simp only [Nat.cast_zero, zero_add, one_mul]
            omega
          · omega
        · have hT : (1 : Int) ≤ documents.length := by omega
          obtain ⟨hk, hgeT, hlast⟩ := pageCount_spec _ _ hT hP
          have hpred : ((pageCount documents.length options.pageSize - 1 : Nat) : Int) + 1 =
              (pageCount documents.length options.pageSize : Int) := by omega
          apply chainToken_ended env log options context documents.length
            (pageCount documents.length options.pageSize - 1) hset
            (ServesList.reports env documents hserve) (le_trans hgeT hfit)
          · right
            have : ((pageCount documents.length options.pageSize - 1 : Nat) : Int) =
                (pageCount documents.length options.pageSize : Int) - 1 := by omega
            rw [this]
            exact hlast
          · rw [hpred]
            exact hfit
          · rw [hpred]
            exact hgeT
          · -- `n` is at least the page count, since its offset reaches the total
            by_contra hcon
            have h1 : (n : Int) ≤ (pageCount documents.length options.pageSize : Int) - 1 := by
              omega
            have := hmono _ _ h1
            omega
      rw [hnone]
      simp only [List.append_nil]
      rw [List.take_of_length_le hlen, List.take_of_length_le]
      rw [Nat.add_mul]
      omega


/-- The unpaginated call over a list index returns the first thousand
documents and no token. -/
theorem genericList_unpaginated_list (env : EsEnv) (log : Logger) (options : genericListOptions)
    (documents : List EsSearchResponseHit) (hp : isPaginated options = false)
    (hf : FilterCompiles env options) (hserve : ServesList env documents) :
    (genericList env log options).result =
      .ok (⟨⟨documents.length⟩, documents.take 1000⟩, "") := by
  obtain ⟨res, hsearch, herr, hdec⟩ := hserve (fullRequest env options)
  rw [genericList_unpaginated env log options hp hf,
    finishSearch_unpaginated_ok env _ _ _ _ res _ hsearch herr hdec, window_fullRequest]

theorem isPaginated_unpaginated (options : genericListOptions) (h : options.pageToken = "") :
    isPaginated { options with pageSize := 0 } = false := by
  simp [isPaginated, h]

theorem modelIndex_serves (documents : List EsSearchResponseHit) :
    ServesList (modelIndex documents.length documents) documents :=
  fun request => ⟨⟨200, "", .ok ⟨⟨⟨documents.length⟩, window documents request⟩⟩⟩, rfl, rfl, rfl⟩

/-- The pages of a chain over a list index cover the list. -/
theorem pageCount_covers (documents : List EsSearchResponseHit) (pageSize : Int)
    (hP : 1 ≤ pageSize) :
    documents.length ≤ max 1 (pageCount documents.length pageSize) * pageSize.toNat := by
  have hp : ((pageSize.toNat : Nat) : Int) = pageSize := Int.toNat_of_nonneg (by omega)
  by_cases hempty : documents.length = 0
  · omega
  · have hT : (1 : Int) ≤ documents.length := by omega
    obtain ⟨hk, hge, _⟩ := pageCount_spec _ _ hT hP
    rw [max_eq_right hk]
    have : ((pageCount documents.length pageSize * pageSize.toNat : Nat) : Int) =
        (pageCount documents.length pageSize : Int) * pageSize := by
      push_cast
      rw [hp]
    omega

/-- C8 (as stated, refuted): over an index of 1001 documents and with page size
1000, the chain has two pages whose items, concatenated, are all 1001
documents, while the unpaginated call returns the first 1000 only. -/
theorem C8_continuity_counterexample :
    chainItems (modelIndex manyDocuments.length manyDocuments) sampleLogger (firstPage 1000) 2 =
        manyDocuments ∧
      chainPage (modelIndex manyDocuments.length manyDocuments) sampleLogger (firstPage 1000) 2 =
        none ∧
      itemsOf (genericList (modelIndex manyDocuments.length manyDocuments) sampleLogger
        { firstPage 1000 with pageSize := 0 }) = manyDocuments.take 1000 ∧
      manyDocuments ≠ manyDocuments.take 1000 := by
  have hset : ChainSetting (modelIndex manyDocuments.length manyDocuments) (firstPage 1000)
      "pit-1" :=
    modelIndex_setting _ _ (firstPage 1000) (by decide) rfl (by decide) (by decide)
  have hlen : manyDocuments.length = 1001 := List.length_replicate _ _
  have hcount : pageCount (manyDocuments.length : Int) (firstPage 1000).pageSize = 2 := by
    rw [hlen]
    decide
  have hfit : (pageCount (manyDocuments.length : Int) (firstPage 1000).pageSize : Int) *
      (firstPage 1000).pageSize ≤ maxInt := by
    rw [hcount]
    decide
  refine ⟨?_, ?_, ?_, ?_⟩
  · rw [chainItems_eq_take _ sampleLogger (firstPage 1000) "pit-1" manyDocuments hset
      (modelIndex_serves manyDocuments) hfit 2]
    apply List.take_of_length_le
    rw [hlen]
    decide
  · apply chainPage_none
    apply chainToken_ended _ sampleLogger (firstPage 1000) "pit-1" manyDocuments.length 1 hset
      (modelIndex_reports _ _) (by rw [hlen]; decide) (Or.inr (by rw [hlen]; decide))
      (by decide) (by rw [hlen]; decide) 2 (le_refl _)
  · rw [itemsOf, genericList_unpaginated_list _ sampleLogger _ manyDocuments
      (isPaginated_unpaginated (firstPage 1000) rfl) (Or.inl rfl) (modelIndex_serves manyDocuments)]
  · intro h
    have := congrArg List.length h
    rw [List.length_take, hlen] at this
    omega

/-- C8 (amended): over an index that is a fixed ordered list `L` and for a page
size `P >= 1` such that `ceil(|L|/P) * P` fits in `int`, the items of the pages
of the token chain, from the first token-less call through the page that
returns the empty token, concatenated, are exactly `L`; the unpaginated call
returns the first 1000 documents of `L`; so the two sequences are the same
whenever `L` has at most 1000 documents. -/
theorem C8_continuity (env : EsEnv) (log : Logger) (options : genericListOptions)
    (context : String) (documents : List EsSearchResponseHit)
    (hset : ChainSetting env options context) (hserve : ServesList env documents)
    (hfit : (pageCount documents.length options.pageSize : Int) * options.pageSize ≤ maxInt) :
    chainItems env log options (max 1 (pageCount documents.length options.pageSize)) =
        documents ∧
      (∃ run, chainPage env log options
          (max 1 (pageCount documents.length options.pageSize) - 1) = some run ∧
        nextPageTokenOf run = some "") ∧
      (∀ n, max 1 (pageCount documents.length options.pageSize) ≤ n →
        chainPage env log options n = none ∧ chainItems env log options n = documents) ∧
      itemsOf (genericList env log { options with pageSize := 0 }) = documents.take 1000 ∧
      (documents.length ≤ 1000 →
        chainItems env log options (max 1 (pageCount documents.length options.pageSize)) =
          itemsOf (genericList env log { options with pageSize := 0 })) := by
  have hP := hset.2.2.2.2.1
  have hP32 := hset.2.2.2.2.2
  have hcover := pageCount_covers documents options.pageSize hP
  have hitems : ∀ n, max 1 (pageCount documents.length options.pageSize) ≤ n →
      chainItems env log options n = documents := by
    intro n hn
    rw [chainItems_eq_take env log options context documents hset hserve hfit n]
    apply List.take_of_length_le
    exact le_trans hcover (Nat.mul_le_mul_right _ hn)
  have hunpaginated : itemsOf (genericList env log { options with pageSize := 0 }) =
      documents.take 1000 := by
    rw [itemsOf, genericList_unpaginated_list env log _ documents
      (isPaginated_unpaginated options hset.2.2.2.1) hset.2.1 hserve]
  -- the last page and the end of the chain
  have hlast : (∃ run, chainPage env log options
        (max 1 (pageCount documents.length options.pageSize) - 1) = some run ∧
        nextPageTokenOf run = some "") ∧
      ∀ n, max 1 (pageCount documents.length options.pageSize) ≤ n →
        chainPage env log options n = none := by
    by_cases hempty : documents.length = 0
    · have hk : pageCount (documents.length : Int) options.pageSize = 0 := by
        rw [hempty]
        unfold pageCount
        have : ((0 : Nat) : Int) + options.pageSize - 1 = options.pageSize - 1 := by simp
        rw [this, Int.ediv_eq_zero_of_lt (by omega) (by omega)]
        rfl
      have hfit1 : (((0 : Nat) : Int) + 1) * options.pageSize ≤ maxInt := by
        unfold maxInt32 at hP32
        unfold maxInt
        simp only [Nat.cast_zero, zero_add, one_mul]
        omega
      have hreachT : ((documents.length : Nat) : Int) ≤ (((0 : Nat) : Int) + 1) * options.pageSize := by
        rw [hempty]
        simp only [Nat.cast_zero, zero_add, one_mul]
        omega
      rw [hk]
      refine ⟨?_, ?_⟩
      · obtain ⟨run, hrun, _, htok⟩ := chain_page_items env log options context documents 0 hset
          hserve (by rw [hempty]; decide) (Or.inl rfl) hfit1
        rw [if_pos hreachT] at htok
        exact ⟨run, hrun, htok⟩
      · intro n hn
        apply chainPage_none
        exact chainToken_ended env log options context documents.length 0 hset
          (ServesList.reports env documents hserve) (by rw [hempty]; decide) (Or.inl rfl)
          hfit1 hreachT n hn
    · have hT : (1 : Int) ≤ documents.length := by omega
      obtain ⟨hk, hge, hlt⟩ := pageCount_spec _ _ hT hP
      have hpred : ((pageCount documents.length options.pageSize - 1 : Nat) : Int) + 1 =
          (pageCount documents.length options.pageSize : Int) := by omega
      have hreach : pageCount documents.length options.pageSize - 1 = 0 ∨
          ((pageCount documents.length options.pageSize - 1 : Nat) : Int) * options.pageSize <
            documents.length := by
        right
        have : ((pageCount documents.length options.pageSize - 1 : Nat) : Int) =
            (pageCount documents.length options.pageSize : Int) - 1 := by omega
        rw [this]
        exact hlt
      rw [max_eq_right hk]
      refine ⟨?_, ?_⟩
      · obtain ⟨run, hrun, _, htok⟩ := chain_page_items env log options context documents
          (pageCount documents.length options.pageSize - 1) hset hserve (le_trans hge hfit)
          hreach (by rw [hpred]; exact hfit)
        rw [if_pos (by rw [hpred]; exact hge)] at htok
        exact ⟨run, hrun, htok⟩
      · intro n hn
        apply chainPage_none
        exact chainToken_ended env log options context documents.length
          (pageCount documents.length options.pageSize - 1) hset
          (ServesList.reports env documents hserve) (le_trans hge hfit) hreach
          (by rw [hpred]; exact hfit) (by rw [hpred]; exact hge) n (by omega)
  refine ⟨hitems _ (le_refl _), hlast.1, fun n hn => ⟨hlast.2 n hn, hitems n hn⟩, hunpaginated, ?_⟩
  intro hshort
  rw [hitems _ (le_refl _), hunpaginated, List.take_of_length_le hshort]

set_option maxRecDepth 8192 in
/-- C8 (amended) over five documents with page size 2: the three pages give the
five documents in order, as the unpaginated call does. -/
theorem C8_continuity_witness :
    pageCount (fiveDocuments.length : Int) (firstPage 2).pageSize = 3 ∧
      chainItems (modelIndex fiveDocuments.length fiveDocuments) sampleLogger (firstPage 2) 3 =
        [⟨"a"⟩, ⟨"b"⟩, ⟨"c"⟩, ⟨"d"⟩, ⟨"e"⟩] ∧
      chainItems (modelIndex fiveDocuments.length fiveDocuments) sampleLogger (firstPage 2)
          (max 1 (pageCount fiveDocuments.length (firstPage 2).pageSize)) =
        itemsOf (genericList (modelIndex fiveDocuments.length fiveDocuments) sampleLogger
          { firstPage 2 with pageSize := 0 }) :=
  ⟨by decide, rfl,
    (C8_continuity (modelIndex fiveDocuments.length fiveDocuments) sampleLogger (firstPage 2)
      "pit-1" fiveDocuments
      (modelIndex_setting _ _ (firstPage 2) (by decide) rfl (by decide) (by decide))
      (modelIndex_serves fiveDocuments) (by decide)).2.2.2.2 (by decide)⟩


/-! ## Requests without a collector id or without notes -/

/-- C13: a `RegisterCollector` request whose collector id is the empty string
fails with status code `InvalidArgument`, whatever its notes list, and makes
no call to the note store; a request with a non-empty collector id and an
empty notes list succeeds with an empty mapping and makes no call to the note
store. In both cases the store is left as it was. -/
theorem C13_missing_id_or_notes {σ : Type} (grafeasCommon : GrafeasClient σ) (logger : Logger)
    (store : σ) (request : RegisterCollectorRequest) :
    (request.Id = "" →
      (∃ err, (RegisterCollector grafeasCommon logger store request).1.result = .error err ∧
        err.Code = Code.InvalidArgument) ∧
      listNotesCalls (RegisterCollector grafeasCommon logger store request).1.events = [] ∧
      batchCreateNotesCalls (RegisterCollector grafeasCommon logger store request).1.events = [] ∧
      (RegisterCollector grafeasCommon logger store request).2 = store) ∧
    (request.Id ≠ "" → request.Notes = [] →
      (RegisterCollector grafeasCommon logger store request).1.result = .ok { Notes := [] } ∧
      listNotesCalls (RegisterCollector grafeasCommon logger store request).1.events = [] ∧
      batchCreateNotesCalls (RegisterCollector grafeasCommon logger store request).1.events = [] ∧
      (RegisterCollector grafeasCommon logger store request).2 = store) := by
  refine ⟨?_, ?_⟩
  · intro hid
    simp [RegisterCollector, hid, Run.fail, createErrorWithCode, Logger.Error, GoError.Code,
      listNotesCalls, batchCreateNotesCalls]
  · intro hid hnotes
    rw [RegisterCollector_no_notes grafeasCommon logger store request hid hnotes]
    simp [Run.pure, listNotesCalls, batchCreateNotesCalls]

/-- C13 at a request without a collector id and with two conflicting notes, and
at a request of the collector `scanner` without notes, against the model note
store. -/
theorem C13_missing_id_or_notes_witness :
    ((∃ err, (RegisterCollector modelNoteStore sampleLogger sampleStore
          ⟨"", [⟨"", NoteKind.BUILD, "a", ""⟩, ⟨"", NoteKind.BUILD, "b", ""⟩]⟩).1.result =
            .error err ∧ err.Code = Code.InvalidArgument) ∧
      listNotesCalls (RegisterCollector modelNoteStore sampleLogger sampleStore
        ⟨"", [⟨"", NoteKind.BUILD, "a", ""⟩, ⟨"", NoteKind.BUILD, "b", ""⟩]⟩).1.events = [] ∧
      batchCreateNotesCalls (RegisterCollector modelNoteStore sampleLogger sampleStore
        ⟨"", [⟨"", NoteKind.BUILD, "a", ""⟩, ⟨"", NoteKind.BUILD, "b", ""⟩]⟩).1.events = [] ∧
      (RegisterCollector modelNoteStore sampleLogger sampleStore
        ⟨"", [⟨"", NoteKind.BUILD, "a", ""⟩, ⟨"", NoteKind.BUILD, "b", ""⟩]⟩).2 = sampleStore) ∧
    ((RegisterCollector modelNoteStore sampleLogger sampleStore ⟨"scanner", []⟩).1.result =
        .ok { Notes := [] } ∧
      listNotesCalls (RegisterCollector modelNoteStore sampleLogger sampleStore
        ⟨"scanner", []⟩).1.events = [] ∧
      batchCreateNotesCalls (RegisterCollector modelNoteStore sampleLogger sampleStore
        ⟨"scanner", []⟩).1.events = [] ∧
      (RegisterCollector modelNoteStore sampleLogger sampleStore ⟨"scanner", []⟩).2 =
        sampleStore) :=
  ⟨(C13_missing_id_or_notes modelNoteStore sampleLogger sampleStore
      ⟨"", [⟨"", NoteKind.BUILD, "a", ""⟩, ⟨"", NoteKind.BUILD, "b", ""⟩]⟩).1 rfl,
    (C13_missing_id_or_notes modelNoteStore sampleLogger sampleStore ⟨"scanner", []⟩).2
      (by decide) rfl⟩


/-! ## Bootstrap -/

theorem createProjectCalls_append (a b : List Event) :
    createProjectCalls (a ++ b) = createProjectCalls a ++ createProjectCalls b := by
  induction a with
  | nil => rfl
  | cons head rest ih => cases head <;> simp [createProjectCalls, ih]

/-- When `CreateIndex` succeeds, the loop over `indexSettings` returns no error
and calls no `CreateProject`. -/
theorem createIndices_ok {τ : Type} (indexManager : IndexManager τ)
    (hcreate : ∀ state indexName aliasName documentKind,
      (indexManager.CreateIndex state indexName aliasName documentKind).1 = none)
    (settings : List (String × String × String)) :
    ∀ state, (createIndices indexManager settings state).1 = none ∧
      createProjectCalls (createIndices indexManager settings state).2.1 = [] := by
  induction settings with
  | nil => intro state; exact ⟨rfl, rfl⟩
  | cons head rest ih =>
    intro state
    have h := hcreate state head.1 head.2.1 head.2.2
    cases hc : indexManager.CreateIndex state head.1 head.2.1 head.2.2 with
    | mk outcome state1 =>
      rw [hc] at h
      simp only at h
      subst h
      simp only [createIndices, hc]
      exact ⟨(ih state1).1, by simp [createProjectCalls, (ih state1).2]⟩

/-- The value of `initialize` when the index manager initializes and
`GetProject` finds the project. -/
theorem initializeServer_found {σ τ : Type} (grafeasProjects : ProjectsClient σ)
    (indexManager : IndexManager τ) (logger : Logger) (projects : σ) (indices : τ)
    (hinit : ∀ state, (indexManager.Initialize state).1 = none)
    (hcreate : ∀ state indexName aliasName documentKind,
      (indexManager.CreateIndex state indexName aliasName documentKind).1 = none)
    (found : String) (hget : grafeasProjects.GetProject projects rodeProjectSlug = .ok found) :
    (initializeServer grafeasProjects indexManager logger projects indices).error = none ∧
      createProjectCalls
        (initializeServer grafeasProjects indexManager logger projects indices).events = [] ∧
      (initializeServer grafeasProjects indexManager logger projects indices).projects =
        projects := by
  have h := hinit indices
  cases hi : indexManager.Initialize indices with
  | mk outcome indices1 =>
    rw [hi] at h
    simp only at h
    subst h
    have hidx := createIndices_ok indexManager hcreate (indexSettings indexManager) indices1
    simp [initializeServer, hi, hget, hidx.1, createProjectCalls_append, hidx.2,
      createProjectCalls]

/-- The value of `initialize` when the index manager initializes and
`GetProject` fails. -/
theorem initializeServer_missing {σ τ : Type} (grafeasProjects : ProjectsClient σ)
    (indexManager : IndexManager τ) (logger : Logger) (projects : σ) (indices : τ)
    (hinit : ∀ state, (indexManager.Initialize state).1 = none)
    (hcreate : ∀ state indexName aliasName documentKind,
      (indexManager.CreateIndex state indexName aliasName documentKind).1 = none)
    (err : GoError) (hget : grafeasProjects.GetProject projects rodeProjectSlug = .error err) :
    (err.Code ≠ Code.NotFound →
      (initializeServer grafeasProjects indexManager logger projects indices).error = some err ∧
      createProjectCalls
        (initializeServer grafeasProjects indexManager logger projects indices).events = [] ∧
      (initializeServer grafeasProjects indexManager logger projects indices).projects =
        projects) ∧
    (err.Code = Code.NotFound →
      createProjectCalls
        (initializeServer grafeasProjects indexManager logger projects indices).events =
          [rodeProjectSlug] ∧
      (initializeServer grafeasProjects indexManager logger projects indices).projects =
        (grafeasProjects.CreateProject projects rodeProjectSlug).2 ∧
      (∀ err1, (grafeasProjects.CreateProject projects rodeProjectSlug).1 = .error err1 →
        (initializeServer grafeasProjects indexManager logger projects indices).error =
          some err1) ∧
      (∀ created, (grafeasProjects.CreateProject projects rodeProjectSlug).1 = .ok created →
        (initializeServer grafeasProjects indexManager logger projects indices).error =
          none)) := by
  have h := hinit indices
  cases hi : indexManager.Initialize indices with
  | mk outcome indices1 =>
    rw [hi] at h
    simp only at h
    subst h
    have hidx := createIndices_ok indexManager hcreate (indexSettings indexManager) indices1
    refine ⟨?_, ?_⟩
    · intro hcode
      simp [initializeServer, hi, hget, hcode, Logger.Error, createProjectCalls]
    · intro hcode
      cases hc : grafeasProjects.CreateProject projects rodeProjectSlug with
      | mk outcome projects1 =>
        cases outcome with
        | error err1 =>
          simp [initializeServer, hi, hget, hcode, hc, Logger.Error, createProjectCalls]
        | ok created =>
          simp [initializeServer, hi, hget, hcode, hc, Logger.Info, createProjectCalls,
            createProjectCalls_append, hidx.1, hidx.2]


theorem modelProjectStore_found (stored : List String) (h : rodeProjectSlug ∈ stored) :
    modelProjectStore.GetProject stored rodeProjectSlug = .ok rodeProjectSlug := by
  simp [modelProjectStore, h]

theorem modelProjectStore_missing (stored : List String) (h : rodeProjectSlug ∉ stored) :
    modelProjectStore.GetProject stored rodeProjectSlug =
      .error (GoError.status Code.NotFound ("project " ++ rodeProjectSlug ++ " not found")) := by
  simp [modelProjectStore, h]

/-- Against the model project store, `initialize` succeeds, leaves the project
in the store, and calls `CreateProject` exactly when the project was
absent. -/
theorem initializeServer_model {τ : Type} (indexManager : IndexManager τ) (logger : Logger)
    (stored : List String) (indices : τ)
    (hinit : ∀ state, (indexManager.Initialize state).1 = none)
    (hcreate : ∀ state indexName aliasName documentKind,
      (indexManager.CreateIndex state indexName aliasName documentKind).1 = none) :
    (initializeServer modelProjectStore indexManager logger stored indices).error = none ∧
      rodeProjectSlug ∈
        (initializeServer modelProjectStore indexManager logger stored indices).projects ∧
      (rodeProjectSlug ∈ stored →
        createProjectCalls
          (initializeServer modelProjectStore indexManager logger stored indices).events = []) ∧
      (rodeProjectSlug ∉ stored →
        createProjectCalls
          (initializeServer modelProjectStore indexManager logger stored indices).events =
            [rodeProjectSlug]) := by
  by_cases hmem : rodeProjectSlug ∈ stored
  · obtain ⟨herr, hcalls, hprojects⟩ := initializeServer_found modelProjectStore indexManager
      logger stored indices hinit hcreate _ (modelProjectStore_found stored hmem)
    exact ⟨herr, by rw [hprojects]; exact hmem, fun _ => hcalls, fun h => absurd hmem h⟩
  · obtain ⟨hcalls, hprojects, _, hok⟩ := (initializeServer_missing modelProjectStore
      indexManager logger stored indices hinit hcreate _
      (modelProjectStore_missing stored hmem)).2 rfl
    refine ⟨hok rodeProjectSlug rfl, ?_, fun h => absurd h hmem, fun _ => hcalls⟩
    rw [hprojects]
    simp [modelProjectStore, hmem]

/-- C12: with an index manager whose `Initialize` and `CreateIndex` succeed,
`initialize` calls `CreateProject`, once and for `projects/rode`, if and only
if `GetProject` failed with `NotFound`; it returns the error of `GetProject`
without calling `CreateProject` when `GetProject` fails with any other code;
it returns the error of `CreateProject` when `CreateProject` fails. Against
the model project store, running `initialize` twice in a row succeeds both
times and the second run performs no `CreateProject`. -/
theorem C12_bootstrap {σ τ : Type} (grafeasProjects : ProjectsClient σ)
    (indexManager : IndexManager τ) (logger : Logger) (projects : σ) (stored : List String)
    (indices : τ)
    (hinit : ∀ state, (indexManager.Initialize state).1 = none)
    (hcreate : ∀ state indexName aliasName documentKind,
      (indexManager.CreateIndex state indexName aliasName documentKind).1 = none) :
    ((∃ err, grafeasProjects.GetProject projects rodeProjectSlug = .error err ∧
        err.Code = Code.NotFound) →
      createProjectCalls
        (initializeServer grafeasProjects indexManager logger projects indices).events =
          [rodeProjectSlug]) ∧
    ((¬ ∃ err, grafeasProjects.GetProject projects rodeProjectSlug = .error err ∧
        err.Code = Code.NotFound) →
      createProjectCalls
        (initializeServer grafeasProjects indexManager logger projects indices).events = []) ∧
    (∀ err, grafeasProjects.GetProject projects rodeProjectSlug = .error err →
      err.Code ≠ Code.NotFound →
      (initializeServer grafeasProjects indexManager logger projects indices).error = some err ∧
      createProjectCalls
        (initializeServer grafeasProjects indexManager logger projects indices).events = []) ∧
    (∀ err err1, grafeasProjects.GetProject projects rodeProjectSlug = .error err →
      err.Code = Code.NotFound →
      (grafeasProjects.CreateProject projects rodeProjectSlug).1 = .error err1 →
      (initializeServer grafeasProjects indexManager logger projects indices).error =
        some err1) ∧
    ((initializeServer modelProjectStore indexManager logger stored indices).error = none ∧
      (initializeServer modelProjectStore indexManager logger
        (initializeServer modelProjectStore indexManager logger stored indices).projects
        (initializeServer modelProjectStore indexManager logger stored indices).indices).error =
          none ∧
      createProjectCalls (initializeServer modelProjectStore indexManager logger
        (initializeServer modelProjectStore indexManager logger stored indices).projects
        (initializeServer modelProjectStore indexManager logger stored indices).indices).events =
          []) := by
  refine ⟨?_, ?_, ?_, ?_, ?_⟩
  · rintro ⟨err, hget, hcode⟩
    exact ((initializeServer_missing grafeasProjects indexManager logger projects indices hinit
      hcreate err hget).2 hcode).1
  · intro hnot
    cases hget : grafeasProjects.GetProject projects rodeProjectSlug with
    | ok found =>
      exact (initializeServer_found grafeasProjects indexManager logger projects indices hinit
        hcreate found hget).2.1
    | error err =>
      have hcode : err.Code ≠ Code.NotFound := fun h => hnot ⟨err, hget, h⟩
      exact ((initializeServer_missing grafeasProjects indexManager logger projects indices hinit
        hcreate err hget).1 hcode).2.1
  · intro err hget hcode
    have h := (initializeServer_missing grafeasProjects indexManager logger projects indices
      hinit hcreate err hget).1 hcode
    exact ⟨h.1, h.2.1⟩
  · intro err err1 hget hcode hfail
    exact ((initializeServer_missing grafeasProjects indexManager logger projects indices hinit
      hcreate err hget).2 hcode).2.2.1 err1 hfail
  · obtain ⟨h1, hmem, _, _⟩ := initializeServer_model indexManager logger stored indices hinit
      hcreate
    obtain ⟨h2, _, hnone, _⟩ := initializeServer_model indexManager logger
      (initializeServer modelProjectStore indexManager logger stored indices).projects
      (initializeServer modelProjectStore indexManager logger stored indices).indices hinit
      hcreate
    exact ⟨h1, h2, hnone hmem⟩

/-- C12 at a project store whose `GetProject` fails with `Unavailable`, and at
the empty model project store with the model index manager: the first run
creates the project, the second run does not. -/
theorem C12_bootstrap_witness :
    ((initializeServer unavailableProjectStore modelIndexManager sampleLogger () []).error =
        some (GoError.status Code.Unavailable "connection refused") ∧
      createProjectCalls
        (initializeServer unavailableProjectStore modelIndexManager sampleLogger () []).events =
          []) ∧
    createProjectCalls
      (initializeServer modelProjectStore modelIndexManager sampleLogger [] []).events =
        [rodeProjectSlug] ∧
    ((initializeServer modelProjectStore modelIndexManager sampleLogger [] []).error = none ∧
      (initializeServer modelProjectStore modelIndexManager sampleLogger
        (initializeServer modelProjectStore modelIndexManager sampleLogger [] []).projects
        (initializeServer modelProjectStore modelIndexManager sampleLogger [] []).indices).error =
          none ∧
      createProjectCalls (initializeServer modelProjectStore modelIndexManager sampleLogger
        (initializeServer modelProjectStore modelIndexManager sampleLogger [] []).projects
        (initializeServer modelProjectStore modelIndexManager sampleLogger [] []).indices).events =
          []) :=
  ⟨(C12_bootstrap unavailableProjectStore modelIndexManager sampleLogger () [] []
      (fun _ => rfl) (fun _ _ _ _ => rfl)).2.2.1
      (GoError.status Code.Unavailable "connection refused") rfl (by decide),
    (C12_bootstrap modelProjectStore modelIndexManager sampleLogger [] [] []
      (fun _ => rfl) (fun _ _ _ _ => rfl)).1
      ⟨GoError.status Code.NotFound ("project " ++ rodeProjectSlug ++ " not found"), rfl, rfl⟩,
    (C12_bootstrap modelProjectStore modelIndexManager sampleLogger [] [] []
      (fun _ => rfl) (fun _ _ _ _ => rfl)).2.2.2.2⟩


/-! ## Continuation with page size 0 -/

theorem addInt_zero (offset : Int) (h : IsInt offset) : addInt offset 0 = offset := by
  rw [addInt_of_isInt _ _ (by simpa using h)]
  simp

/-- A continuation call with page size 0 whose offset is below the total
returns the encoding of the context and offset of its own token. -/
theorem continuation_page (env : EsEnv) (log : Logger) (options : genericListOptions)
    (context : String) (offset total : Int) (hcodec : LawfulCodec env)
    (hf : FilterCompiles env options) (hsize : options.pageSize = 0)
    (htoken : options.pageToken ≠ "")
    (hparse : env.ParsePageToken options.pageToken = .ok (context, offset))
    (hint : IsInt offset) (htot : ReportsTotal env total) (hlt : offset < total) :
    isPaginated options = true ∧
      ∃ hits, genericList env log options =
        ⟨.ok (hits, env.CreatePageToken context offset),
          pageEvents env log options context offset⟩ := by
  have hp : isPaginated options = true := by simp [isPaginated, htoken]
  refine ⟨hp, ?_⟩
  obtain ⟨res, searchResults, hsearch, herr, hdec, htotal⟩ :=
    htot (pageRequest env options context offset)
  have hrun := genericList_paginated env log options context offset hp hf
    (Or.inr ⟨htoken, hparse⟩)
  have hsum : addInt offset options.pageSize = offset := by
    rw [hsize]
    exact addInt_zero offset hint
  rw [hsum] at hrun
  have hfin := finishSearch_paginated_ok env (pageLogger env log options context)
    (pageEvents env log options context offset) (pageRequest env options context offset)
    (env.CreatePageToken context offset) res searchResults (context, offset) hsearch herr hdec
    (hcodec.1 context offset hint)
  rw [htotal, if_neg (not_le.mpr hlt)] at hfin
  exact ⟨searchResults.Hits, by rw [hrun, hfin]⟩

theorem chainFrom_succ (env : EsEnv) (log : Logger) (options : genericListOptions)
    (start : String) (n : Nat) :
    chainFrom env log options start (n + 1) =
      match chainFrom env log options start n with
      | none => none
      | some token =>
        match nextPageTokenOf (genericList env log { options with pageToken := token }) with
        | none => none
        | some next => if next = "" then none else some next := rfl

/-- A continuation chain with page size 0 whose offset is below the total never
ends: every call is made, with a non-empty token that decodes to the context
and offset of the first token. -/
theorem chainFrom_stuck (env : EsEnv) (log : Logger) (options : genericListOptions)
    (context : String) (offset total : Int) (hcodec : LawfulCodec env)
    (hf : FilterCompiles env options) (hsize : options.pageSize = 0)
    (htoken : options.pageToken ≠ "")
    (hparse : env.ParsePageToken options.pageToken = .ok (context, offset))
    (hint : IsInt offset) (htot : ReportsTotal env total) (hlt : offset < total) :
    ∀ n, ∃ token, chainFrom env log options options.pageToken n = some token ∧ token ≠ "" ∧
      env.ParsePageToken token = .ok (context, offset) := by
  intro n
  induction n with
  | zero => exact ⟨options.pageToken, rfl, htoken, hparse⟩
  | succ n ih =>
    obtain ⟨token, hchain, hne, hdecodes⟩ := ih
    obtain ⟨_, hits, hpage⟩ := continuation_page env log { options with pageToken := token }
      context offset total hcodec hf hsize hne hdecodes hint htot hlt
    refine ⟨env.CreatePageToken context offset, ?_, hcodec.2 _ _, hcodec.1 _ _ hint⟩
    rw [chainFrom_succ, hchain]
    simp only [nextPageTokenOf, hpage]
    rw [if_neg (hcodec.2 _ _)]

/-- C14 (as stated, refuted): with page size 1 and a page token that decodes to
the largest `int`, the offset of the issued token is the smallest `int`, which
is not greater than the offset of the request. -/
theorem C14_offset_advance_counterexample :
    binaryParsePageToken (binaryCreatePageToken "pit-1" maxInt) = .ok ("pit-1", maxInt) ∧
      issuedToken (handlePagination (modelIndex 5 fiveDocuments) sampleLogger {}
        rodeElasticsearchOccurrencesAlias (binaryCreatePageToken "pit-1" maxInt) 1) =
          some (binaryCreatePageToken "pit-1" minInt) ∧
      binaryParsePageToken (binaryCreatePageToken "pit-1" minInt) = .ok ("pit-1", minInt) ∧
      ¬ (minInt > maxInt) := by
  refine ⟨binary_roundtrip "pit-1" maxInt ⟨by decide, by decide⟩, ?_,
    binary_roundtrip "pit-1" minInt ⟨by decide, by decide⟩, by decide⟩
  rw [handlePagination_ok (modelIndex 5 fiveDocuments) sampleLogger {} _
    (binaryCreatePageToken "pit-1" maxInt) 1 "pit-1" maxInt
    (Or.inr ⟨binary_nonempty "pit-1" maxInt,
      modelIndex_decodes 5 fiveDocuments "pit-1" maxInt ⟨by decide, by decide⟩⟩)]
  rfl

/-- C14 (amended): with a codec that decodes what it encoded, a filter that
compiles and an index that reports the total `T`: a continuation call of
`genericList` with `pageSize = 0` and a non-empty page token that decodes to
`(c, o)`, `o` an `int` below `T`, takes the paginated path, searches once with
size 0 and offset `o`, and returns a non-empty token that decodes to the same
`(c, o)`; a chain of such calls never reaches an empty token. For an `int32`
`pageSize >= 1` and a request offset `o >= 0` (0 without a page token) such
that `o + pageSize` does not exceed the largest `int`, the offset of the token
issued by `handlePagination` is strictly greater than `o`. -/
theorem C14_offset_advance (env : EsEnv) (log : Logger) (options : genericListOptions)
    (context : String) (offset total : Int) (hcodec : LawfulCodec env)
    (hint : IsInt offset) :
    (FilterCompiles env options → options.pageSize = 0 → options.pageToken ≠ "" →
      env.ParsePageToken options.pageToken = .ok (context, offset) →
      ReportsTotal env total → offset < total →
      isPaginated options = true ∧
      (∃ request, searches (genericList env log options).events = [request] ∧
        request.Size = some 0 ∧ request.From = some offset) ∧
      (∃ hits, (genericList env log options).result =
        .ok (hits, env.CreatePageToken context offset)) ∧
      env.CreatePageToken context offset ≠ "" ∧
      env.ParsePageToken (env.CreatePageToken context offset) = .ok (context, offset) ∧
      ∀ n, ∃ token, chainFrom env log options options.pageToken n = some token ∧ token ≠ "" ∧
        env.ParsePageToken token = .ok (context, offset)) ∧
    (1 ≤ options.pageSize → options.pageSize ≤ maxInt32 →
      ((options.pageToken = "" ∧ OpensContext env options.index context ∧ offset = 0) ∨
        (options.pageToken ≠ "" ∧
          env.ParsePageToken options.pageToken = .ok (context, offset))) →
      0 ≤ offset → offset + options.pageSize ≤ maxInt →
      ∀ (logger : Logger) (given : EsSearch),
        issuedToken (handlePagination env logger given options.index options.pageToken
          options.pageSize) =
            some (env.CreatePageToken context (addInt offset options.pageSize)) ∧
        env.ParsePageToken (env.CreatePageToken context (addInt offset options.pageSize)) =
          .ok (context, addInt offset options.pageSize) ∧
        offset < addInt offset options.pageSize) := by
  refine ⟨?_, ?_⟩
  · intro hf hsize htoken hparse htot hlt
    obtain ⟨hp, hits, hpage⟩ := continuation_page env log options context offset total hcodec hf
      hsize htoken hparse hint htot hlt
    refine ⟨hp, ⟨pageRequest env options context offset, ?_, ?_, rfl⟩, ⟨hits, by rw [hpage]⟩,
      hcodec.2 _ _, hcodec.1 _ _ hint,
      chainFrom_stuck env log options context offset total hcodec hf hsize htoken hparse hint
        htot hlt⟩
    · rw [hpage]
      exact searches_pageEvents _ _ _ _ _
    · show some options.pageSize = some 0
      rw [hsize]
  · intro hP hP32 hctx hnonneg hfit logger given
    have hsum : addInt offset options.pageSize = offset + options.pageSize := by
      apply addInt_of_isInt
      unfold IsInt minInt
      unfold maxInt at hfit ⊢
      omega
    refine ⟨?_, hcodec.1 _ _ (addInt_isInt _ _), by rw [hsum]; omega⟩
    rw [handlePagination_ok env logger given _ _ _ context offset hctx]
    rfl

/-- C14 (amended) over five documents: a continuation call with page size 0 and
the token for `(pit-1, 2)` returns the token for `(pit-1, 2)`, and the first
page of size 2 issues a token with offset 2, above its own offset 0. -/
theorem C14_offset_advance_witness :
    (∃ hits, (genericList (modelIndex 5 fiveDocuments) sampleLogger
        { firstPage 0 with pageToken := binaryCreatePageToken "pit-1" 2 }).result =
          .ok (hits, binaryCreatePageToken "pit-1" 2)) ∧
      (∀ n, ∃ token, chainFrom (modelIndex 5 fiveDocuments) sampleLogger
          { firstPage 0 with pageToken := binaryCreatePageToken "pit-1" 2 }
          (binaryCreatePageToken "pit-1" 2) n = some token ∧ token ≠ "" ∧
        binaryParsePageToken token = .ok ("pit-1", 2)) ∧
      (0 : Int) < addInt 0 (firstPage 2).pageSize :=
  ⟨((C14_offset_advance (modelIndex 5 fiveDocuments) sampleLogger
      { firstPage 0 with pageToken := binaryCreatePageToken "pit-1" 2 } "pit-1" 2 5
      (modelIndex_lawful 5 fiveDocuments) ⟨by decide, by decide⟩).1 (Or.inl rfl) rfl
      (binary_nonempty "pit-1" 2) (binary_roundtrip "pit-1" 2 ⟨by decide, by decide⟩)
      (modelIndex_reports 5 fiveDocuments) (by decide)).2.2.1,
    ((C14_offset_advance (modelIndex 5 fiveDocuments) sampleLogger
      { firstPage 0 with pageToken := binaryCreatePageToken "pit-1" 2 } "pit-1" 2 5
      (modelIndex_lawful 5 fiveDocuments) ⟨by decide, by decide⟩).1 (Or.inl rfl) rfl
      (binary_nonempty "pit-1" 2) (binary_roundtrip "pit-1" 2 ⟨by decide, by decide⟩)
      (modelIndex_reports 5 fiveDocuments) (by decide)).2.2.2.2.2,
    ((C14_offset_advance (modelIndex 5 fiveDocuments) sampleLogger (firstPage 2) "pit-1" 0 5
      (modelIndex_lawful 5 fiveDocuments) ⟨by decide, by decide⟩).2 (by decide) (by decide)
      (Or.inl ⟨rfl, modelIndex_opens 5 fiveDocuments _, rfl⟩) (by decide) (by decide)
      sampleLogger {}).2.2⟩


/-! ## Failures and their log entries -/

theorem errorMessages_append (a b : List Event) :
    errorMessages (a ++ b) = errorMessages a ++ errorMessages b := by
  simp [errorMessages, errorEntries_append]

theorem errorMessages_filterEvents (options : genericListOptions) :
    errorMessages (filterEvents options) = [] := by
  by_cases hf : options.filter = "" <;> simp [errorMessages, filterEvents, errorEntries, hf]

theorem errorMessages_pageEvents (env : EsEnv) (log : Logger) (options : genericListOptions)
    (context : String) (offset : Int) :
    errorMessages (pageEvents env log options context offset) = [] := by
  by_cases hf : options.filter = "" <;> by_cases ht : options.pageToken = "" <;>
    simp [errorMessages, pageEvents, filterEvents, Logger.Debug, errorEntries, hf, ht]

theorem errorMessages_fullEvents (env : EsEnv) (log : Logger) (options : genericListOptions) :
    errorMessages (fullEvents env log options) = [] := by
  by_cases hf : options.filter = "" <;>
    simp [errorMessages, fullEvents, filterEvents, Logger.Debug, errorEntries, hf]

/-- What `createError` returns and logs. -/
theorem createError_made (log : Logger) (message : String) (cause : Option GoError)
    (fields : List Field) :
    (createError log message cause fields).1 = internalError message cause ∧
      errorMessages (createError log message cause fields).2 = [message] := by
  cases cause <;>
    simp [createError, createErrorWithCode, internalError, Logger.Error, errorMessages,
      errorEntries]

/-- A failure that `handlePagination` detects is logged once, by
`handlePagination`, and returned with the cause wrapped once. -/
theorem handlePagination_failure (env : EsEnv) (log : Logger) (body : EsSearch)
    (index pageToken : String) (pageSize : Int) (message : String) (cause : Option GoError)
    (h : PaginationFailure env index pageToken message cause) :
    (handlePagination env log body index pageToken pageSize).result =
        .error (internalError message cause) ∧
      errorMessages (handlePagination env log body index pageToken pageSize).events =
        [message] := by
  rcases h with ⟨ht, err, hparse, rfl, rfl⟩ | ⟨ht, err, hopen, rfl, rfl⟩ |
    ⟨ht, res, hopen, herr, rfl, rfl⟩ | ⟨ht, res, err, hopen, herr, hdec, rfl, rfl⟩
  · simp [handlePagination, ht, hparse, Run.bind, Run.fail, createError, createErrorWithCode,
      internalError, Logger.Error, errorMessages, errorEntries]
  · simp [handlePagination, ht, hopen, Run.bind, Run.fail, createError, createErrorWithCode,
      internalError, Logger.Error, errorMessages, errorEntries]
  · simp [handlePagination, ht, hopen, herr, Run.bind, Run.fail, createError,
      createErrorWithCode, internalError, Logger.Error, errorMessages, errorEntries]
  · simp [handlePagination, ht, hopen, herr, hdec, Run.bind, Run.fail, createError,
      createErrorWithCode, internalError, Logger.Error, errorMessages, errorEntries]

/-- Either `handlePagination` gets a search context and an offset, or it
detects one of its failures. -/
theorem handlePagination_total (env : EsEnv) (index pageToken : String) :
    (∃ context offset, (pageToken = "" ∧ OpensContext env index context ∧ offset = 0) ∨
      (pageToken ≠ "" ∧ env.ParsePageToken pageToken = .ok (context, offset))) ∨
    ∃ message cause, PaginationFailure env index pageToken message cause := by
  by_cases ht : pageToken = ""
  · cases hopen : env.OpenPointInTime index pitKeepAlive with
    | error err => exact Or.inr ⟨_, _, Or.inr (Or.inl ⟨ht, err, hopen, rfl, rfl⟩)⟩
    | ok res =>
      by_cases herr : res.IsError = true
      · exact Or.inr ⟨_, _, Or.inr (Or.inr (Or.inl ⟨ht, res, hopen, herr, rfl, rfl⟩))⟩
      · cases hdec : res.decoded with
        | error err =>
          exact Or.inr ⟨_, _, Or.inr (Or.inr (Or.inr
            ⟨ht, res, err, hopen, by simpa using herr, hdec, rfl, rfl⟩))⟩
        | ok pitResponse =>
          exact Or.inl ⟨pitResponse.Id, 0,
            Or.inl ⟨ht, ⟨res, hopen, by simpa using herr, hdec⟩, rfl⟩⟩
  · cases hparse : env.ParsePageToken pageToken with
    | error err => exact Or.inr ⟨_, _, Or.inl ⟨ht, err, hparse, rfl, rfl⟩⟩
    | ok parsed => exact Or.inl ⟨parsed.1, parsed.2, Or.inr ⟨ht, rfl⟩⟩

/-- A failure that `genericList` detects from its search on is logged once and
returned with the cause wrapped once. -/
theorem finishSearch_failure (env : EsEnv) (log : Logger) (before : List Event)
    (request : SearchRequest) (paginated : Bool) (token message : String)
    (cause : Option GoError) (h : SearchFailure env request paginated token message cause) :
    (finishSearch env log before request paginated token).result =
        .error (internalError message cause) ∧
      errorMessages (finishSearch env log before request paginated token).events =
        errorMessages before ++ [message] := by
  rcases h with ⟨err, hsearch, rfl, rfl⟩ | ⟨res, hsearch, herr, rfl, rfl⟩ |
    ⟨res, err, hsearch, herr, hdec, rfl, rfl⟩ |
    ⟨hp, res, searchResults, err, hsearch, herr, hdec, hparse, rfl, rfl⟩
  · simp [finishSearch, hsearch, Run.fail, errorMessages_append, createError_made]
  · simp [finishSearch, hsearch, herr, Run.fail, errorMessages_append, createError_made]
  · simp [finishSearch, hsearch, herr, hdec, Run.fail, errorMessages_append, createError_made]
  · simp [finishSearch, hsearch, herr, hdec, hp, hparse, Run.fail, errorMessages_append,
      createError_made]

/-- When the second part of `genericList` fails, it detected one of its
failures. -/
theorem finishSearch_total (env : EsEnv) (log : Logger) (before : List Event)
    (request : SearchRequest) (paginated : Bool) (token : String) (err : GoError)
    (h : (finishSearch env log before request paginated token).result = .error err) :
    ∃ message cause, SearchFailure env request paginated token message cause := by
  cases hsearch : env.Search request with
  | error cause => exact ⟨_, _, Or.inl ⟨cause, hsearch, rfl, rfl⟩⟩
  | ok res =>
    by_cases herr : res.IsError = true
    · exact ⟨_, _, Or.inr (Or.inl ⟨res, hsearch, herr, rfl, rfl⟩)⟩
    · have herr1 : res.IsError = false := by simpa using herr
      cases hdec : res.decoded with
      | error cause => exact ⟨_, _, Or.inr (Or.inr (Or.inl ⟨res, cause, hsearch, herr1, hdec, rfl, rfl⟩))⟩
      | ok searchResults =>
        cases hp : paginated with
        | false => simp [finishSearch, hsearch, herr1, hdec, hp] at h
        | true =>
          cases hparse : env.ParsePageToken token with
          | error cause =>
            exact ⟨_, _, Or.inr (Or.inr (Or.inr
              ⟨rfl, res, searchResults, cause, hsearch, herr1, hdec, hparse, rfl, rfl⟩))⟩
          | ok parsed => simp [finishSearch, hsearch, herr1, hdec, hp, hparse] at h


theorem internalError_some (message : String) (cause : GoError) :
    internalError message (some cause) =
      GoError.status Code.Internal (message ++ ": " ++ cause.Error) := rfl

theorem internalError_none (message : String) :
    internalError message none = GoError.status Code.Internal message := rfl

/-- Only a paginated call looks at the token when it fails from the search
on. -/
theorem SearchFailure.token (env : EsEnv) (request : SearchRequest) (paginated : Bool)
    (token other message : String) (cause : Option GoError)
    (h : SearchFailure env request paginated token message cause)
    (hsame : paginated = true → token = other) :
    SearchFailure env request paginated other message cause := by
  rcases h with h | h | h | ⟨hp, h⟩
  · exact Or.inl h
  · exact Or.inr (Or.inl h)
  · exact Or.inr (Or.inr (Or.inl h))
  · rw [← hsame hp]
    exact Or.inr (Or.inr (Or.inr ⟨hp, h⟩))

/-- A call of `genericList` whose filter is empty or compiles and which, when
paginated, gets a search context and an offset, is the second part of
`genericList` after events without an error entry and with one search, on the
token that `handlePagination` issued. -/
theorem genericList_search (env : EsEnv) (log : Logger) (options : genericListOptions)
    (hf : FilterCompiles env options)
    (hctx : isPaginated options = true →
      ∃ context offset, (options.pageToken = "" ∧ OpensContext env options.index context ∧
        offset = 0) ∨
        (options.pageToken ≠ "" ∧ env.ParsePageToken options.pageToken = .ok (context, offset))) :
    ∃ logger before request token,
      genericList env log options =
        finishSearch env logger before request (isPaginated options) token ∧
      errorMessages before = [] ∧ searches before = [request] ∧
      (isPaginated options = true →
        issuedToken (handlePagination env (searchLogger log options) (searchBody env options)
          options.index options.pageToken options.pageSize) = some token) := by
  by_cases hp : isPaginated options = true
  · obtain ⟨context, offset, hc⟩ := hctx hp
    refine ⟨pageLogger env log options context, pageEvents env log options context offset,
      pageRequest env options context offset,
      env.CreatePageToken context (addInt offset options.pageSize), ?_,
      errorMessages_pageEvents env log options context offset,
      searches_pageEvents env log options context offset, ?_⟩
    · rw [hp]
      exact genericList_paginated env log options context offset hp hf hc
    · intro _
      rw [handlePagination_ok env _ _ _ _ _ context offset hc]
      rfl
  · have hp1 : isPaginated options = false := by simpa using hp
    refine ⟨fullLogger env log options, fullEvents env log options, fullRequest env options, "",
      ?_, errorMessages_fullEvents env log options,
      searches_fullEvents env log options, fun h => absurd h hp⟩
    rw [hp1]
    exact genericList_unpaginated env log options hp1 hf

/-- C11 (as stated, refuted): a paginated call with the malformed page token
`garbage` emits two error-level log entries, one by `handlePagination` and one
by `genericList`, and the returned error wraps the cause twice. -/
theorem C11_failure_entries_counterexample :
    binaryParsePageToken "garbage" = .error (GoError.plain "malformed page token") ∧
      errorMessages (genericList (modelIndex 5 fiveDocuments) sampleLogger
          { firstPage 2 with pageToken := "garbage" }).events =
        ["error parsing page token", "error while handling pagination"] ∧
      (errorEntries (genericList (modelIndex 5 fiveDocuments) sampleLogger
          { firstPage 2 with pageToken := "garbage" }).events).length = 2 ∧
      (genericList (modelIndex 5 fiveDocuments) sampleLogger
          { firstPage 2 with pageToken := "garbage" }).result =
        .error (GoError.status Code.Internal
          ("error while handling pagination: rpc error: code = Internal desc = " ++
            "error parsing page token: malformed page token")) := by
  refine ⟨?_, by decide, by decide, ?_⟩ <;> rfl


/-- C11 (amended): with the log modelled as the list of entries a call emits
and `internalError message cause` the error that `createError` makes of a
cause: a filter that does not compile makes `genericList` emit exactly one
error-level entry and return the cause wrapped once; a failure that
`genericList` detects from its search on (the search request fails, the
response is an error response or does not decode, the issued token does not
parse) makes it emit exactly one error-level entry for that failure and return
the cause wrapped once; a failure inside `handlePagination` (malformed page
token, search context not acquired) makes the call emit exactly two
error-level entries, the one of `handlePagination` and then `error while
handling pagination`, and return the cause wrapped twice. Every failing call
is of one of these three kinds. -/
theorem C11_failure_entries (env : EsEnv) (log : Logger) (options : genericListOptions) :
    (∀ cause, options.filter ≠ "" → env.ParseExpression options.filter = .error cause →
      errorMessages (genericList env log options).events =
          ["error while parsing filter expression"] ∧
        (genericList env log options).result =
          .error (internalError "error while parsing filter expression" (some cause))) ∧
    (∀ message cause, FilterCompiles env options → isPaginated options = true →
      PaginationFailure env options.index options.pageToken message cause →
      errorMessages (genericList env log options).events =
          [message, "error while handling pagination"] ∧
        (genericList env log options).result =
          .error (internalError "error while handling pagination"
            (some (internalError message cause)))) ∧
    (∀ request token message cause,
      searches (genericList env log options).events = [request] →
      (isPaginated options = true →
        issuedToken (handlePagination env (searchLogger log options) (searchBody env options)
          options.index options.pageToken options.pageSize) = some token) →
      SearchFailure env request (isPaginated options) token message cause →
      errorMessages (genericList env log options).events = [message] ∧
        (genericList env log options).result = .error (internalError message cause)) ∧
    (∀ err, (genericList env log options).result = .error err →
      (options.filter ≠ "" ∧ ∃ cause, env.ParseExpression options.filter = .error cause) ∨
      (FilterCompiles env options ∧ isPaginated options = true ∧
        ∃ message cause,
          PaginationFailure env options.index options.pageToken message cause) ∨
      (∃ request token message cause,
        searches (genericList env log options).events = [request] ∧
        (isPaginated options = true →
          issuedToken (handlePagination env (searchLogger log options)
            (searchBody env options) options.index options.pageToken options.pageSize) =
              some token) ∧
        SearchFailure env request (isPaginated options) token message cause)) := by
  refine ⟨?_, ?_, ?_, ?_⟩
  · intro cause hfe hparse
    rw [genericList_filter_error env log options cause hfe hparse]
    simp [Run.fail, errorMessages_append, createError_made, errorMessages, errorEntries]
  · intro message cause hf hp hfailure
    obtain ⟨hresult, hlogged⟩ := handlePagination_failure env (searchLogger log options)
      (searchBody env options) options.index options.pageToken options.pageSize message cause
      hfailure
    rw [genericList_pagination_error env log options _ hp hf hresult]
    simp [Run.fail, errorMessages_append, createError_made, errorMessages_filterEvents, hlogged]
  · intro request token message cause hs htoken hfailure
    obtain ⟨hf, hctx⟩ := genericList_reaches_search env log options
      (Or.inl (by rw [hs]; simp))
    obtain ⟨logger, before, sent, issued, hrun, hquiet, hsent, hissued⟩ :=
      genericList_search env log options hf hctx
    rw [hrun] at hs ⊢
    rw [(finishSearch_events env logger before sent (isPaginated options) issued).1, hsent] at hs
    have hreq : sent = request := by simpa using hs
    subst hreq
    have hfailure1 := SearchFailure.token env sent (isPaginated options) token issued message
      cause hfailure (fun hp => by
        have h1 := htoken hp
        rw [hissued hp] at h1
        exact (Option.some.inj h1).symm)
    obtain ⟨hresult, hlogged⟩ := finishSearch_failure env logger before sent
      (isPaginated options) issued message cause hfailure1
    rw [hresult, hlogged, hquiet]
    exact ⟨rfl, rfl⟩
  · intro err hfail
    by_cases hcompiles : FilterCompiles env options
    · by_cases hctx : isPaginated options = true →
          ∃ context offset, (options.pageToken = "" ∧ OpensContext env options.index context ∧
            offset = 0) ∨
            (options.pageToken ≠ "" ∧
              env.ParsePageToken options.pageToken = .ok (context, offset))
      · obtain ⟨logger, before, sent, issued, hrun, _, hsent, hissued⟩ :=
          genericList_search env log options hcompiles hctx
        rw [hrun] at hfail
        obtain ⟨message, cause, hfailure⟩ := finishSearch_total env logger before sent
          (isPaginated options) issued err hfail
        refine Or.inr (Or.inr ⟨sent, issued, message, cause, ?_, hissued, hfailure⟩)
        rw [hrun, (finishSearch_events env logger before sent (isPaginated options) issued).1,
          hsent]
      · have hp : isPaginated options = true := by
          by_contra hnot
          exact hctx (fun h => absurd h hnot)
        rcases handlePagination_total env options.index options.pageToken with hc | hfailure
        · exact absurd (fun _ => hc) hctx
        · exact Or.inr (Or.inl ⟨hcompiles, hp, hfailure⟩)
    · left
      have hfe : options.filter ≠ "" := fun h => hcompiles (Or.inl h)
      refine ⟨hfe, ?_⟩
      cases hparse : env.ParseExpression options.filter with
      | error cause => exact ⟨cause, rfl⟩
      | ok query => exact absurd (Or.inr ⟨query, hparse⟩) hcompiles

set_option maxRecDepth 8192 in
/-- C11 (amended) on three failing calls: the filter `(` over the model index
gives one error entry and the cause wrapped once; a first page that cannot
open its search context gives two error entries and the cause wrapped twice;
an unpaginated call over an index that cannot be reached gives one error
entry and the cause wrapped once. -/
theorem C11_failure_entries_witness :
    (errorMessages (genericList (modelIndex 5 fiveDocuments) sampleLogger
          { firstPage 2 with filter := "(" }).events =
        ["error while parsing filter expression"] ∧
      (genericList (modelIndex 5 fiveDocuments) sampleLogger
          { firstPage 2 with filter := "(" }).result =
        .error (internalError "error while parsing filter expression"
          (some (GoError.plain "unexpected end of expression")))) ∧
    (errorMessages (genericList
          { modelIndex 5 fiveDocuments with
            OpenPointInTime := fun _ _ => .error (GoError.plain "connection refused") }
          sampleLogger (firstPage 2)).events =
        ["error sending request to elasticsearch", "error while handling pagination"] ∧
      (genericList
          { modelIndex 5 fiveDocuments with
            OpenPointInTime := fun _ _ => .error (GoError.plain "connection refused") }
          sampleLogger (firstPage 2)).result =
        .error (internalError "error while handling pagination"
          (some (internalError "error sending request to elasticsearch"
            (some (GoError.plain "connection refused")))))) ∧
    (errorMessages (genericList unreachableIndex sampleLogger (firstPage 0)).events =
        ["error sending request to elasticsearch"] ∧
      (genericList unreachableIndex sampleLogger (firstPage 0)).result =
        .error (internalError "error sending request to elasticsearch"
          (some (GoError.plain "connection refused")))) :=
  ⟨(C11_failure_entries (modelIndex 5 fiveDocuments) sampleLogger
      { firstPage 2 with filter := "(" }).1 (GoError.plain "unexpected end of expression")
      (by decide) rfl,
    (C11_failure_entries
      { modelIndex 5 fiveDocuments with
        OpenPointInTime := fun _ _ => .error (GoError.plain "connection refused") }
      sampleLogger (firstPage 2)).2.1 "error sending request to elasticsearch"
      (some (GoError.plain "connection refused")) (Or.inl rfl) rfl
      (Or.inr (Or.inl ⟨rfl, GoError.plain "connection refused", rfl, rfl, rfl⟩)),
    (C11_failure_entries unreachableIndex sampleLogger (firstPage 0)).2.2.1
      (fullRequest unreachableIndex (firstPage 0)) "" "error sending request to elasticsearch"
      (some (GoError.plain "connection refused")) rfl (fun h => absurd h (by decide))
      (Or.inl ⟨GoError.plain "connection refused", rfl, rfl, rfl⟩)⟩


/-! ## Reconciliation with the listed notes -/

/-- What the model store returns for a `BatchCreateNotes` request has
canonical names. -/
theorem modelNoteStore_created_canonical (store : NoteStore) (request : BatchCreateNotesRequest)
    (created : BatchCreateNotesResponse)
    (h : (modelNoteStore.BatchCreateNotes store request).1 = .ok created) :
    CanonicalNames created.Notes := by
  simp only [modelNoteStore, Except.ok.injEq] at h
  subst h
  exact storedNote_canonical _

/-- The listing of the example has canonical names. -/
theorem sampleListing_canonical :
    CanonicalNames [⟨"projects/rode/notes/scanner-build", NoteKind.BUILD, "stored", ""⟩] := by
  intro note hnote
  rw [List.mem_singleton.1 hnote]
  decide

/-- C4: for a request with a non-empty collector id and pairwise distinct
derived keys and a successful `ListNotes` response, against a note store that
names its notes `projects/rode/notes/<id>` (in what it lists and in what it
returns as created): `BatchCreateNotes` is called if and only if some
requested key is the id of no listed note, then exactly once, with exactly the
requested entries whose key is the id of no listed note; the call returns a
result exactly when `BatchCreateNotes` is not called or succeeds; the key set
of the result is the set of derived keys; and each requested key that is the
id of a listed note carries that listed note's name in the result and is not
sent for creation. -/
theorem C4_reconciliation {σ : Type} (grafeasCommon : GrafeasClient σ) (logger : Logger)
    (store : σ) (request : RegisterCollectorRequest) (listed : ListNotesResponse)
    (hid : request.Id ≠ "") (hkeys : (derivedKeys request).Nodup)
    (hlist : grafeasCommon.ListNotes store (listNotesRequest request) = .ok listed)
    (hlisted : CanonicalNames listed.Notes)
    (hcreated : ∀ created, (grafeasCommon.BatchCreateNotes store
      (batchCreateNotesRequest request listed.Notes)).1 = .ok created →
        CanonicalNames created.Notes) :
    batchCreateNotesCalls (RegisterCollector grafeasCommon logger store request).1.events =
        (if unmatchedEntries request listed.Notes = [] then []
          else [batchCreateNotesRequest request listed.Notes]) ∧
      (unmatchedEntries request listed.Notes ≠ [] ↔
        ∃ key ∈ derivedKeys request, key ∉ listedIds listed.Notes) ∧
      (∀ key, key ∈ (unmatchedEntries request listed.Notes).keys ↔
        key ∈ derivedKeys request ∧ key ∉ listedIds listed.Notes) ∧
      ((∃ response, (RegisterCollector grafeasCommon logger store request).1.result = .ok response) ↔
        (unmatchedEntries request listed.Notes = [] ∨
          ∃ created, (grafeasCommon.BatchCreateNotes store
            (batchCreateNotesRequest request listed.Notes)).1 = .ok created)) ∧
      ∀ response, (RegisterCollector grafeasCommon logger store request).1.result = .ok response →
        response.Notes.keys = derivedKeys request ∧
        ∀ key ∈ derivedKeys request, ∀ note ∈ listed.Notes,
          getNoteIdFromNoteName note.Name = key →
            (response.Notes.get key).map Note.Name = some note.Name ∧
            key ∉ (unmatchedEntries request listed.Notes).keys := by
  obtain ⟨hcalls, hsent, hresult, hnames⟩ := RegisterCollector_reconciliation grafeasCommon
    logger store request listed hid hkeys hlist
  refine ⟨hcalls, ?_, hsent, hresult, ?_⟩
  · constructor
    · intro hne
      obtain ⟨entry, hentry⟩ := List.exists_mem_of_ne_nil _ hne
      have hkey : entry.1 ∈ (unmatchedEntries request listed.Notes).keys :=
        List.mem_map_of_mem _ hentry
      exact ⟨entry.1, (hsent entry.1).1 hkey⟩
    · rintro ⟨key, hkey, hnot⟩ hnil
      have hmem := (hsent key).2 ⟨hkey, hnot⟩
      rw [hnil] at hmem
      simp [GoMap.keys] at hmem
  · intro response hr
    refine ⟨(hnames response hr).1, ?_⟩
    intro key hkey note hnote hnoteid
    have hmatched : key ∈ listedIds listed.Notes := by
      rw [← hnoteid]
      exact List.mem_map_of_mem _ hnote
    have hname : note.Name = "projects/rode/notes/" ++ key := by
      rw [hlisted note hnote, hnoteid]
    refine ⟨?_, fun hmem => ((hsent key).1 hmem).2 hmatched⟩
    have hlen : request.Notes ≠ [] := by
      intro hnil
      simp [derivedKeys, hnil] at hkey
    rw [RegisterCollector_listed _ _ _ _ listed hid hlen hkeys hlist] at hr
    rw [hname]
    by_cases hu : unmatchedEntries request listed.Notes = []
    · simp only [hu, if_true, Except.ok.injEq] at hr
      subst hr
      exact final_name request listed.Notes [] key hkey hlisted (by intro _ h; simp at h)
        (Or.inl hmatched)
    · simp only [hu, if_false] at hr
      cases hb : grafeasCommon.BatchCreateNotes store
          (batchCreateNotesRequest request listed.Notes) with
      | mk outcome store1 =>
        cases outcome with
        | error err => simp [hb, Run.fail] at hr
        | ok created =>
          simp only [hb, Except.ok.injEq] at hr
          subst hr
          exact final_name request listed.Notes created.Notes key hkey hlisted
            (hcreated created (by rw [hb])) (Or.inl hmatched)

/-- C4 at the request `sampleRequest` against the model store `sampleStore`:
only the image note is sent for creation, the call returns a result, and in
every result the build key carries the name of the listed build note. -/
theorem C4_reconciliation_witness :
    batchCreateNotesCalls (RegisterCollector modelNoteStore sampleLogger sampleStore sampleRequest).1.events =
        [⟨"projects/rode", [("scanner-image", ⟨"", NoteKind.IMAGE, "image note", ""⟩)]⟩] ∧
      (∃ response, (RegisterCollector modelNoteStore sampleLogger sampleStore sampleRequest).1.result =
        .ok response) ∧
      ∀ response, (RegisterCollector modelNoteStore sampleLogger sampleStore sampleRequest).1.result =
        .ok response →
          (response.Notes.get "scanner-build").map Note.Name =
            some "projects/rode/notes/scanner-build" :=
  ⟨(C4_reconciliation modelNoteStore sampleLogger sampleStore sampleRequest
      { Notes := [⟨"projects/rode/notes/scanner-build", NoteKind.BUILD, "stored", ""⟩] }
      (by decide) (by decide) rfl sampleListing_canonical
      (fun created h => modelNoteStore_created_canonical _ _ created h)).1,
    (C4_reconciliation modelNoteStore sampleLogger sampleStore sampleRequest
      { Notes := [⟨"projects/rode/notes/scanner-build", NoteKind.BUILD, "stored", ""⟩] }
      (by decide) (by decide) rfl sampleListing_canonical
      (fun created h => modelNoteStore_created_canonical _ _ created h)).2.2.2.1.2
        (Or.inr ⟨_, rfl⟩),
    fun response hr =>
      ((C4_reconciliation modelNoteStore sampleLogger sampleStore sampleRequest
        { Notes := [⟨"projects/rode/notes/scanner-build", NoteKind.BUILD, "stored", ""⟩] }
        (by decide) (by decide) rfl sampleListing_canonical
        (fun created h => modelNoteStore_created_canonical _ _ created h)).2.2.2.2 response hr).2
          "scanner-build" (by decide)
          ⟨"projects/rode/notes/scanner-build", NoteKind.BUILD, "stored", ""⟩
          (List.mem_singleton.2 rfl) (by decide) |>.1⟩


/-! ## The offset of the issued token at the largest `int` -/

/-- C7 (as stated, refuted): a continuation call with page size 1 whose page
token decodes to `(pit-1, o)` with `o` the largest `int` reaches the search
(bound to `pit-1`, with `from = o` and `size = 1`), and the token that
`handlePagination` issues decodes to the smallest `int`, which is not
`o + pageSize`. -/
theorem C7_paginated_search_counterexample :
    isPaginated { firstPage 1 with pageToken := binaryCreatePageToken "pit-1" maxInt } = true ∧
      binaryParsePageToken (binaryCreatePageToken "pit-1" maxInt) = .ok ("pit-1", maxInt) ∧
      searches (genericList (modelIndex 5 fiveDocuments) sampleLogger
          { firstPage 1 with pageToken := binaryCreatePageToken "pit-1" maxInt }).events =
        [pageRequest (modelIndex 5 fiveDocuments)
          { firstPage 1 with pageToken := binaryCreatePageToken "pit-1" maxInt } "pit-1" maxInt] ∧
      issuedToken (handlePagination (modelIndex 5 fiveDocuments) sampleLogger
          (searchBody (modelIndex 5 fiveDocuments)
            { firstPage 1 with pageToken := binaryCreatePageToken "pit-1" maxInt })
          rodeElasticsearchOccurrencesAlias (binaryCreatePageToken "pit-1" maxInt) 1) =
        some (binaryCreatePageToken "pit-1" minInt) ∧
      binaryParsePageToken (binaryCreatePageToken "pit-1" minInt) = .ok ("pit-1", minInt) ∧
      minInt ≠ maxInt + 1 := by
  have hne : binaryCreatePageToken "pit-1" maxInt ≠ "" := binary_nonempty "pit-1" maxInt
  have hdec := modelIndex_decodes 5 fiveDocuments "pit-1" maxInt ⟨by decide, by decide⟩
  have hp : isPaginated { firstPage 1 with pageToken := binaryCreatePageToken "pit-1" maxInt } =
      true := by
    simp [isPaginated, hne]
  refine ⟨hp, binary_roundtrip "pit-1" maxInt ⟨by decide, by decide⟩, ?_, ?_,
    binary_roundtrip "pit-1" minInt ⟨by decide, by decide⟩, by decide⟩
  · exact (genericList_paginated_events (modelIndex 5 fiveDocuments) sampleLogger
      { firstPage 1 with pageToken := binaryCreatePageToken "pit-1" maxInt } "pit-1" maxInt hp
      (Or.inl rfl) (Or.inr ⟨hne, hdec⟩)).1
  · rw [handlePagination_ok (modelIndex 5 fiveDocuments) sampleLogger _ _
      (binaryCreatePageToken "pit-1" maxInt) 1 "pit-1" maxInt (Or.inr ⟨hne, hdec⟩)]
    rfl

end Rode
